import Mathlib

/-!
Shallow embedding of the link-game engine
(`src/components/link-game/LinkGameEngine.ts`) and proofs of the
specification's testable properties.

Modelling conventions:
* `pictures` (the grid) is a `List (List CellInfo)`; `getCell` returns an
  always-empty default cell out of bounds, so that "occupied" implies
  "inside the real grid".
* The `pic` field holds the single letter character the source stores as a
  one-character string (empty cells store a space in place of `''`).
* Randomness (`Math.random`) is modelled by explicit oracle parameters:
  random letter draws are a `Nat → Fin 26` stream, random index tags a
  `Nat → Nat` stream, and the random-comparator `sort` shuffles are
  arbitrary functions that theorems constrain to be permutations where the
  JavaScript contract (`Array.prototype.sort` permutes) matters.
* The engine's callback fields are modelled as always-attached observers
  that record `Event`s, except `onDrawLine`, whose attachment is a state
  flag because its nullness changes the control flow (synchronous vs
  acknowledged resolution).
-/

/-- Game-over classification, `GameOverType` in the source. -/
inductive GameOverType where
  | Normal
  | StepsExceeded
  | TimeExceeded
deriving DecidableEq, Repr

/-- One grid cell, `CellInfo` in the source.  `index` is `none` when the
source leaves the optional field undefined. -/
structure CellInfo where
  isEmpty : Bool
  type : Int
  pic : Char
  index : Option Nat
deriving DecidableEq, Repr

/-- A clicked cell, `ClickInfo` in the source. -/
structure ClickInfo where
  row : Nat
  col : Nat
  index : Nat
deriving DecidableEq, Repr

/-- A polyline vertex `[x, y]` (column, row). -/
abbrev Pt := Nat × Nat

abbrev Grid := List (List CellInfo)

/-- The default result of an out-of-bounds read: an empty cell. -/
def emptyCell : CellInfo := ⟨true, 0, ' ', none⟩

/-- `this.pictures[row][col]`. -/
def getCell (g : Grid) (row col : Nat) : CellInfo :=
  (g.getD row []).getD col emptyCell

/-- `this.pictures[row][col] = c` (no-op out of bounds, where the source
would crash). -/
def setCell (g : Grid) (row col : Nat) (c : CellInfo) : Grid :=
  g.set row ((g.getD row []).set col c)

/-- Matching test used throughout the source:
`pic1.toLowerCase() === pic2.toLowerCase() && pic1 !== pic2`. -/
def isMatchChar (a b : Char) : Bool :=
  a.toLower == b.toLower && a != b

/-- `isRowEmpty(x1, y1, x2, y2)`: the cells strictly between columns
`x1` and `x2` on row `y1` are all empty (`false` when `y1 ≠ y2`). -/
def isRowEmptyB (g : Grid) (x1 y1 x2 y2 : Nat) : Bool :=
  if y1 ≠ y2 then false
  else
    let mn := min x1 x2
    let mx := max x1 x2
    (List.range' (mn + 1) (mx - (mn + 1))).all fun i => (getCell g y1 i).isEmpty

/-- `isColEmpty(x1, y1, x2, y2)`: the cells strictly between rows
`y1` and `y2` in column `x1` are all empty (`false` when `x1 ≠ x2`). -/
def isColEmptyB (g : Grid) (x1 y1 x2 y2 : Nat) : Bool :=
  if x1 ≠ x2 then false
  else
    let mn := min y1 y2
    let mx := max y1 y2
    (List.range' (mn + 1) (mx - (mn + 1))).all fun i => (getCell g i x1).isEmpty

/-- A bounded `while` loop with an early `break` test and an accepting
test, the shape of every detour scan in `canCleanup`:
`while (guard i) { if (brk i) break; if acc i return it; i++ }`. -/
def scanWhile (guard brk : Nat → Bool) (acc : Nat → Option (List Pt)) :
    Nat → Nat → Option (List Pt)
  | 0, _ => none
  | fuel + 1, i =>
    if guard i then
      if brk i then none
      else
        match acc i with
        | some ps => some ps
        | none => scanWhile guard brk acc fuel (i + 1)
    else none

/-- The same-column block of `canCleanup` (adjacent, straight run, right
detour scan, left detour scan). -/
def canCleanupColCase (g : Grid) (cols : Nat) (x1 y1 x2 y2 : Nat) : Option (List Pt) :=
  if x1 = x2 then
    if ((y1 : Int) - (y2 : Int)).natAbs = 1 then some [(x1, y1), (x2, y2)]
    else if isColEmptyB g x1 y1 x2 y2 then some [(x1, y1), (x2, y2)]
    else
      (scanWhile
        (fun i => decide (x1 + i < cols) && (getCell g y1 (x1 + i)).isEmpty)
        (fun i => !(getCell g y2 (x2 + i)).isEmpty)
        (fun i =>
          if isColEmptyB g (x1 + i) y1 (x1 + i) y2 then
            some [(x1, y1), (x1 + i, y1), (x1 + i, y2), (x2, y2)]
          else none)
        cols 1) <|>
      (scanWhile
        (fun i => decide (i ≤ x1) && (getCell g y1 (x1 - i)).isEmpty)
        (fun i => !(getCell g y2 (x2 - i)).isEmpty)
        (fun i =>
          if isColEmptyB g (x1 - i) y1 (x1 - i) y2 then
            some [(x1, y1), (x1 - i, y1), (x1 - i, y2), (x2, y2)]
          else none)
        (x1 + 1) 1)
  else none

/-- The same-row block of `canCleanup`. -/
def canCleanupRowCase (g : Grid) (rows : Nat) (x1 y1 x2 y2 : Nat) : Option (List Pt) :=
  if y1 = y2 then
    if ((x1 : Int) - (x2 : Int)).natAbs = 1 then some [(x1, y1), (x2, y2)]
    else if isRowEmptyB g x1 y1 x2 y2 then some [(x1, y1), (x2, y2)]
    else
      (scanWhile
        (fun i => decide (y1 + i < rows) && (getCell g (y1 + i) x1).isEmpty)
        (fun i => !(getCell g (y2 + i) x2).isEmpty)
        (fun i =>
          if isRowEmptyB g x1 (y1 + i) x2 (y1 + i) then
            some [(x1, y1), (x1, y1 + i), (x2, y1 + i), (x2, y2)]
          else none)
        rows 1) <|>
      (scanWhile
        (fun i => decide (i ≤ y1) && (getCell g (y1 - i) x1).isEmpty)
        (fun i => !(getCell g (y2 - i) x2).isEmpty)
        (fun i =>
          if isRowEmptyB g x1 (y1 - i) x2 (y1 - i) then
            some [(x1, y1), (x1, y1 - i), (x2, y1 - i), (x2, y2)]
          else none)
        (y1 + 1) 1)
  else none

/-- The first one-turn corner of `canCleanup`, at `(x2, y1)`. -/
def canCleanupOneTurn1 (g : Grid) (x1 y1 x2 y2 : Nat) : Option (List Pt) :=
  if isRowEmptyB g x1 y1 x2 y1 && (getCell g y1 x2).isEmpty &&
      isColEmptyB g x2 y1 x2 y2 then
    some [(x1, y1), (x2, y1), (x2, y2)]
  else none

/-- The second one-turn corner of `canCleanup`, at `(x1, y2)`. -/
def canCleanupOneTurn2 (g : Grid) (x1 y1 x2 y2 : Nat) : Option (List Pt) :=
  if isColEmptyB g x1 y1 x1 y2 && (getCell g y2 x1).isEmpty &&
      isRowEmptyB g x1 y2 x2 y2 then
    some [(x1, y1), (x1, y2), (x2, y2)]
  else none

/-- The two-turn block of `canCleanup`: detour-column scan rightward then
leftward, then detour-row scan downward then upward. -/
def canCleanupTwoTurn (g : Grid) (rows cols : Nat) (x1 y1 x2 y2 : Nat) : Option (List Pt) :=
  if x1 ≠ x2 ∧ y1 ≠ y2 then
    (scanWhile (fun i => decide (x1 + i < cols))
      (fun i => !(getCell g y1 (x1 + i)).isEmpty)
      (fun i =>
        if isColEmptyB g (x1 + i) y1 (x1 + i) y2 &&
            isRowEmptyB g (x1 + i) y2 x2 y2 &&
            (getCell g y2 (x1 + i)).isEmpty then
          some [(x1, y1), (x1 + i, y1), (x1 + i, y2), (x2, y2)]
        else none)
      cols 1) <|>
    (scanWhile (fun i => decide (i ≤ x1))
      (fun i => !(getCell g y1 (x1 - i)).isEmpty)
      (fun i =>
        if isColEmptyB g (x1 - i) y1 (x1 - i) y2 &&
            isRowEmptyB g (x1 - i) y2 x2 y2 &&
            (getCell g y2 (x1 - i)).isEmpty then
          some [(x1, y1), (x1 - i, y1), (x1 - i, y2), (x2, y2)]
        else none)
      (x1 + 1) 1) <|>
    (scanWhile (fun i => decide (y1 + i < rows))
      (fun i => !(getCell g (y1 + i) x1).isEmpty)
      (fun i =>
        if isRowEmptyB g x1 (y1 + i) x2 (y1 + i) &&
            isColEmptyB g x2 (y1 + i) x2 y2 &&
            (getCell g (y1 + i) x2).isEmpty then
          some [(x1, y1), (x1, y1 + i), (x2, y1 + i), (x2, y2)]
        else none)
      rows 1) <|>
    (scanWhile (fun i => decide (i ≤ y1))
      (fun i => !(getCell g (y1 - i) x1).isEmpty)
      (fun i =>
        if isRowEmptyB g x1 (y1 - i) x2 (y1 - i) &&
            isColEmptyB g x2 (y1 - i) x2 y2 &&
            (getCell g (y1 - i) x2).isEmpty then
          some [(x1, y1), (x1, y1 - i), (x2, y1 - i), (x2, y2)]
        else none)
      (y1 + 1) 1)
  else none

/-- `canCleanup(x1, y1, x2, y2)`: decides whether the two cells can be
linked by an orthogonal path with at most two turns, and returns the
turning points the source leaves in `this.points` on success (`none`
models the `false` return, after which `this.points` is `[]`). -/
def canCleanup (g : Grid) (rows cols : Nat) (x1 y1 x2 y2 : Nat) : Option (List Pt) :=
  canCleanupColCase g cols x1 y1 x2 y2 <|>
  canCleanupRowCase g rows x1 y1 x2 y2 <|>
  canCleanupOneTurn1 g x1 y1 x2 y2 <|>
  canCleanupOneTurn2 g x1 y1 x2 y2 <|>
  canCleanupTwoTurn g rows cols x1 y1 x2 y2

theorem orElse_isSome (a b : Option (List Pt)) :
    (a <|> b).isSome = (a.isSome || b.isSome) := by
  cases a <;> rfl

theorem scanWhile_isSome_iff (guard brk : Nat → Bool) (acc : Nat → Option (List Pt)) :
    ∀ (fuel start : Nat),
      (scanWhile guard brk acc fuel start).isSome = true ↔
      ∃ n, n < fuel ∧
        (∀ k, k ≤ n → guard (start + k) = true ∧ brk (start + k) = false) ∧
        (acc (start + n)).isSome = true := by
  intro fuel
  induction fuel with
  | zero => intro start; simp [scanWhile]
  | succ m ih =>
    intro start
    constructor
    · intro h
      rw [scanWhile] at h
      by_cases hg : guard start = true
      · rw [if_pos hg] at h
        by_cases hb : brk start = true
        · rw [if_pos hb] at h; simp at h
        · rw [if_neg hb] at h
          rcases hacc : acc start with _ | ps
          · rw [hacc] at h
            obtain ⟨n, hn, hpre, haccn⟩ := (ih (start + 1)).mp h
            refine ⟨n + 1, by omega, ?_, ?_⟩
            · intro k hk
              rcases Nat.eq_zero_or_pos k with hk0 | hkpos
              · subst hk0
                simpa using ⟨hg, Bool.of_not_eq_true hb⟩
              · obtain ⟨k', rfl⟩ := Nat.exists_eq_add_of_le hkpos
                have := hpre k' (by omega)
                have heq : start + 1 + k' = start + (1 + k') := by omega
                rw [heq] at this
                exact this
            · have heq : start + 1 + n = start + (n + 1) := by omega
              rw [heq] at haccn
              exact haccn
          · rw [hacc] at h
            exact ⟨0, by omega, fun k hk => by
                have : k = 0 := Nat.le_zero.mp hk
                subst this
                simpa using ⟨hg, Bool.of_not_eq_true hb⟩,
              by simpa using congrArg Option.isSome hacc.symm ▸ rfl⟩
      · rw [if_neg hg] at h; simp at h
    · rintro ⟨n, hn, hpre, haccn⟩
      rw [scanWhile]
      have h0 := hpre 0 (Nat.zero_le n)
      simp only [Nat.add_zero] at h0
      rw [if_pos h0.1, if_neg (by simp [h0.2])]
      rcases hacc : acc start with _ | ps
      · rcases Nat.eq_zero_or_pos n with hn0 | hnpos
        · subst hn0
          rw [Nat.add_zero, hacc] at haccn
          simp at haccn
        · obtain ⟨n', rfl⟩ := Nat.exists_eq_add_of_le hnpos
          refine (ih (start + 1)).mpr ⟨n', by omega, ?_, ?_⟩
          · intro k hk
            have := hpre (1 + k) (by omega)
            have heq : start + (1 + k) = start + 1 + k := by omega
            rw [heq] at this
            exact this
          · have heq : start + (1 + n') = start + 1 + n' := by omega
            rw [heq] at haccn
            exact haccn
      · rfl

theorem isRowEmptyB_swap (g : Grid) (x1 y1 x2 y2 : Nat) :
    isRowEmptyB g x2 y2 x1 y1 = isRowEmptyB g x1 y1 x2 y2 := by
  by_cases h : y1 = y2
  · subst h
    simp [isRowEmptyB, Nat.min_comm, Nat.max_comm]
  · rw [isRowEmptyB, isRowEmptyB, if_pos (fun hh => h (hh.symm)), if_pos h]

theorem isColEmptyB_swap (g : Grid) (x1 y1 x2 y2 : Nat) :
    isColEmptyB g x2 y2 x1 y1 = isColEmptyB g x1 y1 x2 y2 := by
  by_cases h : x1 = x2
  · subst h
    simp [isColEmptyB, Nat.min_comm, Nat.max_comm]
  · rw [isColEmptyB, isColEmptyB, if_pos (fun hh => h (hh.symm)), if_pos h]

theorem isRowEmptyB_same_iff (g : Grid) (a y b : Nat) :
    isRowEmptyB g a y b y = true ↔
    ∀ m, min a b < m → m < max a b → (getCell g y m).isEmpty = true := by
  rw [isRowEmptyB]
  rw [if_neg (by simp)]
  simp only [List.all_eq_true, List.mem_range']
  constructor
  · intro h m h1 h2
    exact h m ⟨m - (min a b + 1), by omega, by omega⟩
  · rintro h m ⟨i, hi, rfl⟩
    exact h _ (by omega) (by omega)

theorem isColEmptyB_same_iff (g : Grid) (x y1 y2 : Nat) :
    isColEmptyB g x y1 x y2 = true ↔
    ∀ m, min y1 y2 < m → m < max y1 y2 → (getCell g m x).isEmpty = true := by
  rw [isColEmptyB]
  rw [if_neg (by simp)]
  simp only [List.all_eq_true, List.mem_range']
  constructor
  · intro h m h1 h2
    exact h m ⟨m - (min y1 y2 + 1), by omega, by omega⟩
  · rintro h m ⟨i, hi, rfl⟩
    exact h _ (by omega) (by omega)

/-- The acceptance condition of the two-turn column scans of `canCleanup`
at detour column `i`: both corner cells `(y1, i)` and `(y2, i)` empty, row
`y1` clear between `x1` and `i`, column `i` clear between the two rows,
and row `y2` clear between `i` and `x2`. -/
def ttColCond (g : Grid) (cols x1 y1 x2 y2 i : Nat) : Prop :=
  i < cols ∧ (getCell g y1 i).isEmpty = true ∧ isRowEmptyB g x1 y1 i y1 = true ∧
  isColEmptyB g i y1 i y2 = true ∧ isRowEmptyB g i y2 x2 y2 = true ∧
  (getCell g y2 i).isEmpty = true

/-- The acceptance condition of the two-turn row scans of `canCleanup` at
detour row `j`. -/
def ttRowCond (g : Grid) (rows x1 y1 x2 y2 j : Nat) : Prop :=
  j < rows ∧ (getCell g j x1).isEmpty = true ∧ isColEmptyB g x1 y1 x1 j = true ∧
  isRowEmptyB g x1 j x2 j = true ∧ isColEmptyB g x2 j x2 y2 = true ∧
  (getCell g j x2).isEmpty = true

theorem ttColCond_swap (g : Grid) (cols x1 y1 x2 y2 i : Nat) :
    ttColCond g cols x2 y2 x1 y1 i ↔ ttColCond g cols x1 y1 x2 y2 i := by
  unfold ttColCond
  rw [isRowEmptyB_swap g x2 y2 i, isColEmptyB_swap g i y2 i y1,
    isRowEmptyB_swap g i y1 x1]
  tauto

theorem ttRowCond_swap (g : Grid) (rows x1 y1 x2 y2 j : Nat) :
    ttRowCond g rows x2 y2 x1 y1 j ↔ ttRowCond g rows x1 y1 x2 y2 j := by
  unfold ttRowCond
  rw [isColEmptyB_swap g x2 y2 x2 j, isRowEmptyB_swap g x2 j x1 j,
    isColEmptyB_swap g x1 j x1 y1]
  tauto

theorem ttScanR_isSome_iff (g : Grid) (cols x1 y1 x2 y2 : Nat) :
    (scanWhile (fun i => decide (x1 + i < cols))
      (fun i => !(getCell g y1 (x1 + i)).isEmpty)
      (fun i =>
        if isColEmptyB g (x1 + i) y1 (x1 + i) y2 &&
            isRowEmptyB g (x1 + i) y2 x2 y2 &&
            (getCell g y2 (x1 + i)).isEmpty then
          some [(x1, y1), (x1 + i, y1), (x1 + i, y2), (x2, y2)]
        else none)
      cols 1).isSome = true ↔
    ∃ i, x1 < i ∧ ttColCond g cols x1 y1 x2 y2 i := by
  rw [scanWhile_isSome_iff]
  constructor
  · rintro ⟨n, hn, hpre, hacc⟩
    refine ⟨x1 + (1 + n), by omega, ?_⟩
    have hlast := hpre n (Nat.le_refl n)
    rw [Bool.not_eq_false'] at hlast
    have hacc' : (isColEmptyB g (x1 + (1 + n)) y1 (x1 + (1 + n)) y2 &&
        isRowEmptyB g (x1 + (1 + n)) y2 x2 y2 &&
        (getCell g y2 (x1 + (1 + n))).isEmpty) = true := by
      by_contra hcon
      rw [Bool.not_eq_true] at hcon
      rw [if_neg (by simp [hcon])] at hacc
      simp at hacc
    rw [Bool.and_eq_true, Bool.and_eq_true] at hacc'
    refine ⟨by have := hlast.1; simpa using this, hlast.2, ?_,
      hacc'.1.1, hacc'.1.2, hacc'.2⟩
    rw [isRowEmptyB_same_iff]
    intro m hm1 hm2
    have hm1' : x1 < m := by omega
    have hm2' : m < x1 + (1 + n) := by omega
    have := (hpre (m - x1 - 1) (by omega)).2
    rw [Bool.not_eq_false'] at this
    have heq : x1 + (1 + (m - x1 - 1)) = m := by omega
    rw [heq] at this
    exact this
  · rintro ⟨i, hgt, hc, he1, hrow, hcol, hrow2, he2⟩
    refine ⟨i - x1 - 1, by omega, ?_, ?_⟩
    · intro k hk
      constructor
      · simp only [decide_eq_true_eq]
        omega
      · rw [Bool.not_eq_false']
        rcases Nat.lt_or_ge k (i - x1 - 1) with hlt | hge
        · rw [isRowEmptyB_same_iff] at hrow
          exact hrow (x1 + (1 + k)) (by omega) (by omega)
        · have hkeq : k = i - x1 - 1 := by omega
          subst hkeq
          have heq : x1 + (1 + (i - x1 - 1)) = i := by omega
          rw [heq]
          exact he1
    · have heq : x1 + (1 + (i - x1 - 1)) = i := by omega
      rw [heq, if_pos (by rw [Bool.and_eq_true, Bool.and_eq_true]; exact ⟨⟨hcol, hrow2⟩, he2⟩)]
      rfl

theorem ttScanL_isSome_iff (g : Grid) (cols x1 y1 x2 y2 : Nat) (hx1 : x1 ≤ cols) :
    (scanWhile (fun i => decide (i ≤ x1))
      (fun i => !(getCell g y1 (x1 - i)).isEmpty)
      (fun i =>
        if isColEmptyB g (x1 - i) y1 (x1 - i) y2 &&
            isRowEmptyB g (x1 - i) y2 x2 y2 &&
            (getCell g y2 (x1 - i)).isEmpty then
          some [(x1, y1), (x1 - i, y1), (x1 - i, y2), (x2, y2)]
        else none)
      (x1 + 1) 1).isSome = true ↔
    ∃ i, i < x1 ∧ ttColCond g cols x1 y1 x2 y2 i := by
  rw [scanWhile_isSome_iff]
  constructor
  · rintro ⟨n, hn, hpre, hacc⟩
    have hbound := (hpre n (Nat.le_refl n)).1
    simp only [decide_eq_true_eq] at hbound
    refine ⟨x1 - (1 + n), by omega, ?_⟩
    have hlast := hpre n (Nat.le_refl n)
    rw [Bool.not_eq_false'] at hlast
    have hacc' : (isColEmptyB g (x1 - (1 + n)) y1 (x1 - (1 + n)) y2 &&
        isRowEmptyB g (x1 - (1 + n)) y2 x2 y2 &&
        (getCell g y2 (x1 - (1 + n))).isEmpty) = true := by
      by_contra hcon
      rw [Bool.not_eq_true] at hcon
      rw [if_neg (by simp [hcon])] at hacc
      simp at hacc
    rw [Bool.and_eq_true, Bool.and_eq_true] at hacc'
    refine ⟨by omega, hlast.2, ?_, hacc'.1.1, hacc'.1.2, hacc'.2⟩
    rw [isRowEmptyB_same_iff]
    intro m hm1 hm2
    have hm1' : x1 - (1 + n) < m := by omega
    have hm2' : m < x1 := by omega
    have := (hpre (x1 - m - 1) (by omega)).2
    rw [Bool.not_eq_false'] at this
    have heq : x1 - (1 + (x1 - m - 1)) = m := by omega
    rw [heq] at this
    exact this
  · rintro ⟨i, hlt, hc, he1, hrow, hcol, hrow2, he2⟩
    refine ⟨x1 - i - 1, by omega, ?_, ?_⟩
    · intro k hk
      constructor
      · simp only [decide_eq_true_eq]
        omega
      · rw [Bool.not_eq_false']
        rcases Nat.lt_or_ge k (x1 - i - 1) with hklt | hge
        · rw [isRowEmptyB_same_iff] at hrow
          exact hrow (x1 - (1 + k)) (by omega) (by omega)
        · have hkeq : k = x1 - i - 1 := by omega
          subst hkeq
          have heq : x1 - (1 + (x1 - i - 1)) = i := by omega
          rw [heq]
          exact he1
    · have heq : x1 - (1 + (x1 - i - 1)) = i := by omega
      rw [heq, if_pos (by rw [Bool.and_eq_true, Bool.and_eq_true]; exact ⟨⟨hcol, hrow2⟩, he2⟩)]
      rfl

theorem ttScanD_isSome_iff (g : Grid) (rows x1 y1 x2 y2 : Nat) :
    (scanWhile (fun i => decide (y1 + i < rows))
      (fun i => !(getCell g (y1 + i) x1).isEmpty)
      (fun i =>
        if isRowEmptyB g x1 (y1 + i) x2 (y1 + i) &&
            isColEmptyB g x2 (y1 + i) x2 y2 &&
            (getCell g (y1 + i) x2).isEmpty then
          some [(x1, y1), (x1, y1 + i), (x2, y1 + i), (x2, y2)]
        else none)
      rows 1).isSome = true ↔
    ∃ j, y1 < j ∧ ttRowCond g rows x1 y1 x2 y2 j := by
  rw [scanWhile_isSome_iff]
  constructor
  · rintro ⟨n, hn, hpre, hacc⟩
    refine ⟨y1 + (1 + n), by omega, ?_⟩
    have hlast := hpre n (Nat.le_refl n)
    rw [Bool.not_eq_false'] at hlast
    have hacc' : (isRowEmptyB g x1 (y1 + (1 + n)) x2 (y1 + (1 + n)) &&
        isColEmptyB g x2 (y1 + (1 + n)) x2 y2 &&
        (getCell g (y1 + (1 + n)) x2).isEmpty) = true := by
      by_contra hcon
      rw [Bool.not_eq_true] at hcon
      rw [if_neg (by simp [hcon])] at hacc
      simp at hacc
    rw [Bool.and_eq_true, Bool.and_eq_true] at hacc'
    refine ⟨by have := hlast.1; simpa using this, hlast.2, ?_,
      hacc'.1.1, hacc'.1.2, hacc'.2⟩
    rw [isColEmptyB_same_iff]
    intro m hm1 hm2
    have := (hpre (m - y1 - 1) (by omega)).2
    rw [Bool.not_eq_false'] at this
    have heq : y1 + (1 + (m - y1 - 1)) = m := by omega
    rw [heq] at this
    exact this
  · rintro ⟨j, hgt, hc, he1, hcol, hrow, hcol2, he2⟩
    refine ⟨j - y1 - 1, by omega, ?_, ?_⟩
    · intro k hk
      constructor
      · simp only [decide_eq_true_eq]
        omega
      · rw [Bool.not_eq_false']
        rcases Nat.lt_or_ge k (j - y1 - 1) with hlt | hge
        · rw [isColEmptyB_same_iff] at hcol
          exact hcol (y1 + (1 + k)) (by omega) (by omega)
        · have hkeq : k = j - y1 - 1 := by omega
          subst hkeq
          have heq : y1 + (1 + (j - y1 - 1)) = j := by omega
          rw [heq]
          exact he1
    · have heq : y1 + (1 + (j - y1 - 1)) = j := by omega
      rw [heq, if_pos (by rw [Bool.and_eq_true, Bool.and_eq_true]; exact ⟨⟨hrow, hcol2⟩, he2⟩)]
      rfl

theorem ttScanU_isSome_iff (g : Grid) (rows x1 y1 x2 y2 : Nat) (hy1 : y1 ≤ rows) :
    (scanWhile (fun i => decide (i ≤ y1))
      (fun i => !(getCell g (y1 - i) x1).isEmpty)
      (fun i =>
        if isRowEmptyB g x1 (y1 - i) x2 (y1 - i) &&
            isColEmptyB g x2 (y1 - i) x2 y2 &&
            (getCell g (y1 - i) x2).isEmpty then
          some [(x1, y1), (x1, y1 - i), (x2, y1 - i), (x2, y2)]
        else none)
      (y1 + 1) 1).isSome = true ↔
    ∃ j, j < y1 ∧ ttRowCond g rows x1 y1 x2 y2 j := by
  rw [scanWhile_isSome_iff]
  constructor
  · rintro ⟨n, hn, hpre, hacc⟩
    have hbound := (hpre n (Nat.le_refl n)).1
    simp only [decide_eq_true_eq] at hbound
    refine ⟨y1 - (1 + n), by omega, ?_⟩
    have hlast := hpre n (Nat.le_refl n)
    rw [Bool.not_eq_false'] at hlast
    have hacc' : (isRowEmptyB g x1 (y1 - (1 + n)) x2 (y1 - (1 + n)) &&
        isColEmptyB g x2 (y1 - (1 + n)) x2 y2 &&
        (getCell g (y1 - (1 + n)) x2).isEmpty) = true := by
      by_contra hcon
      rw [Bool.not_eq_true] at hcon
      rw [if_neg (by simp [hcon])] at hacc
      simp at hacc
    rw [Bool.and_eq_true, Bool.and_eq_true] at hacc'
    refine ⟨by omega, hlast.2, ?_, hacc'.1.1, hacc'.1.2, hacc'.2⟩
    rw [isColEmptyB_same_iff]
    intro m hm1 hm2
    have := (hpre (y1 - m - 1) (by omega)).2
    rw [Bool.not_eq_false'] at this
    have heq : y1 - (1 + (y1 - m - 1)) = m := by omega
    rw [heq] at this
    exact this
  · rintro ⟨j, hlt, hc, he1, hcol, hrow, hcol2, he2⟩
    refine ⟨y1 - j - 1, by omega, ?_, ?_⟩
    · intro k hk
      constructor
      · simp only [decide_eq_true_eq]
        omega
      · rw [Bool.not_eq_false']
        rcases Nat.lt_or_ge k (y1 - j - 1) with hklt | hge
        · rw [isColEmptyB_same_iff] at hcol
          exact hcol (y1 - (1 + k)) (by omega) (by omega)
        · have hkeq : k = y1 - j - 1 := by omega
          subst hkeq
          have heq : y1 - (1 + (y1 - j - 1)) = j := by omega
          rw [heq]
          exact he1
    · have heq : y1 - (1 + (y1 - j - 1)) = j := by omega
      rw [heq, if_pos (by rw [Bool.and_eq_true, Bool.and_eq_true]; exact ⟨⟨hrow, hcol2⟩, he2⟩)]
      rfl

theorem bool_eq_of_iff {a b : Bool} (h : a = true ↔ b = true) : a = b := by
  cases a <;> cases b <;> simp_all

theorem isSome_ite_some {c : Prop} [Decidable c] (l : List Pt) :
    (if c then some l else (none : Option (List Pt))).isSome = true ↔ c := by
  by_cases h : c <;> simp [h]

theorem scanWhile_isSome_congr (g1 b1 g2 b2 : Nat → Bool) (a1 a2 : Nat → Option (List Pt))
    (hg : ∀ i, (g1 i = true ∧ b1 i = false) ↔ (g2 i = true ∧ b2 i = false))
    (ha : ∀ i, (a1 i).isSome = (a2 i).isSome) (fuel start : Nat) :
    (scanWhile g1 b1 a1 fuel start).isSome = (scanWhile g2 b2 a2 fuel start).isSome := by
  apply bool_eq_of_iff
  rw [scanWhile_isSome_iff, scanWhile_isSome_iff]
  constructor
  · rintro ⟨n, hn, hpre, hacc⟩
    exact ⟨n, hn, fun k hk => (hg (start + k)).mp (hpre k hk), (ha (start + n)) ▸ hacc⟩
  · rintro ⟨n, hn, hpre, hacc⟩
    exact ⟨n, hn, fun k hk => (hg (start + k)).mpr (hpre k hk), (ha (start + n)).symm ▸ hacc⟩

theorem natAbs_sub_comm (a b : Int) : (a - b).natAbs = (b - a).natAbs := by
  omega

theorem colCase_symm (g : Grid) (cols x1 y1 x2 y2 : Nat) :
    (canCleanupColCase g cols x2 y2 x1 y1).isSome =
    (canCleanupColCase g cols x1 y1 x2 y2).isSome := by
  unfold canCleanupColCase
  by_cases hx : x1 = x2
  · subst hx
    rw [if_pos rfl, if_pos rfl]
    rw [natAbs_sub_comm, isColEmptyB_swap]
    by_cases h1 : ((y1 : Int) - (y2 : Int)).natAbs = 1
    · rw [if_pos h1, if_pos h1]; rfl
    · rw [if_neg h1, if_neg h1]
      by_cases h2 : isColEmptyB g x1 y1 x1 y2 = true
      · rw [if_pos h2, if_pos h2]; rfl
      · rw [if_neg h2, if_neg h2]
        rw [orElse_isSome, orElse_isSome]
        congr 1
        · exact scanWhile_isSome_congr _ _ _ _ _ _
            (fun i => by
              constructor
              · rintro ⟨hgu, hbr⟩
                rw [Bool.and_eq_true] at hgu
                rw [Bool.not_eq_false'] at hbr
                exact ⟨by rw [Bool.and_eq_true]; exact ⟨hgu.1, hbr⟩,
                  by rw [Bool.not_eq_false']; exact hgu.2⟩
              · rintro ⟨hgu, hbr⟩
                rw [Bool.and_eq_true] at hgu
                rw [Bool.not_eq_false'] at hbr
                exact ⟨by rw [Bool.and_eq_true]; exact ⟨hgu.1, hbr⟩,
                  by rw [Bool.not_eq_false']; exact hgu.2⟩)
            (fun i => by rw [isColEmptyB_swap]; by_cases hc : isColEmptyB g (x1 + i) y1 (x1 + i) y2 = true <;> simp [hc]) cols 1
        · exact scanWhile_isSome_congr _ _ _ _ _ _
            (fun i => by
              constructor
              · rintro ⟨hgu, hbr⟩
                rw [Bool.and_eq_true] at hgu
                rw [Bool.not_eq_false'] at hbr
                exact ⟨by rw [Bool.and_eq_true]; exact ⟨hgu.1, hbr⟩,
                  by rw [Bool.not_eq_false']; exact hgu.2⟩
              · rintro ⟨hgu, hbr⟩
                rw [Bool.and_eq_true] at hgu
                rw [Bool.not_eq_false'] at hbr
                exact ⟨by rw [Bool.and_eq_true]; exact ⟨hgu.1, hbr⟩,
                  by rw [Bool.not_eq_false']; exact hgu.2⟩)
            (fun i => by rw [isColEmptyB_swap]; by_cases hc : isColEmptyB g (x1 - i) y1 (x1 - i) y2 = true <;> simp [hc]) (x1 + 1) 1
  · rw [if_neg (fun hh => hx hh.symm), if_neg hx]

theorem rowCase_symm (g : Grid) (rows x1 y1 x2 y2 : Nat) :
    (canCleanupRowCase g rows x2 y2 x1 y1).isSome =
    (canCleanupRowCase g rows x1 y1 x2 y2).isSome := by
  unfold canCleanupRowCase
  by_cases hy : y1 = y2
  · subst hy
    rw [if_pos rfl, if_pos rfl]
    rw [natAbs_sub_comm, isRowEmptyB_swap]
    by_cases h1 : ((x1 : Int) - (x2 : Int)).natAbs = 1
    · rw [if_pos h1, if_pos h1]; rfl
    · rw [if_neg h1, if_neg h1]
      by_cases h2 : isRowEmptyB g x1 y1 x2 y1 = true
      · rw [if_pos h2, if_pos h2]; rfl
      · rw [if_neg h2, if_neg h2]
        rw [orElse_isSome, orElse_isSome]
        congr 1
        · exact scanWhile_isSome_congr _ _ _ _ _ _
            (fun i => by
              constructor
              · rintro ⟨hgu, hbr⟩
                rw [Bool.and_eq_true] at hgu
                rw [Bool.not_eq_false'] at hbr
                exact ⟨by rw [Bool.and_eq_true]; exact ⟨hgu.1, hbr⟩,
                  by rw [Bool.not_eq_false']; exact hgu.2⟩
              · rintro ⟨hgu, hbr⟩
                rw [Bool.and_eq_true] at hgu
                rw [Bool.not_eq_false'] at hbr
                exact ⟨by rw [Bool.and_eq_true]; exact ⟨hgu.1, hbr⟩,
                  by rw [Bool.not_eq_false']; exact hgu.2⟩)
            (fun i => by
              rw [isRowEmptyB_swap g x2 (y1 + i) x1 (y1 + i)]
              by_cases hc : isRowEmptyB g x2 (y1 + i) x1 (y1 + i) = true <;> simp [hc])
            rows 1
        · exact scanWhile_isSome_congr _ _ _ _ _ _
            (fun i => by
              constructor
              · rintro ⟨hgu, hbr⟩
                rw [Bool.and_eq_true] at hgu
                rw [Bool.not_eq_false'] at hbr
                exact ⟨by rw [Bool.and_eq_true]; exact ⟨hgu.1, hbr⟩,
                  by rw [Bool.not_eq_false']; exact hgu.2⟩
              · rintro ⟨hgu, hbr⟩
                rw [Bool.and_eq_true] at hgu
                rw [Bool.not_eq_false'] at hbr
                exact ⟨by rw [Bool.and_eq_true]; exact ⟨hgu.1, hbr⟩,
                  by rw [Bool.not_eq_false']; exact hgu.2⟩)
            (fun i => by
              rw [isRowEmptyB_swap g x2 (y1 - i) x1 (y1 - i)]
              by_cases hc : isRowEmptyB g x2 (y1 - i) x1 (y1 - i) = true <;> simp [hc])
            (y1 + 1) 1
  · rw [if_neg (fun hh => hy hh.symm), if_neg hy]

theorem oneTurn_cross (g : Grid) (x1 y1 x2 y2 : Nat) :
    (canCleanupOneTurn1 g x2 y2 x1 y1).isSome =
    (canCleanupOneTurn2 g x1 y1 x2 y2).isSome := by
  unfold canCleanupOneTurn1 canCleanupOneTurn2
  apply bool_eq_of_iff
  rw [isSome_ite_some, isSome_ite_some]
  rw [isRowEmptyB_swap g x2 y2 x1 y2, isColEmptyB_swap g x1 y2 x1 y1]
  simp only [Bool.and_eq_true]
  tauto

theorem twoTurn_symm (g : Grid) (rows cols x1 y1 x2 y2 : Nat)
    (hx1 : x1 < cols) (hy1 : y1 < rows) (hx2 : x2 < cols) (hy2 : y2 < rows)
    (occ1 : (getCell g y1 x1).isEmpty = false)
    (occ2 : (getCell g y2 x2).isEmpty = false) :
    (canCleanupTwoTurn g rows cols x2 y2 x1 y1).isSome =
    (canCleanupTwoTurn g rows cols x1 y1 x2 y2).isSome := by
  unfold canCleanupTwoTurn
  by_cases hok : x1 ≠ x2 ∧ y1 ≠ y2
  · rw [if_pos ⟨fun hh => hok.1 hh.symm, fun hh => hok.2 hh.symm⟩, if_pos hok]
    apply bool_eq_of_iff
    rw [orElse_isSome, orElse_isSome, orElse_isSome, orElse_isSome, orElse_isSome,
      orElse_isSome]
    simp only [Bool.or_eq_true]
    rw [ttScanR_isSome_iff, ttScanR_isSome_iff,
      ttScanL_isSome_iff g cols x2 y2 x1 y1 (Nat.le_of_lt hx2),
      ttScanL_isSome_iff g cols x1 y1 x2 y2 (Nat.le_of_lt hx1),
      ttScanD_isSome_iff, ttScanD_isSome_iff,
      ttScanU_isSome_iff g rows x2 y2 x1 y1 (Nat.le_of_lt hy2),
      ttScanU_isSome_iff g rows x1 y1 x2 y2 (Nat.le_of_lt hy1)]
    have hcolswap : ∀ i, ttColCond g cols x2 y2 x1 y1 i ↔ ttColCond g cols x1 y1 x2 y2 i :=
      ttColCond_swap g cols x1 y1 x2 y2
    have hrowswap : ∀ j, ttRowCond g rows x2 y2 x1 y1 j ↔ ttRowCond g rows x1 y1 x2 y2 j :=
      ttRowCond_swap g rows x1 y1 x2 y2
    have hcolx1 : ¬ ttColCond g cols x1 y1 x2 y2 x1 := by
      rintro ⟨-, he, -⟩
      rw [occ1] at he
      exact Bool.false_ne_true he
    have hcolx2 : ¬ ttColCond g cols x1 y1 x2 y2 x2 := by
      rintro ⟨-, -, -, -, -, he⟩
      rw [occ2] at he
      exact Bool.false_ne_true he
    have hrowy1 : ¬ ttRowCond g rows x1 y1 x2 y2 y1 := by
      rintro ⟨-, he, -⟩
      rw [occ1] at he
      exact Bool.false_ne_true he
    have hrowy2 : ¬ ttRowCond g rows x1 y1 x2 y2 y2 := by
      rintro ⟨-, -, -, -, -, he⟩
      rw [occ2] at he
      exact Bool.false_ne_true he
    constructor
    · rintro (⟨i, hi, hc⟩ | ⟨i, hi, hc⟩ | ⟨j, hj, hc⟩ | ⟨j, hj, hc⟩)
      · rw [hcolswap] at hc
        rcases Nat.lt_trichotomy i x1 with h | h | h
        · exact Or.inr (Or.inl ⟨i, h, hc⟩)
        · exact absurd (h ▸ hc) hcolx1
        · exact Or.inl ⟨i, h, hc⟩
      · rw [hcolswap] at hc
        rcases Nat.lt_trichotomy i x1 with h | h | h
        · exact Or.inr (Or.inl ⟨i, h, hc⟩)
        · exact absurd (h ▸ hc) hcolx1
        · exact Or.inl ⟨i, h, hc⟩
      · rw [hrowswap] at hc
        rcases Nat.lt_trichotomy j y1 with h | h | h
        · exact Or.inr (Or.inr (Or.inr ⟨j, h, hc⟩))
        · exact absurd (h ▸ hc) hrowy1
        · exact Or.inr (Or.inr (Or.inl ⟨j, h, hc⟩))
      · rw [hrowswap] at hc
        rcases Nat.lt_trichotomy j y1 with h | h | h
        · exact Or.inr (Or.inr (Or.inr ⟨j, h, hc⟩))
        · exact absurd (h ▸ hc) hrowy1
        · exact Or.inr (Or.inr (Or.inl ⟨j, h, hc⟩))
    · rintro (⟨i, hi, hc⟩ | ⟨i, hi, hc⟩ | ⟨j, hj, hc⟩ | ⟨j, hj, hc⟩)
      · rcases Nat.lt_trichotomy i x2 with h | h | h
        · exact Or.inr (Or.inl ⟨i, h, (hcolswap i).mpr hc⟩)
        · exact absurd (h ▸ hc) hcolx2
        · exact Or.inl ⟨i, h, (hcolswap i).mpr hc⟩
      · rcases Nat.lt_trichotomy i x2 with h | h | h
        · exact Or.inr (Or.inl ⟨i, h, (hcolswap i).mpr hc⟩)
        · exact absurd (h ▸ hc) hcolx2
        · exact Or.inl ⟨i, h, (hcolswap i).mpr hc⟩
      · rcases Nat.lt_trichotomy j y2 with h | h | h
        · exact Or.inr (Or.inr (Or.inr ⟨j, h, (hrowswap j).mpr hc⟩))
        · exact absurd (h ▸ hc) hrowy2
        · exact Or.inr (Or.inr (Or.inl ⟨j, h, (hrowswap j).mpr hc⟩))
      · rcases Nat.lt_trichotomy j y2 with h | h | h
        · exact Or.inr (Or.inr (Or.inr ⟨j, h, (hrowswap j).mpr hc⟩))
        · exact absurd (h ▸ hc) hrowy2
        · exact Or.inr (Or.inr (Or.inl ⟨j, h, (hrowswap j).mpr hc⟩))
  · rw [if_neg (fun hh => hok ⟨fun he => hh.1 he.symm, fun he => hh.2 he.symm⟩),
      if_neg hok]

/-- Claim C4: for every grid and every two occupied in-bounds cells
`(x1, y1)` and `(x2, y2)`, `canCleanup(x1, y1, x2, y2)` finds a path iff
`canCleanup(x2, y2, x1, y1)` does (the returned paths may differ). -/
theorem canCleanup_existence_symm (g : Grid) (rows cols x1 y1 x2 y2 : Nat)
    (hx1 : x1 < cols) (hy1 : y1 < rows) (hx2 : x2 < cols) (hy2 : y2 < rows)
    (occ1 : (getCell g y1 x1).isEmpty = false)
    (occ2 : (getCell g y2 x2).isEmpty = false) :
    (canCleanup g rows cols x1 y1 x2 y2).isSome =
    (canCleanup g rows cols x2 y2 x1 y1).isSome := by
  unfold canCleanup
  rw [orElse_isSome, orElse_isSome, orElse_isSome, orElse_isSome,
    orElse_isSome, orElse_isSome, orElse_isSome, orElse_isSome]
  rw [colCase_symm g cols x2 y2 x1 y1, rowCase_symm g rows x2 y2 x1 y1,
    twoTurn_symm g rows cols x2 y2 x1 y1 hx2 hy2 hx1 hy1 occ2 occ1]
  rw [(oneTurn_cross g x2 y2 x1 y1).symm, oneTurn_cross g x1 y1 x2 y2]
  generalize (canCleanupOneTurn1 g x1 y1 x2 y2).isSome = A
  generalize (canCleanupOneTurn2 g x1 y1 x2 y2).isSome = B
  cases A <;> cases B <;> simp

/-- Cell record collected by `isSolvable`: `{row, col, pic}`. -/
structure CellRec where
  row : Nat
  col : Nat
  pic : Char
deriving DecidableEq, Repr

/-- Row-major positions of the play area (rows `1..rows-2`, columns
`1..cols-2`), `getAllValidPositions` in the source. -/
def allValidPositions (rows cols : Nat) : List (Nat × Nat) :=
  (List.range' 1 (rows - 2)).flatMap fun i =>
    (List.range' 1 (cols - 2)).map fun j => (i, j)

/-- The non-empty play-area cells in row-major order, as collected by
`isSolvable` (and, with different record types, by the reshuffle and
deadlock helpers). -/
def collectCells (g : Grid) (rows cols : Nat) : List CellRec :=
  (allValidPositions rows cols).filterMap fun p =>
    if (getCell g p.1 p.2).isEmpty then none
    else some ⟨p.1, p.2, (getCell g p.1 p.2).pic⟩

/-- All index pairs `(i, j)` with `i < j < n`, in the nested-loop order of
`backtrackSolve`. -/
def pairsIdx (n : Nat) : List (Nat × Nat) :=
  (List.range n).flatMap fun i =>
    (List.range' (i + 1) (n - (i + 1))).map fun j => (i, j)

/-- `cells.filter((_, index) => index !== i && index !== j)`. -/
def removeTwo (cells : List CellRec) (i j : Nat) : List CellRec :=
  (cells.enum.filter fun p => decide (p.1 ≠ i) && decide (p.1 ≠ j)).map Prod.snd

theorem removeTwo_length_lt (cells : List CellRec) (i j : Nat)
    (hj : j < cells.length) : (removeTwo cells i j).length < cells.length := by
  rw [removeTwo, List.length_map]
  have hmem : (j, cells[j]) ∈ cells.enum := by
    have h2 : cells.enum[j]? = some (j, cells[j]) := by
      rw [List.getElem?_enum, List.getElem?_eq_getElem hj]
      rfl
    exact List.getElem?_mem h2
  calc (cells.enum.filter fun p => decide (p.1 ≠ i) && decide (p.1 ≠ j)).length
      < cells.enum.length :=
        List.length_filter_lt_length_iff_exists.mpr ⟨(j, cells[j]), hmem, by simp⟩
    _ = cells.length := List.enum_length

/-- `testMap[row][col].isEmpty = true`: clear one cell, keeping its other
fields. -/
def clearCell (g : Grid) (r c : Nat) : Grid :=
  setCell g r c { getCell g r c with isEmpty := true }

/-- The fragment of the engine state that the solvability verifier reads
and writes: the live grid `this.pictures` and the scratch `this.points`
that every `canCleanup` call overwrites. -/
structure SolvState where
  pictures : Grid
  points : List Pt
deriving DecidableEq, Repr

mutual

/-- `backtrackSolve(testMap, cells)`, with the temporary
`this.pictures = testMap` assignment and its restoration tracked in the
`SolvState`.  `testMap` mutation-and-backtracking becomes value passing. -/
def backtrackSolve (rows cols : Nat) (s : SolvState) (testMap : Grid)
    (cells : List CellRec) : Bool × SolvState :=
  if cells.isEmpty then (true, s)
  else backtrackGo rows cols s testMap cells (pairsIdx cells.length)
termination_by (cells.length, (pairsIdx cells.length).length + 1)
decreasing_by
  exact Prod.Lex.right _ (Nat.lt_succ_self _)

/-- The nested pair loop of `backtrackSolve`.  The in-range test on the
pair indices is a termination guard; `pairsIdx` only produces in-range
pairs. -/
def backtrackGo (rows cols : Nat) (s : SolvState) (testMap : Grid)
    (cells : List CellRec) (pairs : List (Nat × Nat)) : Bool × SolvState :=
  match pairs with
  | [] => (false, s)
  | (i, j) :: rest =>
    let cell1 := cells.getD i ⟨0, 0, ' '⟩
    let cell2 := cells.getD j ⟨0, 0, ' '⟩
    if isMatchChar cell1.pic cell2.pic then
      let originalPictures := s.pictures
      let res := canCleanup testMap rows cols cell1.col cell1.row cell2.col cell2.row
      if res.isSome then
        if h : i < j ∧ j < cells.length then
          let r := backtrackSolve rows cols ⟨testMap, res.getD []⟩
            (clearCell (clearCell testMap cell1.row cell1.col) cell2.row cell2.col)
            (removeTwo cells i j)
          if r.1 then (true, ⟨originalPictures, r.2.points⟩)
          else backtrackGo rows cols ⟨originalPictures, r.2.points⟩ testMap cells rest
        else backtrackGo rows cols ⟨originalPictures, res.getD []⟩ testMap cells rest
      else backtrackGo rows cols ⟨originalPictures, res.getD []⟩ testMap cells rest
    else backtrackGo rows cols s testMap cells rest
termination_by (cells.length, pairs.length)
decreasing_by
  · exact Prod.Lex.left _ _ (removeTwo_length_lt cells i j h.2)
  · exact Prod.Lex.right _ (Nat.lt_succ_self _)
  · exact Prod.Lex.right _ (Nat.lt_succ_self _)
  · exact Prod.Lex.right _ (Nat.lt_succ_self _)
  · exact Prod.Lex.right _ (Nat.lt_succ_self _)

end

/-- `isSolvable()` with its `this.pictures` / `this.points` side effects
tracked.  The per-cell spread copy `{...cell}` of the source is the
identity on values, so `testMap` starts as the same grid value. -/
def isSolvableT (rows cols : Nat) (s : SolvState) : Bool × SolvState :=
  let testMap := s.pictures
  let cells := collectCells testMap rows cols
  backtrackSolve rows cols s testMap cells

/-- The Boolean result of `isSolvable()` as a pure function of the grid. -/
def isSolvable (rows cols : Nat) (g : Grid) : Bool :=
  (isSolvableT rows cols ⟨g, []⟩).1

mutual

theorem backtrackSolve_pictures (rows cols : Nat) (s : SolvState) (testMap : Grid)
    (cells : List CellRec) :
    ((backtrackSolve rows cols s testMap cells).2).pictures = s.pictures := by
  rw [backtrackSolve]
  split
  · rfl
  · exact backtrackGo_pictures rows cols s testMap cells (pairsIdx cells.length)
termination_by (cells.length, (pairsIdx cells.length).length + 1)
decreasing_by
  exact Prod.Lex.right _ (Nat.lt_succ_self _)

theorem backtrackGo_pictures (rows cols : Nat) (s : SolvState) (testMap : Grid)
    (cells : List CellRec) (pairs : List (Nat × Nat)) :
    ((backtrackGo rows cols s testMap cells pairs).2).pictures = s.pictures := by
  match pairs with
  | [] => rw [backtrackGo]
  | (i, j) :: rest =>
    rw [backtrackGo]
    dsimp only
    repeat' split
    all_goals
      first
      | rfl
      | exact backtrackGo_pictures rows cols _ testMap cells rest
termination_by (cells.length, pairs.length)
decreasing_by
  · exact Prod.Lex.right _ (Nat.lt_succ_self _)
  · exact Prod.Lex.right _ (Nat.lt_succ_self _)
  · exact Prod.Lex.right _ (Nat.lt_succ_self _)
  · exact Prod.Lex.right _ (Nat.lt_succ_self _)

end

theorem isSolvableT_pictures (rows cols : Nat) (s : SolvState) :
    ((isSolvableT rows cols s).2).pictures = s.pictures := by
  unfold isSolvableT
  exact backtrackSolve_pictures rows cols s s.pictures _

theorem isSolvableT_empty (rows cols : Nat) (s : SolvState)
    (h : collectCells s.pictures rows cols = []) :
    (isSolvableT rows cols s).1 = true := by
  unfold isSolvableT
  dsimp only
  rw [h, backtrackSolve]
  rfl

/-- A list of cell records that is a sequence of same-row, adjacent,
case-matched pairs. -/
inductive AdjPairList : List CellRec → Prop
  | nil : AdjPairList []
  | cons (a b : CellRec) (rest : List CellRec) :
      a.row = b.row → b.col = a.col + 1 → isMatchChar a.pic b.pic = true →
      AdjPairList rest → AdjPairList (a :: b :: rest)

theorem isMatchChar_ne {a b : Char} (h : isMatchChar a b = true) : a ≠ b := by
  rw [isMatchChar, Bool.and_eq_true, bne_iff_ne] at h
  exact h.2

theorem isMatchChar_comm (a b : Char) : isMatchChar a b = isMatchChar b a := by
  unfold isMatchChar
  apply bool_eq_of_iff
  rw [Bool.and_eq_true, Bool.and_eq_true, beq_iff_eq, beq_iff_eq, bne_iff_ne, bne_iff_ne]
  exact ⟨fun hh => ⟨hh.1.symm, fun he => hh.2 he.symm⟩,
    fun hh => ⟨hh.1.symm, fun he => hh.2 he.symm⟩⟩

theorem canCleanup_isSome_of_adjacent_row (g : Grid) (rows cols x1 y x2 : Nat)
    (hadj : ((x1 : Int) - (x2 : Int)).natAbs = 1) :
    (canCleanup g rows cols x1 y x2 y).isSome = true := by
  have hx : x1 ≠ x2 := by omega
  unfold canCleanup canCleanupColCase canCleanupRowCase
  rw [if_neg hx, if_pos rfl, if_pos hadj]
  rfl

theorem mem_pairsIdx (n i j : Nat) (hij : i < j) (hj : j < n) :
    (i, j) ∈ pairsIdx n := by
  unfold pairsIdx
  rw [List.mem_flatMap]
  refine ⟨i, by rw [List.mem_range]; omega, ?_⟩
  rw [List.mem_map]
  exact ⟨j, by rw [List.mem_range']; exact ⟨j - (i + 1), by omega, by omega⟩, rfl⟩

/-- `removeTwo` generalized over an arbitrary starting index of `enumFrom`,
for induction. -/
def removeTwoF (k : Nat) (cells : List CellRec) (i j : Nat) : List CellRec :=
  ((cells.enumFrom k).filter fun p => decide (p.1 ≠ i) && decide (p.1 ≠ j)).map Prod.snd

theorem removeTwo_eq_removeTwoF (cells : List CellRec) (i j : Nat) :
    removeTwo cells i j = removeTwoF 0 cells i j := rfl

theorem removeTwoF_cons (k : Nat) (c : CellRec) (cs : List CellRec) (i j : Nat) :
    removeTwoF k (c :: cs) i j =
    (if k ≠ i ∧ k ≠ j then [c] else []) ++ removeTwoF (k + 1) cs i j := by
  unfold removeTwoF
  show (List.filter _ ((k, c) :: List.enumFrom (k + 1) cs)).map Prod.snd = _
  rw [List.filter_cons]
  by_cases h : k ≠ i ∧ k ≠ j
  · rw [if_pos (by simp [h.1, h.2]), if_pos h]
    rfl
  · rw [if_neg (by simpa using fun h1 h2 => h ⟨h1, h2⟩), if_neg h]
    rfl

theorem removeTwoF_out_of_range (cells : List CellRec) :
    ∀ (k i j : Nat), i < k → j < k → removeTwoF k cells i j = cells := by
  induction cells with
  | nil => intro k i j _ _; rfl
  | cons c cs ih =>
    intro k i j hi hj
    rw [removeTwoF_cons, if_pos ⟨by omega, by omega⟩, ih (k + 1) i j (by omega) (by omega)]
    rfl

theorem removeTwoF_one_perm (d : CellRec) :
    ∀ (cells : List CellRec) (k i j : Nat), i < k → k ≤ j → j < k + cells.length →
    cells.Perm (cells.getD (j - k) d :: removeTwoF k cells i j) := by
  intro cells
  induction cells with
  | nil => intro k i j _ _ h; simp at h; omega
  | cons c cs ih =>
    intro k i j hik hkj hjlen
    rcases Nat.eq_or_lt_of_le hkj with heq | hlt
    · subst heq
      rw [removeTwoF_cons, if_neg (by omega),
        removeTwoF_out_of_range cs (k + 1) i k (by omega) (by omega)]
      simp
    · rw [removeTwoF_cons, if_pos ⟨by omega, by omega⟩]
      have h1 : j - k = (j - (k + 1)) + 1 := by omega
      rw [h1]
      show (c :: cs).Perm (cs.getD (j - (k + 1)) d :: c :: removeTwoF (k + 1) cs i j)
      refine List.Perm.trans
        ((ih (k + 1) i j (by omega) (by omega)
          (by simp only [List.length_cons] at hjlen; omega)).cons c) ?_
      exact List.Perm.swap _ _ _

theorem removeTwoF_two_perm (d : CellRec) :
    ∀ (cells : List CellRec) (k i j : Nat), k ≤ i → i < j → j < k + cells.length →
    cells.Perm (cells.getD (i - k) d :: cells.getD (j - k) d :: removeTwoF k cells i j) := by
  intro cells
  induction cells with
  | nil => intro k i j _ _ h; simp at h; omega
  | cons c cs ih =>
    intro k i j hki hij hjlen
    rcases Nat.eq_or_lt_of_le hki with heq | hlt
    · subst heq
      rw [removeTwoF_cons, if_neg (by omega)]
      have h0 : k - k = 0 := by omega
      rw [h0]
      have h1 : j - k = (j - (k + 1)) + 1 := by omega
      rw [h1]
      show (c :: cs).Perm (c :: cs.getD (j - (k + 1)) d :: removeTwoF (k + 1) cs k j)
      exact (removeTwoF_one_perm d cs (k + 1) k j (by omega) (by omega)
        (by simp only [List.length_cons] at hjlen; omega)).cons c
    · rw [removeTwoF_cons, if_pos ⟨by omega, by omega⟩]
      have h1 : i - k = (i - (k + 1)) + 1 := by omega
      have h2 : j - k = (j - (k + 1)) + 1 := by omega
      rw [h1, h2]
      show (c :: cs).Perm
        (cs.getD (i - (k + 1)) d :: cs.getD (j - (k + 1)) d :: c :: removeTwoF (k + 1) cs i j)
      refine List.Perm.trans
        ((ih (k + 1) i j (by omega) (by omega)
          (by simp only [List.length_cons] at hjlen; omega)).cons c) ?_
      refine List.Perm.trans (List.Perm.swap _ _ _) ?_
      exact List.Perm.cons _ (List.Perm.swap _ _ _)

theorem removeTwo_two_perm (cells : List CellRec) (i j : Nat) (d : CellRec)
    (hij : i < j) (hjlen : j < cells.length) :
    cells.Perm (cells.getD i d :: cells.getD j d :: removeTwo cells i j) := by
  have := removeTwoF_two_perm d cells 0 i j (Nat.zero_le i) hij (by omega)
  simpa [removeTwo_eq_removeTwoF] using this

theorem backtrackGo_true_of_found (rows cols : Nat) (testMap : Grid)
    (cells : List CellRec) (i j : Nat) (hij : i < j) (hjlen : j < cells.length)
    (hmatch : isMatchChar (cells.getD i ⟨0, 0, ' '⟩).pic (cells.getD j ⟨0, 0, ' '⟩).pic = true)
    (hcan : (canCleanup testMap rows cols (cells.getD i ⟨0, 0, ' '⟩).col
      (cells.getD i ⟨0, 0, ' '⟩).row (cells.getD j ⟨0, 0, ' '⟩).col
      (cells.getD j ⟨0, 0, ' '⟩).row).isSome = true)
    (hrec : ∀ s' : SolvState,
      (backtrackSolve rows cols s'
        (clearCell (clearCell testMap (cells.getD i ⟨0, 0, ' '⟩).row
          (cells.getD i ⟨0, 0, ' '⟩).col)
          (cells.getD j ⟨0, 0, ' '⟩).row (cells.getD j ⟨0, 0, ' '⟩).col)
        (removeTwo cells i j)).1 = true) :
    ∀ (pairs : List (Nat × Nat)), (i, j) ∈ pairs →
    ∀ s, (backtrackGo rows cols s testMap cells pairs).1 = true := by
  intro pairs
  induction pairs with
  | nil => intro hmem; exact absurd hmem (List.not_mem_nil _)
  | cons hd rest ih =>
    intro hmem s
    obtain ⟨i', j'⟩ := hd
    rcases List.mem_cons.mp hmem with heq | hrest
    · injection heq with h1 h2
      subst h1
      subst h2
      rw [backtrackGo]
      dsimp only
      rw [if_pos hmatch, if_pos hcan, dif_pos ⟨hij, hjlen⟩, if_pos (hrec _)]
    · rw [backtrackGo]
      dsimp only
      repeat' split
      all_goals first
        | rfl
        | exact ih hrest _

theorem backtrackSolve_true_of_adjPairs (rows cols : Nat) :
    ∀ (n : Nat) (cells l : List CellRec), cells.length ≤ n → AdjPairList l →
    cells.Perm l → ∀ (s : SolvState) (testMap : Grid),
    (backtrackSolve rows cols s testMap cells).1 = true := by
  intro n
  induction n with
  | zero =>
    intro cells l hlen _ _ s testMap
    have : cells = [] := List.eq_nil_of_length_eq_zero (by omega)
    subst this
    rw [backtrackSolve]
    rfl
  | succ n ih =>
    intro cells l hlen hadj hperm s testMap
    rcases hadj with _ | ⟨a, b, rest, hrow, hcol, hmatch, hrest⟩
    · have : cells = [] := List.Perm.eq_nil hperm
      subst this
      rw [backtrackSolve]
      rfl
    · have hne : a ≠ b := fun he => isMatchChar_ne hmatch (congrArg CellRec.pic he)
      have hmema : a ∈ cells := hperm.mem_iff.mpr (by simp)
      have hmemb : b ∈ cells := hperm.mem_iff.mpr (by simp)
      obtain ⟨ia, hia⟩ := List.mem_iff_getElem?.mp hmema
      obtain ⟨ib, hib⟩ := List.mem_iff_getElem?.mp hmemb
      have hialt : ia < cells.length := by
        by_contra hcon
        rw [List.getElem?_eq_none (by omega)] at hia
        exact Option.noConfusion hia
      have hiblt : ib < cells.length := by
        by_contra hcon
        rw [List.getElem?_eq_none (by omega)] at hib
        exact Option.noConfusion hib
      have hge : ia ≠ ib := by
        intro he
        rw [he, hib] at hia
        exact hne (Option.some.inj hia).symm
      have hgda : cells.getD ia ⟨0, 0, ' '⟩ = a := by
        rw [List.getD_eq_getElem cells _ hialt]
        rw [List.getElem?_eq_getElem hialt] at hia
        exact Option.some.inj hia
      have hgdb : cells.getD ib ⟨0, 0, ' '⟩ = b := by
        rw [List.getD_eq_getElem cells _ hiblt]
        rw [List.getElem?_eq_getElem hiblt] at hib
        exact Option.some.inj hib
      -- use the pair in loop order (min, max)
      rcases Nat.lt_or_ge ia ib with hlt | hge2
      · -- (i, j) = (ia, ib): cell1 = a, cell2 = b
        rw [backtrackSolve, if_neg (by simp [List.isEmpty_iff]; rintro rfl; simp at hialt)]
        refine backtrackGo_true_of_found rows cols testMap cells ia ib hlt hiblt
          (by rw [hgda, hgdb]; exact hmatch)
          (by
            rw [hgda, hgdb, hrow]
            exact canCleanup_isSome_of_adjacent_row _ rows cols _ _ _ (by omega))
          (fun s' => ?_) (pairsIdx cells.length)
          (mem_pairsIdx cells.length ia ib hlt hiblt) s
        have hpermrem : (removeTwo cells ia ib).Perm rest := by
          have h1 := removeTwo_two_perm cells ia ib ⟨0, 0, ' '⟩ hlt hiblt
          rw [hgda, hgdb] at h1
          have h2 : (a :: b :: removeTwo cells ia ib).Perm (a :: b :: rest) :=
            h1.symm.trans hperm
          exact (h2.cons_inv).cons_inv
        refine ih (removeTwo cells ia ib) rest ?_ hrest hpermrem s' _
        have := hpermrem.length_eq
        have := hperm.length_eq
        simp only [List.length_cons] at *
        omega
      · -- (i, j) = (ib, ia): cell1 = b, cell2 = a
        have hlt : ib < ia := by omega
        rw [backtrackSolve, if_neg (by simp [List.isEmpty_iff]; rintro rfl; simp at hialt)]
        refine backtrackGo_true_of_found rows cols testMap cells ib ia hlt hialt
          (by rw [hgda, hgdb, isMatchChar_comm]; exact hmatch)
          (by
            rw [hgda, hgdb, hrow.symm]
            exact canCleanup_isSome_of_adjacent_row _ rows cols _ _ _ (by omega))
          (fun s' => ?_) (pairsIdx cells.length)
          (mem_pairsIdx cells.length ib ia hlt hialt) s
        have hpermrem : (removeTwo cells ib ia).Perm rest := by
          have h1 := removeTwo_two_perm cells ib ia ⟨0, 0, ' '⟩ hlt hialt
          rw [hgda, hgdb] at h1
          have h2 : (b :: a :: removeTwo cells ib ia).Perm (a :: b :: rest) :=
            h1.symm.trans hperm
          have h3 : (a :: b :: removeTwo cells ib ia).Perm (a :: b :: rest) :=
            (List.Perm.swap b a _).trans h2
          exact (h3.cons_inv).cons_inv
        refine ih (removeTwo cells ib ia) rest ?_ hrest hpermrem s' _
        have := hpermrem.length_eq
        have := hperm.length_eq
        simp only [List.length_cons] at *
        omega

theorem isSolvable_of_adjPairs (rows cols : Nat) (g : Grid) (l : List CellRec)
    (hadj : AdjPairList l) (hperm : (collectCells g rows cols).Perm l) :
    isSolvable rows cols g = true := by
  unfold isSolvable isSolvableT
  exact backtrackSolve_true_of_adjPairs rows cols (collectCells g rows cols).length
    (collectCells g rows cols) l (Nat.le_refl _) hadj hperm _ _

/-- `'abcdefghijklmnopqrstuvwxyz'`. -/
def allLetters : List Char := "abcdefghijklmnopqrstuvwxyz".toList

/-- The uppercase alphabet; `targetLetter` is always stored uppercased. -/
def upperLetters : List Char := "ABCDEFGHIJKLMNOPQRSTUVWXYZ".toList

/-- `{type, pic, index}` records collected by the reshuffle strategies. -/
structure CharacterInfo where
  type : Int
  pic : Char
  index : Nat
deriving DecidableEq, Repr

/-- The random outcomes consumed by one generation / reshuffle attempt:
the random letter draws of `generateLetterPairs` (plus a fuel bounding its
unbounded `while`), the random `index` tags of `placeLetter`, and the two
random-comparator `sort` shuffles, which JavaScript guarantees to be
permutations -- theorems add that as a hypothesis where it matters. -/
structure AttemptRand where
  pick : Nat → Fin 26
  fuel : Nat
  tag : Nat → Nat
  shuffleL : List Char → List Char
  shuffleC : List CharacterInfo → List CharacterInfo

/-- The `while (letters.length < pairsNeeded * 2)` loop of
`generateLetterPairs`: draw a random lowercase letter, skip it if already
used, else push it and its uppercase partner. -/
def genLettersLoop (pick : Nat → Fin 26) (needed : Nat) :
    Nat → Nat → List Char → List Char → List Char
  | 0, _, letters, _ => letters
  | fuel + 1, k, letters, used =>
    if letters.length < needed then
      let c := allLetters.getD (pick k).val ' '
      if c ∈ used then genLettersLoop pick needed fuel (k + 1) letters used
      else genLettersLoop pick needed fuel (k + 1) (letters ++ [c, c.toUpper]) (used ++ [c])
    else letters

/-- `generateLetterPairs()`: the target letter's pair first, then random
distinct pairs until `pairsNeeded * 2` letters exist.  The model's
`targetLetter` is a `Char`, hence always truthy. -/
def generateLetterPairs (r : AttemptRand) (rows cols : Nat) (t : Char) : List Char :=
  let totalCells := (rows - 2) * (cols - 2)
  let pairsNeeded := totalCells / 2
  genLettersLoop r.pick (pairsNeeded * 2) r.fuel 0 [t.toLower, t.toUpper] [t.toLower]

/-- `[c₁, C₁, c₂, C₂, …]` for base letters `[c₁, c₂, …]`. -/
def lettersOfBase (base : List Char) : List Char :=
  base.flatMap fun c => [c, c.toUpper]

/-- Shape of every `generateLetterPairs` result: pairs over a
duplicate-free list of lowercase base letters. -/
def GoodLetters (letters : List Char) : Prop :=
  ∃ base : List Char, letters = lettersOfBase base ∧ base.Nodup ∧
    ∀ c ∈ base, c ∈ allLetters

theorem genLettersLoop_good (pick : Nat → Fin 26) (needed : Nat) :
    ∀ (fuel k : Nat) (base : List Char), base.Nodup → (∀ c ∈ base, c ∈ allLetters) →
    GoodLetters (genLettersLoop pick needed fuel k (lettersOfBase base) base) := by
  intro fuel
  induction fuel with
  | zero => intro k base hnd hsub; exact ⟨base, rfl, hnd, hsub⟩
  | succ m ih =>
    intro k base hnd hsub
    rw [genLettersLoop]
    split
    · dsimp only
      split
      · exact ih (k + 1) base hnd hsub
      · rename_i hnew
        have hmem : allLetters.getD (pick k).val ' ' ∈ allLetters := by
          have hlen : (pick k).val < allLetters.length := by
            have h26 : allLetters.length = 26 := by decide
            rw [h26]
            exact (pick k).isLt
          rw [List.getD_eq_getElem allLetters ' ' hlen]
          exact List.getElem_mem hlen
        have h1 : lettersOfBase base ++ [allLetters.getD (pick k).val ' ',
            (allLetters.getD (pick k).val ' ').toUpper] =
            lettersOfBase (base ++ [allLetters.getD (pick k).val ' ']) := by
          rw [lettersOfBase, lettersOfBase, List.flatMap_append]
          rfl
        rw [h1]
        refine ih (k + 1) _ ?_ ?_
        · rw [List.nodup_append]
          exact ⟨hnd, List.nodup_singleton _, by
            intro x hx
            simp only [List.mem_singleton]
            intro he
            exact hnew (he ▸ hx)⟩
        · intro c hc
          rcases List.mem_append.mp hc with h | h
          · exact hsub c h
          · rw [List.mem_singleton.mp h]
            exact hmem
    · exact ⟨base, rfl, hnd, hsub⟩

theorem generateLetterPairs_good (r : AttemptRand) (rows cols : Nat) (t : Char)
    (ht : t ∈ upperLetters) :
    GoodLetters (generateLetterPairs r rows cols t) := by
  have hfacts : t.toLower ∈ allLetters ∧ t.toLower.toUpper = t.toUpper :=
    (by decide : ∀ c ∈ upperLetters, c.toLower ∈ allLetters ∧ c.toLower.toUpper = c.toUpper)
      t ht
  unfold generateLetterPairs
  have h0 : [t.toLower, t.toUpper] = lettersOfBase [t.toLower] := by
    rw [lettersOfBase]
    simp [hfacts.2]
  rw [h0]
  exact genLettersLoop_good r.pick _ r.fuel 0 [t.toLower] (List.nodup_singleton _)
    (by intro c hc; rw [List.mem_singleton.mp hc]; exact hfacts.1)

/-- Append `c` to the group of `key`, creating the group at the end if the
key is new -- JavaScript object insertion order. -/
def insertGroup {β : Type} (m : List (Char × List β)) (key : Char) (c : β) :
    List (Char × List β) :=
  match m with
  | [] => [(key, [c])]
  | (k, g) :: rest =>
    if k = key then (k, g ++ [c]) :: rest else (k, g) :: insertGroup rest key c

/-- `groupIntoLetterPairs(letters)`: group by lowercase key, keep the
groups of exactly two letters, in key insertion order. -/
def groupIntoLetterPairs (letters : List Char) : List (List Char) :=
  let m := letters.foldl (fun m c => insertGroup m c.toLower c) []
  (m.map Prod.snd).filter fun grp => grp.length == 2

theorem insertGroup_new (m : List (Char × List Char)) (key c : Char)
    (h : ∀ q ∈ m, q.1 ≠ key) : insertGroup m key c = m ++ [(key, [c])] := by
  induction m with
  | nil => rfl
  | cons q rest ih =>
    obtain ⟨k, g⟩ := q
    rw [insertGroup]
    rw [if_neg (h (k, g) (by simp))]
    rw [ih fun q hq => h q (List.mem_cons_of_mem _ hq)]
    rfl

theorem insertGroup_append_last (m : List (Char × List Char)) (key c : Char) (g : List Char)
    (h : ∀ q ∈ m, q.1 ≠ key) :
    insertGroup (m ++ [(key, g)]) key c = m ++ [(key, g ++ [c])] := by
  induction m with
  | nil => simp [insertGroup]
  | cons q rest ih =>
    obtain ⟨k, gg⟩ := q
    show insertGroup ((k, gg) :: (rest ++ [(key, g)])) key c = _
    rw [insertGroup]
    rw [if_neg (h (k, gg) (by simp))]
    rw [ih fun q hq => h q (List.mem_cons_of_mem _ hq)]
    rfl

theorem foldl_insertGroup_blocks :
    ∀ (base : List Char), base.Nodup → (∀ c ∈ base, c ∈ allLetters) →
    ∀ (pre : List (Char × List Char)), (∀ q ∈ pre, ∀ c ∈ base, q.1 ≠ c) →
    (lettersOfBase base).foldl (fun m c => insertGroup m c.toLower c) pre =
      pre ++ base.map fun c => (c, [c, c.toUpper]) := by
  intro base
  induction base with
  | nil => intro _ _ pre _; simp [lettersOfBase]
  | cons b rest ih =>
    intro hnd hsub pre hpre
    have hb : b.toLower = b ∧ b.toUpper.toLower = b :=
      (by decide : ∀ c ∈ allLetters, c.toLower = c ∧ c.toUpper.toLower = c) b
        (hsub b (by simp))
    show (b :: b.toUpper :: lettersOfBase rest).foldl _ pre = _
    rw [List.foldl_cons, List.foldl_cons]
    have h1 : insertGroup pre b.toLower b = pre ++ [(b, [b])] := by
      rw [hb.1]
      exact insertGroup_new pre b b fun q hq => hpre q hq b (by simp)
    rw [h1]
    have h2 : insertGroup (pre ++ [(b, [b])]) b.toUpper.toLower b.toUpper =
        pre ++ [(b, [b, b.toUpper])] := by
      rw [hb.2]
      exact insertGroup_append_last pre b b.toUpper [b] fun q hq => hpre q hq b (by simp)
    rw [h2]
    have hrest := ih (List.Nodup.of_cons hnd) (fun c hc => hsub c (List.mem_cons_of_mem _ hc))
      (pre ++ [(b, [b, b.toUpper])])
      (by
        intro q hq c hc
        rcases List.mem_append.mp hq with h | h
        · exact hpre q h c (List.mem_cons_of_mem _ hc)
        · rw [List.mem_singleton.mp h]
          intro he
          have he' : b = c := he
          rw [he'] at hnd
          exact (List.nodup_cons.mp hnd).1 hc)
    rw [hrest, List.append_assoc]
    rfl

theorem groupIntoLetterPairs_blocks (base : List Char) (hnd : base.Nodup)
    (hsub : ∀ c ∈ base, c ∈ allLetters) :
    groupIntoLetterPairs (lettersOfBase base) = base.map fun c => [c, c.toUpper] := by
  unfold groupIntoLetterPairs
  dsimp only
  rw [foldl_insertGroup_blocks base hnd hsub [] (by simp)]
  rw [List.nil_append, List.map_map]
  rw [List.filter_eq_self.mpr]
  · rfl
  · intro grp hgrp
    rw [List.mem_map] at hgrp
    obtain ⟨c, _, rfl⟩ := hgrp
    rfl

/-- `getEdgeScore(row, col)`:
`10 - min(row-1, rows-2-row, col-1, cols-2-col)` over JavaScript numbers. -/
def getEdgeScore (rows cols : Nat) (row col : Nat) : Int :=
  10 - min (min ((row : Int) - 1) ((rows : Int) - 2 - row))
    (min ((col : Int) - 1) ((cols : Int) - 2 - col))

/-- Stable insertion used to model
`positions.sort((a, b) => edgeScore(b) - edgeScore(a))`: JavaScript's
`sort` is stable, and a stable sort by a total preorder has a unique
result, realised here by insertion that keeps earlier equals first. -/
def insertByScoreDesc (score : Nat × Nat → Int) (p : Nat × Nat) :
    List (Nat × Nat) → List (Nat × Nat)
  | [] => [p]
  | q :: rest =>
    if score p > score q then p :: q :: rest else q :: insertByScoreDesc score p rest

/-- The edge-priority position order. -/
def sortPositionsByEdge (rows cols : Nat) (l : List (Nat × Nat)) : List (Nat × Nat) :=
  l.foldl (fun acc p => insertByScoreDesc (fun q => getEdgeScore rows cols q.1 q.2) p acc) []

theorem insertByScoreDesc_perm (score : Nat × Nat → Int) (p : Nat × Nat) :
    ∀ l : List (Nat × Nat), (insertByScoreDesc score p l).Perm (p :: l) := by
  intro l
  induction l with
  | nil => exact List.Perm.refl _
  | cons q rest ih =>
    rw [insertByScoreDesc]
    split
    · exact List.Perm.refl _
    · exact (ih.cons q).trans (List.Perm.swap _ _ _)

theorem sortPositionsByEdge_perm (rows cols : Nat) (l : List (Nat × Nat)) :
    (sortPositionsByEdge rows cols l).Perm l := by
  unfold sortPositionsByEdge
  suffices h : ∀ (l acc : List (Nat × Nat)),
      (l.foldl (fun acc p =>
        insertByScoreDesc (fun q => getEdgeScore rows cols q.1 q.2) p acc) acc).Perm
      (acc ++ l) by
    simpa using h l []
  intro l
  induction l with
  | nil => intro acc; simp
  | cons p rest ih =>
    intro acc
    rw [List.foldl_cons]
    refine (ih _).trans ?_
    refine List.Perm.trans (List.Perm.append_right rest (insertByScoreDesc_perm _ p acc)) ?_
    have : (p :: acc) ++ rest = p :: (acc ++ rest) := rfl
    rw [this]
    exact (List.perm_middle).symm

/-- `placeLetter(position, letter)` with its random `index` tag. -/
def placeLetter (tag : Nat) (g : Grid) (p : Nat × Nat) (letter : Char) : Grid :=
  setCell g p.1 p.2 ⟨false, (letter.toUpper.toNat : Int) - 65, letter, some tag⟩

/-- Run a list of placements, numbering the tag stream. -/
def placeAllFrom (tags : Nat → Nat) : Nat → Grid → List ((Nat × Nat) × Char) → Grid
  | _, g, [] => g
  | k, g, (p, c) :: rest => placeAllFrom tags (k + 1) (placeLetter (tags k) g p c) rest

def placeAll (tags : Nat → Nat) (g : Grid) (ps : List ((Nat × Nat) × Char)) : Grid :=
  placeAllFrom tags 0 g ps

/-- `initializeEmptyMap()`: a `rows × cols` grid of empty cells (the
source leaves `index` undefined and `pic` as the empty string). -/
def initializeEmptyMap (rows cols : Nat) : Grid :=
  List.replicate rows (List.replicate cols ⟨true, 0, ' ', none⟩)

/-- The pair-placement loop of `generateMapWithEdgePriority`:
`for (i; i < letterPairs.length && i * 2 < positions.length; i++)` placing
`pair[0]` at `positions[i*2]` and `pair[1]` at `positions[i*2+1]`.  When
`positions` runs out at an odd index the source reads `undefined` and
crashes; the model writes to the border cell `(0, 0)` there, and the
theorems exclude that degenerate configuration. -/
def edgePlace : List (Nat × Nat) → List (List Char) → List ((Nat × Nat) × Char)
  | p1 :: p2 :: ps, pr :: prs =>
    (p1, pr.getD 0 ' ') :: (p2, pr.getD 1 ' ') :: edgePlace ps prs
  | [p1], pr :: _ => [(p1, pr.getD 0 ' '), ((0, 0), pr.getD 1 ' ')]
  | _, _ => []

/-- `generateMapWithEdgePriority()` applied to the freshly initialized
grid `g0`. -/
def generateMapWithEdgePriority (r : AttemptRand) (rows cols : Nat) (t : Char)
    (g0 : Grid) : Grid :=
  let letters := generateLetterPairs r rows cols t
  let positions := sortPositionsByEdge rows cols (allValidPositions rows cols)
  let letterPairs := groupIntoLetterPairs letters
  placeAll r.tag g0 (edgePlace positions letterPairs)

/-- `generateMapTraditional()`: shuffle the letters and fill the play area
row-major while letters remain. -/
def generateMapTraditional (r : AttemptRand) (rows cols : Nat) (t : Char)
    (g0 : Grid) : Grid :=
  let letters := r.shuffleL (generateLetterPairs r rows cols t)
  placeAll r.tag g0 ((allValidPositions rows cols).zip letters)

/-- The template slots `(i, j)` with `1 ≤ i < rows - 1`, `j ∈ {1, 3, …}`,
`j < cols - 3`, in loop order; `(cols - 3) / 2` odd columns fit per row. -/
def templateSlots (rows cols : Nat) : List (Nat × Nat) :=
  (List.range' 1 (rows - 2)).flatMap fun i =>
    (List.range' 0 ((cols - 3) / 2)).map fun m => (i, 1 + 2 * m)

/-- The placements of `generateSolvableTemplate`: each letter pair on two
horizontally adjacent cells. -/
def templatePlacements (rows cols : Nat) (pairs : List (List Char)) :
    List ((Nat × Nat) × Char) :=
  ((templateSlots rows cols).zip pairs).flatMap fun sp =>
    [((sp.1.1, sp.1.2), sp.2.getD 0 ' '), ((sp.1.1, sp.1.2 + 1), sp.2.getD 1 ' ')]

/-- `generateSolvableTemplate()`. -/
def generateSolvableTemplate (r : AttemptRand) (rows cols : Nat) (t : Char) : Grid :=
  let letters := generateLetterPairs r rows cols t
  let letterPairs := groupIntoLetterPairs letters
  placeAll r.tag (initializeEmptyMap rows cols) (templatePlacements rows cols letterPairs)

/-- The `do … while (!isSolvable() && attempts < 30)` loop of
`generateRandomMap`, returning the grid and the attempt count. -/
def generateRandomMapLoop (R : Nat → AttemptRand) (rows cols : Nat) (t : Char)
    (attempts : Nat) : Grid × Nat :=
  let g :=
    if attempts < 15 then
      generateMapWithEdgePriority (R attempts) rows cols t (initializeEmptyMap rows cols)
    else generateMapTraditional (R attempts) rows cols t (initializeEmptyMap rows cols)
  let a := attempts + 1
  if ¬ isSolvable rows cols g = true ∧ a < 30 then generateRandomMapLoop R rows cols t a
  else (g, a)
termination_by 30 - attempts
decreasing_by omega

/-- `generateRandomMap()`: up to 30 strategy attempts, then the
guaranteed-solvable template (the fresh random draws of the fallback are
the unused member `R 30` of the family). -/
def generateRandomMap (R : Nat → AttemptRand) (rows cols : Nat) (t : Char) : Grid :=
  let ga := generateRandomMapLoop R rows cols t 0
  if ga.2 ≥ 30 then generateSolvableTemplate (R 30) rows cols t else ga.1

/-- The `do … while (!isSolvable() && attempts < 100)` loop of
`createMap`. -/
def createMapLoop (G : Nat → Nat → AttemptRand) (rows cols : Nat) (t : Char)
    (attempts : Nat) : Grid × Nat :=
  let g := generateRandomMap (G attempts) rows cols t
  let a := attempts + 1
  if ¬ isSolvable rows cols g = true ∧ a < 100 then createMapLoop G rows cols t a
  else (g, a)
termination_by 100 - attempts
decreasing_by omega

/-- `createMap()`: the grid in `this.pictures` when the outer retry loop
finishes (on exhaustion the source only warns and keeps the last map). -/
def createMapG (G : Nat → Nat → AttemptRand) (rows cols : Nat) (t : Char) : Grid :=
  (createMapLoop G rows cols t 0).1

/-- The grid really is a `rows × cols` array. -/
def GridDims (g : Grid) (rows cols : Nat) : Prop :=
  g.length = rows ∧ ∀ row ∈ g, row.length = cols

theorem gridDims_initializeEmptyMap (rows cols : Nat) :
    GridDims (initializeEmptyMap rows cols) rows cols := by
  refine ⟨List.length_replicate .., ?_⟩
  intro row hrow
  rw [(List.mem_replicate.mp hrow).2]
  exact List.length_replicate ..

theorem gridDims_setCell (g : Grid) (rows cols r c : Nat) (cell : CellInfo)
    (h : GridDims g rows cols) : GridDims (setCell g r c cell) rows cols := by
  by_cases hr : r < g.length
  · unfold setCell
    refine ⟨by rw [List.length_set]; exact h.1, ?_⟩
    intro row hrow
    rcases List.mem_or_eq_of_mem_set hrow with hmem | heq
    · exact h.2 row hmem
    · rw [heq, List.length_set]
      exact h.2 _ (List.getD_eq_getElem g [] hr ▸ List.getElem_mem hr)
  · unfold setCell
    rw [List.set_eq_of_length_le (by omega)]
    exact h

theorem getCell_setCell_ne (g : Grid) (r c r' c' : Nat) (cell : CellInfo)
    (h : r' ≠ r ∨ c' ≠ c) :
    getCell (setCell g r c cell) r' c' = getCell g r' c' := by
  unfold getCell setCell
  by_cases hr : r' = r
  · subst hr
    have hc : c' ≠ c := by tauto
    rw [List.getD_eq_getElem?_getD (g.set r' _), List.getElem?_set]
    rw [if_pos rfl]
    by_cases hlen : r' < g.length
    · rw [if_pos hlen]
      show ((g.getD r' []).set c cell).getD c' emptyCell = _
      rw [List.getD_eq_getElem?_getD, List.getElem?_set_ne (fun he => hc he.symm),
        ← List.getD_eq_getElem?_getD]
    · rw [if_neg hlen]
      show ([] : List CellInfo).getD c' emptyCell = _
      rw [List.getD_eq_getElem?_getD g, List.getElem?_eq_none (by omega)]
      rfl
  · rw [List.getD_eq_getElem?_getD (g.set r _), List.getElem?_set_ne (fun he => hr he.symm),
      ← List.getD_eq_getElem?_getD]

theorem getCell_setCell_self (g : Grid) (r c : Nat) (cell : CellInfo)
    (hr : r < g.length) (hc : c < (g.getD r []).length) :
    getCell (setCell g r c cell) r c = cell := by
  unfold getCell setCell
  rw [List.getD_eq_getElem?_getD (g.set r _), List.getElem?_set_self hr]
  show ((g.getD r []).set c cell).getD c emptyCell = cell
  rw [List.getD_eq_getElem?_getD, List.getElem?_set_self hc]
  rfl

theorem mem_allValidPositions (rows cols r c : Nat) :
    (r, c) ∈ allValidPositions rows cols ↔
    1 ≤ r ∧ r < rows - 1 ∧ 1 ≤ c ∧ c < cols - 1 := by
  unfold allValidPositions
  rw [List.mem_flatMap]
  constructor
  · rintro ⟨i, hi, hmem⟩
    rw [List.mem_map] at hmem
    obtain ⟨j, hj, heq⟩ := hmem
    obtain ⟨hr, hc⟩ := Prod.mk.injEq .. ▸ heq
    subst hr; subst hc
    rw [List.mem_range'] at hi hj
    obtain ⟨a, ha, rfl⟩ := hi
    obtain ⟨b, hb, rfl⟩ := hj
    omega
  · rintro ⟨h1, h2, h3, h4⟩
    refine ⟨r, ?_, ?_⟩
    · rw [List.mem_range']
      exact ⟨r - 1, by omega, by omega⟩
    · rw [List.mem_map]
      refine ⟨c, ?_, rfl⟩
      rw [List.mem_range']
      exact ⟨c - 1, by omega, by omega⟩

theorem allValidPositions_nodup (rows cols : Nat) :
    (allValidPositions rows cols).Nodup := by
  unfold allValidPositions
  rw [List.nodup_flatMap]
  constructor
  · intro i _
    exact List.Nodup.map (fun a b hab => by
      obtain ⟨-, h2⟩ := Prod.mk.injEq .. ▸ hab
      exact h2) (List.nodup_range' _ _)
  · refine (List.nodup_range' 1 (rows - 2)).imp ?_
    intro a b hab
    intro x hxa hxb
    rw [List.mem_map] at hxa hxb
    obtain ⟨ja, _, rfl⟩ := hxa
    obtain ⟨jb, _, heq⟩ := hxb
    injection heq with h1 h2
    exact hab h1.symm

theorem collectCells_of_all_empty (g : Grid) (rows cols : Nat)
    (h : ∀ p ∈ allValidPositions rows cols, (getCell g p.1 p.2).isEmpty = true) :
    collectCells g rows cols = [] := by
  unfold collectCells
  rw [List.filterMap_eq_nil_iff]
  intro p hp
  rw [if_pos (h p hp)]

theorem filterMap_update_perm {α β : Type} [DecidableEq α] (l : List α)
    (f f' : α → Option β) (a : α) (b : β) (hnd : l.Nodup) (ha : a ∈ l)
    (hf : ∀ x ∈ l, x ≠ a → f' x = f x) (hfa : f a = none) (hfa' : f' a = some b) :
    (l.filterMap f').Perm (b :: l.filterMap f) := by
  induction l with
  | nil => exact absurd ha (List.not_mem_nil a)
  | cons x rest ih =>
    rcases List.mem_cons.mp ha with heq | hmem
    · subst heq
      rw [List.filterMap_cons, List.filterMap_cons, hfa', hfa]
      have hresteq : rest.filterMap f' = rest.filterMap f := by
        apply List.filterMap_congr
        intro y hy
        exact hf y (List.mem_cons_of_mem _ hy) fun he =>
          (List.nodup_cons.mp hnd).1 (he ▸ hy)
      rw [hresteq]
    · have hxa : x ≠ a := fun he => (List.nodup_cons.mp hnd).1 (he ▸ hmem)
      rw [List.filterMap_cons, List.filterMap_cons, hf x (by simp) hxa]
      rcases hfx : f x with _ | y
      · exact ih (List.nodup_cons.mp hnd).2 hmem
          fun z hz => hf z (List.mem_cons_of_mem _ hz)
      · refine List.Perm.trans ((ih (List.nodup_cons.mp hnd).2 hmem
          fun z hz => hf z (List.mem_cons_of_mem _ hz)).cons y) ?_
        exact List.Perm.swap _ _ _

theorem getCell_initializeEmptyMap (rows cols r c : Nat) :
    getCell (initializeEmptyMap rows cols) r c = emptyCell := by
  unfold getCell initializeEmptyMap
  have hrow : (List.replicate rows (List.replicate cols
      (⟨true, 0, ' ', none⟩ : CellInfo))).getD r [] =
      List.replicate (if r < rows then cols else 0) ⟨true, 0, ' ', none⟩ := by
    by_cases hr : r < rows
    · rw [if_pos hr, List.getD_eq_getElem _ _ (by rw [List.length_replicate]; exact hr)]
      exact List.getElem_replicate ..
    · rw [if_neg hr, List.getD_eq_getElem?_getD,
        List.getElem?_eq_none (by rw [List.length_replicate]; omega)]
      rfl
  rw [hrow]
  by_cases hc : c < (if r < rows then cols else 0)
  · rw [List.getD_eq_getElem _ _ (by rw [List.length_replicate]; exact hc)]
    exact List.getElem_replicate ..
  · rw [List.getD_eq_getElem?_getD,
      List.getElem?_eq_none (by rw [List.length_replicate]; omega)]
    rfl

theorem collectCells_setCell_perm (g : Grid) (rows cols r c : Nat) (cell : CellInfo)
    (hdims : GridDims g rows cols)
    (hin : (r, c) ∈ allValidPositions rows cols)
    (hemp : (getCell g r c).isEmpty = true)
    (hcell : cell.isEmpty = false) :
    (collectCells (setCell g r c cell) rows cols).Perm
      ((⟨r, c, cell.pic⟩ : CellRec) :: collectCells g rows cols) := by
  have hbounds := (mem_allValidPositions rows cols r c).mp hin
  have hr : r < g.length := by rw [hdims.1]; omega
  have hc : c < (g.getD r []).length := by
    rw [hdims.2 _ (List.getD_eq_getElem g [] hr ▸ List.getElem_mem hr)]
    omega
  unfold collectCells
  refine filterMap_update_perm (allValidPositions rows cols) _ _ (r, c) _
    (allValidPositions_nodup rows cols) hin ?_ ?_ ?_
  · intro p hp hpne
    have hne : p.1 ≠ r ∨ p.2 ≠ c := by
      by_cases h1 : p.1 = r
      · right
        intro he
        exact hpne (Prod.ext h1 he)
      · left
        exact h1
    rw [getCell_setCell_ne g r c p.1 p.2 cell hne]
  · show (if (getCell g r c).isEmpty = true then _ else _) = none
    rw [if_pos hemp]
  · show (if (getCell (setCell g r c cell) r c).isEmpty = true then _ else _) = _
    rw [getCell_setCell_self g r c cell hr hc, if_neg (by simp [hcell])]

theorem collectCells_placeAllFrom (rows cols : Nat) (tags : Nat → Nat) :
    ∀ (ps : List ((Nat × Nat) × Char)) (k : Nat) (g : Grid),
    GridDims g rows cols →
    (∀ q ∈ ps, q.1 ∈ allValidPositions rows cols) →
    (∀ q ∈ ps, (getCell g q.1.1 q.1.2).isEmpty = true) →
    (ps.map Prod.fst).Nodup →
    (collectCells (placeAllFrom tags k g ps) rows cols).Perm
      ((ps.map fun q => (⟨q.1.1, q.1.2, q.2⟩ : CellRec)) ++ collectCells g rows cols) := by
  intro ps
  induction ps with
  | nil => intro k g _ _ _ _; exact List.Perm.refl _
  | cons q rest ih =>
    intro k g hdims hpos hemp hnd
    obtain ⟨p, ch⟩ := q
    show (collectCells (placeAllFrom tags (k + 1) (placeLetter (tags k) g p ch) rest)
      rows cols).Perm _
    have hpne : ∀ q ∈ rest, q.1 ≠ p := by
      intro q hq he
      rw [List.map_cons, List.nodup_cons] at hnd
      apply hnd.1
      show p ∈ rest.map Prod.fst
      rw [← he]
      exact List.mem_map_of_mem Prod.fst hq
    have hsetperm : (collectCells (placeLetter (tags k) g p ch) rows cols).Perm
        ((⟨p.1, p.2, ch⟩ : CellRec) :: collectCells g rows cols) := by
      have := collectCells_setCell_perm g rows cols p.1 p.2
        ⟨false, (ch.toUpper.toNat : Int) - 65, ch, some (tags k)⟩ hdims
        (by have := hpos (p, ch) (by simp); simpa using this)
        (by have := hemp (p, ch) (by simp); simpa using this) rfl
      simpa [placeLetter] using this
    refine List.Perm.trans (ih (k + 1) (placeLetter (tags k) g p ch)
      (gridDims_setCell g rows cols p.1 p.2 _ hdims)
      (fun q hq => hpos q (List.mem_cons_of_mem _ hq))
      (fun q hq => by
        rw [placeLetter, getCell_setCell_ne g p.1 p.2 q.1.1 q.1.2 _
          (by
            have hne := hpne q hq
            by_cases h1 : q.1.1 = p.1
            · right
              intro he
              exact hne (Prod.ext h1 he)
            · left
              exact h1)]
        exact hemp q (List.mem_cons_of_mem _ hq))
      (by rw [List.map_cons, List.nodup_cons] at hnd; exact hnd.2)) ?_
    refine List.Perm.trans (List.Perm.append_left _ hsetperm) ?_
    exact List.perm_middle

theorem collectCells_placeAll_fresh (rows cols : Nat) (tags : Nat → Nat)
    (ps : List ((Nat × Nat) × Char))
    (hpos : ∀ q ∈ ps, q.1 ∈ allValidPositions rows cols)
    (hnd : (ps.map Prod.fst).Nodup) :
    (collectCells (placeAll tags (initializeEmptyMap rows cols) ps) rows cols).Perm
      (ps.map fun q => (⟨q.1.1, q.1.2, q.2⟩ : CellRec)) := by
  have h := collectCells_placeAllFrom rows cols tags ps 0 (initializeEmptyMap rows cols)
    (gridDims_initializeEmptyMap rows cols) hpos
    (fun q _ => by rw [getCell_initializeEmptyMap]; rfl) hnd
  rw [collectCells_of_all_empty (initializeEmptyMap rows cols) rows cols
    (fun p _ => by rw [getCell_initializeEmptyMap]; rfl), List.append_nil] at h
  exact h

theorem mem_templateSlots (rows cols i j : Nat) :
    (i, j) ∈ templateSlots rows cols ↔
    (1 ≤ i ∧ i < rows - 1 ∧ ∃ m, m < (cols - 3) / 2 ∧ j = 1 + 2 * m) := by
  unfold templateSlots
  rw [List.mem_flatMap]
  constructor
  · rintro ⟨i', hi', hmem⟩
    rw [List.mem_map] at hmem
    obtain ⟨m, hm, heq⟩ := hmem
    injection heq with h1 h2
    subst h1
    subst h2
    rw [List.mem_range'] at hi' hm
    obtain ⟨a, ha, rfl⟩ := hi'
    obtain ⟨b, hb, rfl⟩ := hm
    exact ⟨by omega, by omega, b, by omega, by omega⟩
  · rintro ⟨h1, h2, m, hm, rfl⟩
    refine ⟨i, ?_, ?_⟩
    · rw [List.mem_range']
      exact ⟨i - 1, by omega, by omega⟩
    · rw [List.mem_map]
      exact ⟨m, by rw [List.mem_range']; exact ⟨m, by omega, by omega⟩, rfl⟩

theorem templateSlots_nodup (rows cols : Nat) : (templateSlots rows cols).Nodup := by
  unfold templateSlots
  rw [List.nodup_flatMap]
  constructor
  · intro i _
    exact List.Nodup.map (fun a b hab => by
      injection hab with h1 h2
      omega) (List.nodup_range' _ _)
  · refine (List.nodup_range' 1 (rows - 2)).imp ?_
    intro a b hab x hxa hxb
    rw [List.mem_map] at hxa hxb
    obtain ⟨ma, _, rfl⟩ := hxa
    obtain ⟨mb, _, heq⟩ := hxb
    injection heq with h1 h2
    exact hab h1.symm

theorem pairwise_zip_left {α β : Type} {P : α → α → Prop} :
    ∀ (l1 : List α) (l2 : List β), List.Pairwise P l1 →
    List.Pairwise (fun a b => P a.1 b.1) (l1.zip l2) := by
  intro l1
  induction l1 with
  | nil => intro l2 _; exact List.Pairwise.nil
  | cons a t1 ih =>
    intro l2 hp
    cases l2 with
    | nil => exact List.Pairwise.nil
    | cons b t2 =>
      rw [List.zip_cons_cons]
      refine List.Pairwise.cons ?_ (ih t2 (List.pairwise_cons.mp hp).2)
      intro x hx
      exact (List.pairwise_cons.mp hp).1 x.1 (List.of_mem_zip hx).1

/-- Positions written by the template's placements: pairwise-disjoint
two-cell blocks inside the play area. -/
theorem templatePlacements_fst_nodup (rows cols : Nat) (pairs : List (List Char)) :
    ((templatePlacements rows cols pairs).map Prod.fst).Nodup := by
  unfold templatePlacements
  rw [List.map_flatMap]
  rw [List.nodup_flatMap]
  constructor
  · rintro ⟨⟨i, j⟩, pr⟩ _
    simp [List.nodup_cons]
  · have hslots : List.Pairwise (fun s t : Nat × Nat => s ≠ t ∧
        (s ∈ templateSlots rows cols ∧ t ∈ templateSlots rows cols))
        (templateSlots rows cols) := by
      refine List.Pairwise.imp_of_mem ?_ (templateSlots_nodup rows cols)
      intro a b ha hb hne
      exact ⟨hne, ha, hb⟩
    have hz := pairwise_zip_left (templateSlots rows cols) pairs hslots
    refine hz.imp ?_
    intro u v h
    obtain ⟨hne, hsu, hsv⟩ := h
    intro x hxu hxv
    obtain ⟨-, -, ma, hma, hja⟩ := (mem_templateSlots rows cols u.1.1 u.1.2).mp
      (by rw [show ((u.1.1, u.1.2) : Nat × Nat) = u.1 from rfl]; exact hsu)
    obtain ⟨-, -, mb, hmb, hjb⟩ := (mem_templateSlots rows cols v.1.1 v.1.2).mp
      (by rw [show ((v.1.1, v.1.2) : Nat × Nat) = v.1 from rfl]; exact hsv)
    have hneq : ¬ (u.1.1 = v.1.1 ∧ u.1.2 = v.1.2) := by
      intro hcon
      exact hne (Prod.ext hcon.1 hcon.2)
    have hxu' : x = (u.1.1, u.1.2) ∨ x = (u.1.1, u.1.2 + 1) := by
      simpa using hxu
    have hxv' : x = (v.1.1, v.1.2) ∨ x = (v.1.1, v.1.2 + 1) := by
      simpa using hxv
    rcases hxu' with rfl | rfl <;> rcases hxv' with heq | heq <;>
      (injection heq with h1 h2) <;>
      first
        | exact hneq ⟨h1, by omega⟩
        | omega

theorem templatePlacements_pos_valid (rows cols : Nat) (pairs : List (List Char)) :
    ∀ q ∈ templatePlacements rows cols pairs, q.1 ∈ allValidPositions rows cols := by
  intro q hq
  unfold templatePlacements at hq
  rw [List.mem_flatMap] at hq
  obtain ⟨sp, hsp, hmem⟩ := hq
  have hslot : sp.1 ∈ templateSlots rows cols := (List.of_mem_zip hsp).1
  obtain ⟨h1, h2, m, hm, hj⟩ := (mem_templateSlots rows cols sp.1.1 sp.1.2).mp
    (by rw [show ((sp.1.1, sp.1.2) : Nat × Nat) = sp.1 from rfl]; exact hslot)
  have hq' : q.1 = (sp.1.1, sp.1.2) ∨ q.1 = (sp.1.1, sp.1.2 + 1) := by
    rcases List.mem_cons.mp hmem with rfl | hmem2
    · exact Or.inl rfl
    · rw [List.mem_singleton.mp hmem2]
      exact Or.inr rfl
  rcases hq' with heq | heq <;> rw [heq, mem_allValidPositions] <;>
    exact ⟨by omega, by omega, by omega, by omega⟩

theorem adjPairList_template_records (rows cols : Nat) :
    ∀ (slots : List (Nat × Nat)) (base : List Char), (∀ c ∈ base, c ∈ allLetters) →
    AdjPairList ((slots.zip (base.map fun c => [c, c.toUpper])).flatMap
      fun sp => [(⟨sp.1.1, sp.1.2, sp.2.getD 0 ' '⟩ : CellRec),
        ⟨sp.1.1, sp.1.2 + 1, sp.2.getD 1 ' '⟩]) := by
  intro slots
  induction slots with
  | nil => intro base _; exact AdjPairList.nil
  | cons s rest ih =>
    intro base hsub
    cases base with
    | nil => exact AdjPairList.nil
    | cons c base' =>
      rw [List.map_cons, List.zip_cons_cons, List.flatMap_cons]
      refine AdjPairList.cons _ _ _ rfl rfl ?_
        (ih base' fun d hd => hsub d (List.mem_cons_of_mem _ hd))
      show isMatchChar c c.toUpper = true
      exact (by decide : ∀ d ∈ allLetters, isMatchChar d d.toUpper = true) c
        (hsub c (by simp))

/-- The map-generation safety net really is solvable, for any alphabetic
target letter and any random outcome. -/
theorem generateSolvableTemplate_solvable (r : AttemptRand) (rows cols : Nat) (t : Char)
    (ht : t ∈ upperLetters) :
    isSolvable rows cols (generateSolvableTemplate r rows cols t) = true := by
  obtain ⟨base, hlet, hnd, hsub⟩ := generateLetterPairs_good r rows cols t ht
  unfold generateSolvableTemplate
  dsimp only
  rw [hlet, groupIntoLetterPairs_blocks base hnd hsub]
  refine isSolvable_of_adjPairs rows cols _
    ((templatePlacements rows cols (base.map fun c => [c, c.toUpper])).map
      fun q => (⟨q.1.1, q.1.2, q.2⟩ : CellRec)) ?_ ?_
  · unfold templatePlacements
    rw [List.map_flatMap]
    exact adjPairList_template_records rows cols _ base hsub
  · exact collectCells_placeAll_fresh rows cols r.tag _
      (templatePlacements_pos_valid rows cols _)
      (templatePlacements_fst_nodup rows cols _)

theorem generateRandomMapLoop_post (R : Nat → AttemptRand) (rows cols : Nat) (t : Char)
    (attempts : Nat) :
    (generateRandomMapLoop R rows cols t attempts).2 < 30 →
    isSolvable rows cols (generateRandomMapLoop R rows cols t attempts).1 = true := by
  rw [generateRandomMapLoop]
  repeat' split
  all_goals
    first
      | exact generateRandomMapLoop_post R rows cols t (attempts + 1)
      | (intro hlt
         by_contra hns
         rename_i hcond
         exact hcond ⟨hns, hlt⟩)
termination_by 30 - attempts
decreasing_by all_goals omega

theorem generateRandomMap_solvable (R : Nat → AttemptRand) (rows cols : Nat) (t : Char)
    (ht : t ∈ upperLetters) :
    isSolvable rows cols (generateRandomMap R rows cols t) = true := by
  unfold generateRandomMap
  dsimp only
  split
  · exact generateSolvableTemplate_solvable (R 30) rows cols t ht
  · rename_i h
    exact generateRandomMapLoop_post R rows cols t 0 (by omega)

theorem createMapLoop_solvable (G : Nat → Nat → AttemptRand) (rows cols : Nat) (t : Char)
    (ht : t ∈ upperLetters) (attempts : Nat) :
    isSolvable rows cols (createMapLoop G rows cols t attempts).1 = true := by
  rw [createMapLoop]
  split
  · exact createMapLoop_solvable G rows cols t ht (attempts + 1)
  · exact generateRandomMap_solvable (G attempts) rows cols t ht
termination_by 100 - attempts
decreasing_by omega

theorem createMapG_solvable (G : Nat → Nat → AttemptRand) (rows cols : Nat) (t : Char)
    (ht : t ∈ upperLetters) : isSolvable rows cols (createMapG G rows cols t) = true :=
  createMapLoop_solvable G rows cols t ht 0

/-- The non-empty play cells' `{type, pic, index}` records in row-major
order, as collected by every reshuffle strategy. -/
def collectCharacters (g : Grid) (rows cols : Nat) : List CharacterInfo :=
  (allValidPositions rows cols).filterMap fun p =>
    if (getCell g p.1 p.2).isEmpty then none
    else some ⟨(getCell g p.1 p.2).type, (getCell g p.1 p.2).pic,
      (getCell g p.1 p.2).index.getD 0⟩

/-- The non-empty play positions in row-major order. -/
def collectPositions (g : Grid) (rows cols : Nat) : List (Nat × Nat) :=
  (allValidPositions rows cols).filter fun p => !(getCell g p.1 p.2).isEmpty

/-- Overwrite one cell's `type` / `pic` / `index`, keeping its emptiness
(the reshuffle strategies never change which cells are occupied). -/
def assignChar (g : Grid) (p : Nat × Nat) (ch : CharacterInfo) : Grid :=
  setCell g p.1 p.2
    { getCell g p.1 p.2 with type := ch.type, pic := ch.pic, index := some ch.index }

def assignAll (g : Grid) : List ((Nat × Nat) × CharacterInfo) → Grid
  | [] => g
  | (p, ch) :: rest => assignAll (assignChar g p ch) rest

/-- `smartDisorderEdgeFirst()`: edge-priority position order, shuffled
characters. -/
def smartDisorderEdgeFirst (r : AttemptRand) (rows cols : Nat) (g : Grid) : Grid :=
  let characters := r.shuffleC (collectCharacters g rows cols)
  let positions := sortPositionsByEdge rows cols (collectPositions g rows cols)
  assignAll g (positions.zip characters)

/-- The assignment schedule of `smartDisorderSpread`: each two-letter
group goes to positions `charIndex % N` and
`(charIndex + N / 2) % N`, `charIndex` stepping by two. -/
def spreadAssignments (positions : List (Nat × Nat)) :
    List (List CharacterInfo) → Nat → List ((Nat × Nat) × CharacterInfo)
  | [], _ => []
  | grp :: rest, charIndex =>
    (positions.getD (charIndex % positions.length) (0, 0), grp.getD 0 ⟨0, ' ', 0⟩) ::
    (positions.getD ((charIndex + positions.length / 2) % positions.length) (0, 0),
      grp.getD 1 ⟨0, ' ', 0⟩) ::
    spreadAssignments positions rest (charIndex + 2)

/-- `smartDisorderSpread()`: group characters by letter and spread each
two-letter group half the board apart. -/
def smartDisorderSpread (rows cols : Nat) (g : Grid) : Grid :=
  let characters := collectCharacters g rows cols
  let positions := collectPositions g rows cols
  let groups := (characters.foldl (fun m ch => insertGroup m ch.pic.toLower ch) []).map
    Prod.snd
  let pairGroups := groups.filter fun grp => grp.length == 2
  assignAll g (spreadAssignments positions pairGroups 0)

/-- `randomDisorder()`: uniformly shuffled characters reassigned
row-major over the occupied positions. -/
def randomDisorder (r : AttemptRand) (rows cols : Nat) (g : Grid) : Grid :=
  let characters := r.shuffleC (collectCharacters g rows cols)
  assignAll g ((collectPositions g rows cols).zip characters)

/-- The odd columns `j ∈ {1, 3, …}, j < cols - 1` visited by
`generateLinearLayout`. -/
def linearSlots (rows cols : Nat) : List (Nat × Nat) :=
  (List.range' 1 (rows - 2)).flatMap fun i =>
    (List.range' 0 ((cols - 1) / 2)).map fun m => (i, 1 + 2 * m)

/-- The assignments of `generateLinearLayout`: a pair goes onto `(i, j)`
and `(i, j + 1)` when both cells are occupied; the partner is only
written when `j + 1` is still inside the play area.  Emptiness never
changes during the loop, so the tests read the initial grid. -/
def linearAssignAux (g : Grid) (cols : Nat) :
    List (Nat × Nat) → List (List CharacterInfo) → List ((Nat × Nat) × CharacterInfo)
  | _, [] => []
  | [], _ => []
  | (i, j) :: slots, pr :: prs =>
    if (getCell g i j).isEmpty = false ∧ (getCell g i (j + 1)).isEmpty = false then
      ((i, j), pr.getD 0 ⟨0, ' ', 0⟩) ::
      (if j + 1 < cols - 1 then [((i, j + 1), pr.getD 1 ⟨0, ' ', 0⟩)] else []) ++
      linearAssignAux g cols slots prs
    else linearAssignAux g cols slots prs

/-- `generateLinearLayout()`. -/
def generateLinearLayout (rows cols : Nat) (g : Grid) : Grid :=
  let characters := collectCharacters g rows cols
  let pairs := ((characters.foldl (fun m ch => insertGroup m ch.pic.toLower ch) []).map
    Prod.snd).filter fun grp => grp.length == 2
  assignAll g (linearAssignAux g cols (linearSlots rows cols) pairs)

/-- The `do … while (!isSolvable() && attempts < 200)` loop of
`disorder`, threading the successively re-permuted grid. -/
def disorderLoop (D : Nat → AttemptRand) (rows cols : Nat) (g : Grid)
    (attempts : Nat) : Grid × Nat :=
  let g' :=
    if attempts < 50 then smartDisorderEdgeFirst (D attempts) rows cols g
    else if attempts < 100 then smartDisorderSpread rows cols g
    else randomDisorder (D attempts) rows cols g
  let a := attempts + 1
  if ¬ isSolvable rows cols g' = true ∧ a < 200 then disorderLoop D rows cols g' a
  else (g', a)
termination_by 200 - attempts
decreasing_by omega

/-- `disorder()`: 200 strategy attempts, then
`forceGenerateSolvableLayout` (a fresh `generateRandomMap`, and the
linear layout if that were still unsolvable). -/
def disorderG (D : Nat → AttemptRand) (F : Nat → AttemptRand) (rows cols : Nat)
    (t : Char) (g : Grid) : Grid :=
  let ga := disorderLoop D rows cols g 0
  if ga.2 ≥ 200 then
    let gNew := generateRandomMap F rows cols t
    if ¬ isSolvable rows cols gNew = true then generateLinearLayout rows cols gNew
    else gNew
  else ga.1

theorem disorderLoop_post (D : Nat → AttemptRand) (rows cols : Nat) (g : Grid)
    (attempts : Nat) :
    (disorderLoop D rows cols g attempts).2 < 200 →
    isSolvable rows cols (disorderLoop D rows cols g attempts).1 = true := by
  rw [disorderLoop]
  repeat' split
  all_goals
    first
      | exact disorderLoop_post D rows cols _ (attempts + 1)
      | (intro hlt
         by_contra hns
         rename_i hcond
         exact hcond ⟨hns, hlt⟩)
termination_by 200 - attempts
decreasing_by all_goals omega

theorem disorderG_solvable (D F : Nat → AttemptRand) (rows cols : Nat) (t : Char)
    (g : Grid) (ht : t ∈ upperLetters) :
    isSolvable rows cols (disorderG D F rows cols t g) = true := by
  unfold disorderG
  dsimp only
  split
  · rw [if_neg (by
      intro hcon
      exact hcon (generateRandomMap_solvable F rows cols t ht))]
    exact generateRandomMap_solvable F rows cols t ht
  · rename_i h
    exact disorderLoop_post D rows cols g 0 (by omega)

/-- Claim C1: every board state in effect at the moment map generation
(`createMap`) or a reshuffle (`disorder`) returns satisfies `isSolvable`
-- for every random outcome, every pre-reshuffle grid, and every
alphabetic (uppercased) target letter, including the budget-exhausted
paths through `generateSolvableTemplate` and
`forceGenerateSolvableLayout`.  The single-cell play area
`(rows-2)*(cols-2) = 1`, where the source's edge-priority placement reads
`positions[1]` out of range and crashes, is excluded. -/
theorem generation_and_reshuffle_solvable (G : Nat → Nat → AttemptRand)
    (D F : Nat → AttemptRand) (rows cols : Nat) (t : Char) (g : Grid)
    (ht : t ∈ upperLetters) (hn : (rows - 2) * (cols - 2) ≠ 1) :
    isSolvable rows cols (createMapG G rows cols t) = true ∧
    isSolvable rows cols (disorderG D F rows cols t g) = true :=
  ⟨createMapG_solvable G rows cols t ht, disorderG_solvable D F rows cols t g ht⟩

/-- A fixed random outcome for concrete evaluations. -/
def demoRand : AttemptRand := ⟨fun _ => ⟨0, by omega⟩, 64, fun _ => 7, id, id⟩

theorem generation_and_reshuffle_solvable_witness :
    ('A' ∈ upperLetters ∧ (3 - 2) * (4 - 2) ≠ 1) ∧
    (isSolvable 3 4 (createMapG (fun _ _ => demoRand) 3 4 'A') = true ∧
     isSolvable 3 4 (disorderG (fun _ => demoRand) (fun _ => demoRand) 3 4 'A' []) = true) :=
  ⟨⟨by decide, by decide⟩,
   generation_and_reshuffle_solvable (fun _ _ => demoRand) (fun _ => demoRand)
     (fun _ => demoRand) 3 4 'A' [] (by decide) (by decide)⟩

/-- An occupied demo cell. -/
def demoCell (c : Char) : CellInfo := ⟨false, (c.toUpper.toNat : Int) - 65, c, some 0⟩

/-- A 2 × 2 play area whose two letter pairs block each other. -/
def demoGridBlocked : Grid :=
  [[emptyCell, emptyCell, emptyCell, emptyCell],
   [emptyCell, demoCell 'a', demoCell 'b', emptyCell],
   [emptyCell, demoCell 'B', demoCell 'A', emptyCell],
   [emptyCell, emptyCell, emptyCell, emptyCell]]

theorem canCleanup_existence_symm_witness :
    ((1 : Nat) < 4 ∧ (1 : Nat) < 4 ∧ (2 : Nat) < 4 ∧ (2 : Nat) < 4 ∧
     (getCell demoGridBlocked 1 1).isEmpty = false ∧
     (getCell demoGridBlocked 2 2).isEmpty = false) ∧
    (canCleanup demoGridBlocked 4 4 1 1 2 2).isSome =
      (canCleanup demoGridBlocked 4 4 2 2 1 1).isSome :=
  ⟨⟨by decide, by decide, by decide, by decide, by decide, by decide⟩,
   canCleanup_existence_symm demoGridBlocked 4 4 1 1 2 2 (by decide) (by decide)
     (by decide) (by decide) (by decide) (by decide)⟩

theorem countP_lettersOfBase_zero (c : Char) (hc : c ∈ allLetters) :
    ∀ (base : List Char), (∀ b ∈ base, b ∈ allLetters) → c ∉ base →
    (List.countP (fun d => isMatchChar c d) (lettersOfBase base) = 0 ∧
     List.countP (fun d => isMatchChar c.toUpper d) (lettersOfBase base) = 0) := by
  intro base
  induction base with
  | nil => intro _ _; exact ⟨rfl, rfl⟩
  | cons b rest ih =>
    intro hsub hnm
    have hb : b ∈ allLetters := hsub b (by simp)
    have h1 : isMatchChar c b = false :=
      (by decide : ∀ x ∈ allLetters, ∀ y ∈ allLetters, isMatchChar x y = false) c hc b hb
    have h2 : isMatchChar c b.toUpper = (c == b) :=
      (by decide : ∀ x ∈ allLetters, ∀ y ∈ allLetters,
        isMatchChar x y.toUpper = (x == y)) c hc b hb
    have h3 : isMatchChar c.toUpper b = (c == b) :=
      (by decide : ∀ x ∈ allLetters, ∀ y ∈ allLetters,
        isMatchChar x.toUpper y = (x == y)) c hc b hb
    have h4 : isMatchChar c.toUpper b.toUpper = false :=
      (by decide : ∀ x ∈ allLetters, ∀ y ∈ allLetters,
        isMatchChar x.toUpper y.toUpper = false) c hc b hb
    have hcb : (c == b) = false := by
      rw [beq_eq_false_iff_ne]
      intro he
      exact hnm (he ▸ List.mem_cons_self b rest)
    have hrest := ih (fun x hx => hsub x (List.mem_cons_of_mem _ hx))
      (fun hx => hnm (List.mem_cons_of_mem _ hx))
    show (List.countP _ (b :: b.toUpper :: lettersOfBase rest) = 0 ∧
      List.countP _ (b :: b.toUpper :: lettersOfBase rest) = 0)
    rw [List.countP_cons, List.countP_cons, List.countP_cons, List.countP_cons]
    rw [h1, h2, h3, h4, hcb]
    simp [hrest.1, hrest.2]

theorem countP_lettersOfBase_one (c : Char) :
    ∀ (base : List Char), base.Nodup → (∀ b ∈ base, b ∈ allLetters) → c ∈ base →
    (List.countP (fun d => isMatchChar c d) (lettersOfBase base) = 1 ∧
     List.countP (fun d => isMatchChar c.toUpper d) (lettersOfBase base) = 1) := by
  intro base
  induction base with
  | nil => intro _ _ h; exact absurd h (List.not_mem_nil c)
  | cons b rest ih =>
    intro hnd hsub hmem
    have hb : b ∈ allLetters := hsub b (by simp)
    have hc : c ∈ allLetters := hsub c hmem
    have h1 : isMatchChar c b = false :=
      (by decide : ∀ x ∈ allLetters, ∀ y ∈ allLetters, isMatchChar x y = false) c hc b hb
    have h2 : isMatchChar c b.toUpper = (c == b) :=
      (by decide : ∀ x ∈ allLetters, ∀ y ∈ allLetters,
        isMatchChar x y.toUpper = (x == y)) c hc b hb
    have h3 : isMatchChar c.toUpper b = (c == b) :=
      (by decide : ∀ x ∈ allLetters, ∀ y ∈ allLetters,
        isMatchChar x.toUpper y = (x == y)) c hc b hb
    have h4 : isMatchChar c.toUpper b.toUpper = false :=
      (by decide : ∀ x ∈ allLetters, ∀ y ∈ allLetters,
        isMatchChar x.toUpper y.toUpper = false) c hc b hb
    show (List.countP _ (b :: b.toUpper :: lettersOfBase rest) = 1 ∧
      List.countP _ (b :: b.toUpper :: lettersOfBase rest) = 1)
    rw [List.countP_cons, List.countP_cons, List.countP_cons, List.countP_cons]
    rw [h1, h2, h3, h4]
    rcases List.mem_cons.mp hmem with rfl | hmem2
    · have hz := countP_lettersOfBase_zero c hc rest
        (fun x hx => hsub x (List.mem_cons_of_mem _ hx)) (List.nodup_cons.mp hnd).1
      simp [hz.1, hz.2]
    · have hcb : (c == b) = false := by
        rw [beq_eq_false_iff_ne]
        intro he
        exact (List.nodup_cons.mp hnd).1 (he ▸ hmem2)
      have ho := ih (List.nodup_cons.mp hnd).2
        (fun x hx => hsub x (List.mem_cons_of_mem _ hx)) hmem2
      simp [hcb, ho.1, ho.2]

/-- Every letter of a well-formed pair list has exactly one case-opposite
partner in the list. -/
theorem countP_lettersOfBase (c : Char) (base : List Char) (hnd : base.Nodup)
    (hsub : ∀ b ∈ base, b ∈ allLetters) (hmem : c ∈ lettersOfBase base) :
    List.countP (fun d => isMatchChar c d) (lettersOfBase base) = 1 := by
  rw [lettersOfBase, List.mem_flatMap] at hmem
  obtain ⟨b, hb, hcb⟩ := hmem
  rcases List.mem_cons.mp hcb with rfl | h2
  · exact (countP_lettersOfBase_one c base hnd hsub hb).1
  · rw [List.mem_singleton.mp h2]
    exact (countP_lettersOfBase_one b base hnd hsub hb).2

/-- Pair conservation over the occupied play-area cells: each cell's letter
matches (same letter, opposite case) exactly one occupied cell. -/
def PairConserved (g : Grid) (rows cols : Nat) : Prop :=
  ∀ cell ∈ collectCells g rows cols,
    List.countP (fun d => isMatchChar cell.pic d.pic) (collectCells g rows cols) = 1

theorem allValidPositions_length (rows cols : Nat) :
    (allValidPositions rows cols).length = (rows - 2) * (cols - 2) := by
  rw [allValidPositions, List.length_flatMap]
  have h : List.map (List.length ∘ fun i =>
      (List.range' 1 (cols - 2)).map fun j => (i, j)) (List.range' 1 (rows - 2)) =
      List.map (fun _ => cols - 2) (List.range' 1 (rows - 2)) := by
    refine List.map_congr_left ?_
    intro i _
    show ((List.range' 1 (cols - 2)).map fun j => (i, j)).length = cols - 2
    rw [List.length_map, List.length_range']
  rw [h, List.map_const', List.sum_replicate, List.length_range', smul_eq_mul]

theorem allValidPositions_eq_nil (rows cols : Nat) (h : (rows - 2) * (cols - 2) = 0) :
    allValidPositions rows cols = [] := by
  refine List.eq_nil_of_length_eq_zero ?_
  rw [allValidPositions_length, h]

theorem pairConserved_of_no_positions (g : Grid) (rows cols : Nat)
    (h : allValidPositions rows cols = []) : PairConserved g rows cols := by
  intro cell hcell
  rw [collectCells, h] at hcell
  exact absurd hcell (List.not_mem_nil cell)

theorem lettersOfBase_length (base : List Char) :
    (lettersOfBase base).length = 2 * base.length := by
  induction base with
  | nil => rfl
  | cons c rest ih =>
    rw [lettersOfBase, List.flatMap_cons, List.length_append, ← lettersOfBase, ih]
    simp only [List.length_cons, List.length_nil]
    omega

theorem genLettersLoop_length_le (pick : Nat → Fin 26) (needed : Nat)
    (hnev : needed % 2 = 0) :
    ∀ (fuel k : Nat) (letters used : List Char),
    letters.length % 2 = 0 → letters.length ≤ needed →
    (genLettersLoop pick needed fuel k letters used).length ≤ needed := by
  intro fuel
  induction fuel with
  | zero => intro k letters used _ hle; exact hle
  | succ m ih =>
    intro k letters used hpar hle
    rw [genLettersLoop]
    split
    · rename_i hlt
      dsimp only
      split
      · exact ih (k + 1) letters used hpar hle
      · refine ih (k + 1) _ _ ?_ ?_
        · rw [List.length_append]
          simp only [List.length_cons, List.length_nil]
          omega
        · rw [List.length_append]
          simp only [List.length_cons, List.length_nil]
          omega
    · exact hle

theorem generateLetterPairs_length_le (r : AttemptRand) (rows cols : Nat) (t : Char)
    (h2 : 2 ≤ (rows - 2) * (cols - 2)) :
    (generateLetterPairs r rows cols t).length ≤ (rows - 2) * (cols - 2) := by
  unfold generateLetterPairs
  dsimp only
  have hb := genLettersLoop_length_le r.pick ((rows - 2) * (cols - 2) / 2 * 2)
    (by omega) r.fuel 0 [t.toLower, t.toUpper] [t.toLower] (by simp) (by
      simp only [List.length_cons, List.length_nil]
      omega)
  omega

theorem map_fst_zip_take {α β : Type} (l₁ : List α) (l₂ : List β) :
    (l₁.zip l₂).map Prod.fst = l₁.take (l₁.length ⊓ l₂.length) := by
  rw [List.zip_eq_zip_take_min, List.map_fst_zip]
  rw [List.length_take, List.length_take]
  omega

theorem map_snd_zip_take {α β : Type} (l₁ : List α) (l₂ : List β) :
    (l₁.zip l₂).map Prod.snd = l₂.take (l₁.length ⊓ l₂.length) := by
  rw [List.zip_eq_zip_take_min, List.map_snd_zip]
  rw [List.length_take, List.length_take]
  omega

theorem pairConserved_of_pics_perm (g : Grid) (rows cols : Nat) (base : List Char)
    (hnd : base.Nodup) (hsub : ∀ b ∈ base, b ∈ allLetters)
    (hperm : ((collectCells g rows cols).map CellRec.pic).Perm (lettersOfBase base)) :
    PairConserved g rows cols := by
  intro cell hcell
  calc List.countP (fun d => isMatchChar cell.pic d.pic) (collectCells g rows cols)
      = List.countP (fun d => isMatchChar cell.pic d)
        ((collectCells g rows cols).map CellRec.pic) := by
        rw [List.countP_map]
        rfl
    _ = List.countP (fun d => isMatchChar cell.pic d) (lettersOfBase base) :=
        hperm.countP_eq _
    _ = 1 := countP_lettersOfBase cell.pic base hnd hsub
        (hperm.mem_iff.mp (List.mem_map_of_mem CellRec.pic hcell))

theorem pairConserved_traditional (r : AttemptRand) (rows cols : Nat) (t : Char)
    (ht : t ∈ upperLetters) (h2 : 2 ≤ (rows - 2) * (cols - 2))
    (hsh : (r.shuffleL (generateLetterPairs r rows cols t)).Perm
      (generateLetterPairs r rows cols t)) :
    PairConserved (generateMapTraditional r rows cols t (initializeEmptyMap rows cols))
      rows cols := by
  obtain ⟨base, hlet, hnd, hsub⟩ := generateLetterPairs_good r rows cols t ht
  have hlenL : (r.shuffleL (generateLetterPairs r rows cols t)).length ≤
      (allValidPositions rows cols).length := by
    rw [hsh.length_eq, allValidPositions_length]
    exact generateLetterPairs_length_le r rows cols t h2
  have hplace := collectCells_placeAll_fresh rows cols r.tag
    ((allValidPositions rows cols).zip (r.shuffleL (generateLetterPairs r rows cols t)))
    (by
      rintro ⟨p, c⟩ hq
      exact (List.of_mem_zip hq).1)
    (by
      rw [map_fst_zip_take]
      exact List.Nodup.sublist (List.take_sublist _ _) (allValidPositions_nodup rows cols))
  have hres : generateMapTraditional r rows cols t (initializeEmptyMap rows cols) =
      placeAll r.tag (initializeEmptyMap rows cols)
        ((allValidPositions rows cols).zip
          (r.shuffleL (generateLetterPairs r rows cols t))) := rfl
  refine pairConserved_of_pics_perm _ rows cols base hnd hsub ?_
  rw [hres]
  refine List.Perm.trans (hplace.map CellRec.pic) ?_
  rw [List.map_map]
  have hcomp : (CellRec.pic ∘ fun q : (Nat × Nat) × Char =>
      (⟨q.1.1, q.1.2, q.2⟩ : CellRec)) = Prod.snd := rfl
  rw [hcomp, map_snd_zip_take]
  have hmin : (allValidPositions rows cols).length ⊓
      (r.shuffleL (generateLetterPairs r rows cols t)).length =
      (r.shuffleL (generateLetterPairs r rows cols t)).length := by omega
  rw [hmin, List.take_length]
  exact hlet ▸ hsh

theorem edgePlace_nil (ps : List (Nat × Nat)) : edgePlace ps [] = [] := by
  cases ps with
  | nil => rfl
  | cons p1 rest =>
    cases rest with
    | nil => rfl
    | cons p2 rest2 => rfl

theorem edgePlace_map_fst : ∀ (prs : List (List Char)) (ps : List (Nat × Nat)),
    2 * prs.length ≤ ps.length →
    (edgePlace ps prs).map Prod.fst = ps.take (2 * prs.length) := by
  intro prs
  induction prs with
  | nil => intro ps _; rw [edgePlace_nil]; rfl
  | cons pr prs' ih =>
    intro ps hle
    cases ps with
    | nil =>
      simp only [List.length_cons, List.length_nil] at hle
      omega
    | cons p1 rest =>
      cases rest with
      | nil =>
        simp only [List.length_cons, List.length_nil] at hle
        omega
      | cons p2 ps' =>
        show ((p1, pr.getD 0 ' ') :: (p2, pr.getD 1 ' ') :: edgePlace ps' prs').map
          Prod.fst = (p1 :: p2 :: ps').take (2 * (pr :: prs').length)
        rw [List.map_cons, List.map_cons]
        have h1 : 2 * (pr :: prs').length = 2 * prs'.length + 1 + 1 := by
          simp only [List.length_cons]
          omega
        rw [h1, List.take_succ_cons, List.take_succ_cons]
        rw [ih ps' (by simp only [List.length_cons] at hle ⊢; omega)]

theorem edgePlace_map_snd : ∀ (prs : List (List Char)) (ps : List (Nat × Nat)),
    2 * prs.length ≤ ps.length →
    (edgePlace ps prs).map Prod.snd =
      prs.flatMap fun pr => [pr.getD 0 ' ', pr.getD 1 ' '] := by
  intro prs
  induction prs with
  | nil => intro ps _; rw [edgePlace_nil]; rfl
  | cons pr prs' ih =>
    intro ps hle
    cases ps with
    | nil =>
      simp only [List.length_cons, List.length_nil] at hle
      omega
    | cons p1 rest =>
      cases rest with
      | nil =>
        simp only [List.length_cons, List.length_nil] at hle
        omega
      | cons p2 ps' =>
        show ((p1, pr.getD 0 ' ') :: (p2, pr.getD 1 ' ') :: edgePlace ps' prs').map
          Prod.snd = (pr :: prs').flatMap fun q => [q.getD 0 ' ', q.getD 1 ' ']
        rw [List.map_cons, List.map_cons, List.flatMap_cons]
        rw [ih ps' (by simp only [List.length_cons] at hle ⊢; omega)]
        rfl

theorem pairConserved_edge (r : AttemptRand) (rows cols : Nat) (t : Char)
    (ht : t ∈ upperLetters) (h2 : 2 ≤ (rows - 2) * (cols - 2)) :
    PairConserved (generateMapWithEdgePriority r rows cols t
      (initializeEmptyMap rows cols)) rows cols := by
  obtain ⟨base, hlet, hnd, hsub⟩ := generateLetterPairs_good r rows cols t ht
  have hres : generateMapWithEdgePriority r rows cols t (initializeEmptyMap rows cols) =
      placeAll r.tag (initializeEmptyMap rows cols)
        (edgePlace (sortPositionsByEdge rows cols (allValidPositions rows cols))
          (groupIntoLetterPairs (generateLetterPairs r rows cols t))) := rfl
  have hpairs : groupIntoLetterPairs (generateLetterPairs r rows cols t) =
      base.map fun c => [c, c.toUpper] := by
    rw [hlet]
    exact groupIntoLetterPairs_blocks base hnd hsub
  have hPperm := sortPositionsByEdge_perm rows cols (allValidPositions rows cols)
  have hlen2 : 2 * (base.map fun c => [c, c.toUpper]).length ≤
      (sortPositionsByEdge rows cols (allValidPositions rows cols)).length := by
    rw [List.length_map, hPperm.length_eq, allValidPositions_length]
    have hg := generateLetterPairs_length_le r rows cols t h2
    rw [hlet, lettersOfBase_length] at hg
    omega
  have hfst := edgePlace_map_fst (base.map fun c => [c, c.toUpper]) _ hlen2
  have hsnd := edgePlace_map_snd (base.map fun c => [c, c.toUpper]) _ hlen2
  have hplace := collectCells_placeAll_fresh rows cols r.tag
    (edgePlace (sortPositionsByEdge rows cols (allValidPositions rows cols))
      (base.map fun c => [c, c.toUpper]))
    (by
      intro q hq
      have hq1 : q.1 ∈ (edgePlace (sortPositionsByEdge rows cols
          (allValidPositions rows cols)) (base.map fun c => [c, c.toUpper])).map
          Prod.fst := List.mem_map_of_mem Prod.fst hq
      rw [hfst] at hq1
      exact hPperm.mem_iff.mp ((List.take_sublist _ _).mem hq1))
    (by
      rw [hfst]
      exact List.Nodup.sublist (List.take_sublist _ _)
        (hPperm.nodup_iff.mpr (allValidPositions_nodup rows cols)))
  refine pairConserved_of_pics_perm _ rows cols base hnd hsub ?_
  rw [hres, hpairs]
  refine List.Perm.trans (hplace.map CellRec.pic) ?_
  rw [List.map_map]
  have hcomp : (CellRec.pic ∘ fun q : (Nat × Nat) × Char =>
      (⟨q.1.1, q.1.2, q.2⟩ : CellRec)) = Prod.snd := rfl
  rw [hcomp, hsnd]
  have hflat : ((base.map fun c => [c, c.toUpper]).flatMap
      fun pr => [pr.getD 0 ' ', pr.getD 1 ' ']) = lettersOfBase base := by
    rw [List.flatMap_map]
    rfl
  rw [hflat]

theorem pairConserved_template (r : AttemptRand) (rows cols : Nat) (t : Char)
    (ht : t ∈ upperLetters) :
    PairConserved (generateSolvableTemplate r rows cols t) rows cols := by
  obtain ⟨base, hlet, hnd, hsub⟩ := generateLetterPairs_good r rows cols t ht
  have hres : generateSolvableTemplate r rows cols t =
      placeAll r.tag (initializeEmptyMap rows cols)
        (templatePlacements rows cols
          (groupIntoLetterPairs (generateLetterPairs r rows cols t))) := rfl
  have hpairs : groupIntoLetterPairs (generateLetterPairs r rows cols t) =
      base.map fun c => [c, c.toUpper] := by
    rw [hlet]
    exact groupIntoLetterPairs_blocks base hnd hsub
  have hplace := collectCells_placeAll_fresh rows cols r.tag
    (templatePlacements rows cols (base.map fun c => [c, c.toUpper]))
    (templatePlacements_pos_valid rows cols _)
    (templatePlacements_fst_nodup rows cols _)
  have hsnd : (templatePlacements rows cols (base.map fun c => [c, c.toUpper])).map
      Prod.snd = lettersOfBase
        (base.take ((templateSlots rows cols).length ⊓ base.length)) := by
    unfold templatePlacements
    rw [List.map_flatMap, List.zip_map_right, List.flatMap_map]
    rw [lettersOfBase, ← map_snd_zip_take, List.flatMap_map]
    rfl
  refine pairConserved_of_pics_perm _ rows cols
    (base.take ((templateSlots rows cols).length ⊓ base.length))
    (List.Nodup.sublist (List.take_sublist _ _) hnd)
    (fun b hb => hsub b ((List.take_sublist _ _).mem hb)) ?_
  rw [hres, hpairs]
  refine List.Perm.trans (hplace.map CellRec.pic) ?_
  rw [List.map_map]
  have hcomp : (CellRec.pic ∘ fun q : (Nat × Nat) × Char =>
      (⟨q.1.1, q.1.2, q.2⟩ : CellRec)) = Prod.snd := rfl
  rw [hcomp, hsnd]

/-- C3, counterexample: in a 3-by-3 board the play area is a single cell, and
traditional placement fills it with the lowercase target letter, leaving it
without a partner. -/
theorem pair_conservation_cex :
    ¬ PairConserved (generateMapTraditional demoRand 3 3 'A'
      (initializeEmptyMap 3 3)) 3 3 := by
  unfold PairConserved
  decide

/-- C3 (amended): whenever the target letter is an uppercase ASCII letter, the
play area is not a single cell, and the shuffle returns a permutation, each of
the three placement strategies produces a board on which every occupied cell's
letter matches exactly one occupied cell. -/
theorem pair_conservation (r : AttemptRand) (rows cols : Nat) (t : Char)
    (ht : t ∈ upperLetters) (hn : (rows - 2) * (cols - 2) ≠ 1)
    (hsh : (r.shuffleL (generateLetterPairs r rows cols t)).Perm
      (generateLetterPairs r rows cols t)) :
    PairConserved (generateMapWithEdgePriority r rows cols t
      (initializeEmptyMap rows cols)) rows cols ∧
    PairConserved (generateMapTraditional r rows cols t
      (initializeEmptyMap rows cols)) rows cols ∧
    PairConserved (generateSolvableTemplate r rows cols t) rows cols := by
  by_cases h0 : (rows - 2) * (cols - 2) = 0
  · have hnil := allValidPositions_eq_nil rows cols h0
    exact ⟨pairConserved_of_no_positions _ rows cols hnil,
      pairConserved_of_no_positions _ rows cols hnil,
      pairConserved_of_no_positions _ rows cols hnil⟩
  · have h2 : 2 ≤ (rows - 2) * (cols - 2) := by omega
    exact ⟨pairConserved_edge r rows cols t ht h2,
      pairConserved_traditional r rows cols t ht h2 hsh,
      pairConserved_template r rows cols t ht⟩

/-- The amended pair-conservation theorem holds at the deployed 3-by-4 board
with target letter A and an identity shuffle. -/
theorem pair_conservation_witness :
    'A' ∈ upperLetters ∧ (3 - 2) * (4 - 2) ≠ 1 ∧
    PairConserved (generateMapTraditional demoRand 3 4 'A'
      (initializeEmptyMap 3 4)) 3 4 :=
  ⟨by decide, by decide,
    (pair_conservation demoRand 3 4 'A' (by decide) (by decide)
      (List.Perm.refl _)).2.1⟩

theorem getCell_setCell_cases (g : Grid) (r c : Nat) (x : CellInfo) (r' c' : Nat) :
    getCell (setCell g r c x) r' c' = x ∨
    getCell (setCell g r c x) r' c' = getCell g r' c' := by
  by_cases h : r' = r ∧ c' = c
  · obtain ⟨rfl, rfl⟩ := h
    by_cases hr : r' < g.length
    · by_cases hc : c' < (g.getD r' []).length
      · exact Or.inl (getCell_setCell_self g r' c' x hr hc)
      · right
        unfold getCell setCell
        rw [List.getD_eq_getElem?_getD (g.set r' _), List.getElem?_set_self hr]
        show ((g.getD r' []).set c' x).getD c' emptyCell = _
        rw [List.getD_eq_getElem?_getD, List.getElem?_eq_none
          (by rw [List.length_set]; omega)]
        rw [List.getD_eq_getElem?_getD (g.getD r' []), List.getElem?_eq_none (by omega)]
    · right
      unfold getCell setCell
      rw [List.getD_eq_getElem?_getD (g.set r' _), List.getElem?_eq_none
        (by rw [List.length_set]; omega)]
      rw [List.getD_eq_getElem?_getD g, List.getElem?_eq_none (by omega)]
  · exact Or.inr (getCell_setCell_ne g r c r' c' x (by tauto))

theorem isEmpty_assignChar (g : Grid) (p : Nat × Nat) (ch : CharacterInfo) (r c : Nat) :
    (getCell (assignChar g p ch) r c).isEmpty = (getCell g r c).isEmpty := by
  unfold assignChar
  by_cases h : r = p.1 ∧ c = p.2
  · obtain ⟨rfl, rfl⟩ := h
    rcases getCell_setCell_cases g p.1 p.2 _ p.1 p.2 with h2 | h2 <;> rw [h2]
  · rw [getCell_setCell_ne _ _ _ _ _ _ (by tauto)]

theorem isEmpty_clearCell_true (g : Grid) (r c r' c' : Nat)
    (hold : (getCell g r' c').isEmpty = true) :
    (getCell (clearCell g r c) r' c').isEmpty = true := by
  unfold clearCell
  rcases getCell_setCell_cases g r c _ r' c' with h2 | h2 <;> rw [h2]
  exact hold

/-- One outward callback invocation of the engine.  An event records the
call of the correspondingly named callback with its arguments (the engine
guards each call on the callback being set; a consumer that left a callback
unset simply ignores that event).  `onDrawLine` is the exception: whether it
is set changes the engine's control flow, so it is the `drawLineCb` flag of
the state, and `drawLineEv` is only emitted when that flag is true. -/
inductive Event where
  | scoreUpdate (score : Nat)
  | timeUpdate (time : Int)
  | selectedCellChange (cell : Option ClickInfo)
  | gameOverEv (t : GameOverType) (score : Nat)
  | mapUpdate
  | drawLineEv (points : List Pt)
  | animationStart (cells : List (Nat × Nat))
  | shakeEffect (cells : List (Nat × Nat × Char))
  | stepUpdate (steps : Nat)
  | targetLetterEliminated
  | hint (cells : List (Nat × Nat × Char))
deriving DecidableEq, Repr

/-- The most recent `drawLine` invocation handed to the external
`onDrawLine` callback and not yet acknowledged: the engine passed it an
`onSuccess` closure (capturing the six match coordinates) or, for a failed
connection, a no-op `onSuccess` plus an `onError` closure. -/
inductive Pending where
  | idle
  | success (preRow preCol curRow curCol preIndex curIndex : Nat)
  | reject
deriving DecidableEq, Repr

/-- The engine's mutable fields.  `timerActive` stands for the countdown
interval being scheduled (`this.timer` after `clearInterval` still holds the
stale id, but the interval no longer fires).  The scratch `this.points` is
modelled at its use site: `canCleanup` returns the found path, which the
source stores in `this.points` and immediately passes to `drawLine`. -/
structure EngineState where
  score : Nat
  steps : Nat
  rows : Nat
  cols : Nat
  configInitialTime : Int
  leftDisorderTime : Nat
  autoDisorderEnabled : Bool
  isAnimating : Bool
  selectedCell : Option ClickInfo
  count : Nat
  remain : Int
  pictures : Grid
  preClickInfo : Option ClickInfo
  leftTime : Int
  timerActive : Bool
  targetLetter : Char
  drawLineCb : Bool
  pending : Pending
deriving DecidableEq, Repr

/-- The state of a freshly constructed engine (`new LinkGameEngine(config)`)
with the given dimensions, `initialTime` and `onDrawLine` presence. -/
def mkEngine (rows cols : Nat) (initialTime : Int) (cb : Bool) : EngineState :=
  { score := 0, steps := 0, rows := rows, cols := cols,
    configInitialTime := initialTime, leftDisorderTime := 5,
    autoDisorderEnabled := true, isAnimating := false, selectedCell := none,
    count := 0, remain := 0, pictures := [], preClickInfo := none,
    leftTime := 0, timerActive := false, targetLetter := 'A',
    drawLineCb := cb, pending := Pending.idle }

/-- `getActualLetterCount()`: the number of occupied play-area cells. -/
def getActualLetterCount (g : Grid) (rows cols : Nat) : Nat :=
  (collectPositions g rows cols).length

/-- The occupied play cells as `ClickInfo` records, as collected by
`getAvailableMatches`. -/
def clickCells (g : Grid) (rows cols : Nat) : List ClickInfo :=
  (allValidPositions rows cols).filterMap fun p =>
    if (getCell g p.1 p.2).isEmpty then none
    else some ⟨p.1, p.2, (getCell g p.1 p.2).index.getD 0⟩

/-- `getAvailableMatches()`: all pairs of occupied cells whose letters match
case-opposite and that `canCleanup` can connect. -/
def availableMatches (g : Grid) (rows cols : Nat) : List (ClickInfo × ClickInfo) :=
  let cells := clickCells g rows cols
  (pairsIdx cells.length).filterMap fun ij =>
    let c1 := cells.getD ij.1 ⟨0, 0, 0⟩
    let c2 := cells.getD ij.2 ⟨0, 0, 0⟩
    if isMatchChar (getCell g c1.row c1.col).pic (getCell g c2.row c2.col).pic &&
        (canCleanup g rows cols c1.col c1.row c2.col c2.row).isSome
    then some (c1, c2) else none

/-- `checkCurrentDeadlock()`. -/
def checkCurrentDeadlock (g : Grid) (rows cols : Nat) (remain : Int) : Bool :=
  (availableMatches g rows cols).length == 0 && decide (0 < remain)

/-- `showHint()`: the first available match, if any. -/
def hintEvents (g : Grid) (rows cols : Nat) : List Event :=
  match availableMatches g rows cols with
  | [] => []
  | m :: _ =>
    [Event.hint [(m.1.row, m.1.col, (getCell g m.1.row m.1.col).pic),
      (m.2.row, m.2.col, (getCell g m.2.row m.2.col).pic)]]

/-- `gameOver(type)`: stop the countdown and report the result. -/
def gameOverOp (s : EngineState) (t : GameOverType) : EngineState × List Event :=
  ({ s with timerActive := false }, [Event.gameOverEv t s.score])

/-- `updateCountDown()`: one timer firing. -/
def updateCountDown (s : EngineState) : EngineState × List Event :=
  let s1 := { s with leftTime := s.leftTime - 1 }
  if s1.leftTime ≤ 0 then
    let p := gameOverOp s1 GameOverType.TimeExceeded
    (p.1, Event.timeUpdate s1.leftTime :: p.2)
  else (s1, [Event.timeUpdate s1.leftTime])

/-- The countdown interval: it fires only while scheduled. -/
def tickOp (s : EngineState) : EngineState × List Event :=
  if s.timerActive then updateCountDown s else (s, [])

/-- `updateSteps()`: advance the step counter, auto-reshuffle on deadlock,
hint at step 5, and end the game at step 6. -/
def updateStepsOp (D F : Nat → AttemptRand) (s : EngineState) :
    EngineState × List Event :=
  let s1 := { s with steps := s.steps + 1 }
  let p2 : EngineState × List Event :=
    if checkCurrentDeadlock s1.pictures s1.rows s1.cols s1.remain then
      if s1.autoDisorderEnabled && decide (0 < s1.leftDisorderTime) then
        ({ s1 with
            leftDisorderTime := s1.leftDisorderTime - 1,
            pictures := disorderG D F s1.rows s1.cols s1.targetLetter s1.pictures },
         [Event.mapUpdate])
      else (s1, [])
    else (s1, [])
  let s2 := p2.1
  let e3 := if s2.steps = 5 ∧ 0 < s2.remain then hintEvents s2.pictures s2.rows s2.cols
    else []
  let p4 : EngineState × List Event :=
    if 6 ≤ s2.steps then
      if 0 < s2.remain then gameOverOp s2 GameOverType.StepsExceeded
      else gameOverOp s2 GameOverType.Normal
    else (s2, [])
  (p4.1, Event.stepUpdate s1.steps :: p2.2 ++ e3 ++ p4.2)

/-- `updateStatus(preRow, preCol, curRow, curCol, …)`: report a cleared
target letter, empty the two cells, and report the win when nothing
remains. -/
def updateStatusOp (s : EngineState) (preRow preCol curRow curCol : Nat) :
    EngineState × List Event :=
  let preLetter := (getCell s.pictures preRow preCol).pic
  let curLetter := (getCell s.pictures curRow curCol).pic
  let eT := if preLetter.toUpper == s.targetLetter ||
      curLetter.toUpper == s.targetLetter then [Event.targetLetterEliminated] else []
  let s1 := { s with
    pictures := clearCell (clearCell s.pictures preRow preCol) curRow curCol }
  if s1.remain ≤ 0 then
    let p := gameOverOp s1 GameOverType.Normal
    (p.1, eT ++ p.2)
  else (s1, eT)

/-- The `onSuccess` closure that `checkMatch` hands to `drawLine` on a
successful connection: clear the pair, re-render, refresh the score, advance
the steps, and end the animation. -/
def successCont (D F : Nat → AttemptRand) (s : EngineState)
    (preRow preCol curRow curCol : Nat) : EngineState × List Event :=
  let p1 := updateStatusOp s preRow preCol curRow curCol
  let p2 := updateStepsOp D F p1.1
  ({ p2.1 with isAnimating := false },
    p1.2 ++ [Event.mapUpdate, Event.scoreUpdate p1.1.score] ++ p2.2)

/-- The `onError` closure of the failed-connection branch: clear the
selection, end the animation, advance the steps, clear the shake marks. -/
def errorCont (D F : Nat → AttemptRand) (s : EngineState) : EngineState × List Event :=
  let s1 := { s with
    preClickInfo := none, selectedCell := none, isAnimating := false }
  let p2 := updateStepsOp D F s1
  (p2.1, Event.selectedCellChange none :: p2.2 ++ [Event.shakeEffect []])

/-- `checkMatch(curClickInfo)`. -/
def checkMatchOp (D F : Nat → AttemptRand) (s : EngineState) (cur : ClickInfo) :
    EngineState × List Event :=
  if (getCell s.pictures cur.row cur.col).isEmpty then (s, [])
  else if (match s.selectedCell with
           | some sel => sel.row == cur.row && sel.col == cur.col
           | none => false) then
    ({ s with selectedCell := none, preClickInfo := none },
      [Event.selectedCellChange none])
  else
    match s.preClickInfo with
    | none =>
      ({ s with preClickInfo := some cur, selectedCell := some cur },
        [Event.selectedCellChange (some cur)])
    | some pre =>
      if isMatchChar (getCell s.pictures pre.row pre.col).pic
          (getCell s.pictures cur.row cur.col).pic then
        match canCleanup s.pictures s.rows s.cols pre.col pre.row cur.col cur.row with
        | some ps =>
          let s1 := { s with
            score := s.score + 100, remain := s.remain - 2, isAnimating := true }
          let eA := [Event.animationStart [(pre.row, pre.col), (cur.row, cur.col)]]
          if s1.drawLineCb then
            ({ s1 with
                selectedCell := none, preClickInfo := none,
                pending := Pending.success pre.row pre.col cur.row cur.col
                  pre.index cur.index },
             eA ++ [Event.selectedCellChange none, Event.drawLineEv ps,
               Event.selectedCellChange none])
          else
            let p3 := successCont D F { s1 with selectedCell := none }
              pre.row pre.col cur.row cur.col
            ({ p3.1 with preClickInfo := none, selectedCell := none },
              eA ++ [Event.selectedCellChange none] ++ p3.2 ++
                [Event.selectedCellChange none])
        | none =>
          let s1 := { s with isAnimating := true }
          let eS := [Event.shakeEffect
            [(pre.row, pre.col, (getCell s.pictures pre.row pre.col).pic),
             (cur.row, cur.col, (getCell s.pictures cur.row cur.col).pic)]]
          if s1.drawLineCb then
            ({ s1 with selectedCell := none, pending := Pending.reject },
              eS ++ [Event.selectedCellChange none, Event.drawLineEv []])
          else
            ({ s1 with selectedCell := none },
              eS ++ [Event.selectedCellChange none])
      else
        ({ s with preClickInfo := some cur, selectedCell := some cur },
          [Event.selectedCellChange (some cur)])

/-- The external draw/animation component acknowledging the outstanding
`drawLine` by calling its `onSuccess` argument. -/
def resolveDrawSuccessOp (D F : Nat → AttemptRand) (s : EngineState) :
    EngineState × List Event :=
  match s.pending with
  | Pending.success pr pc cr cc _ _ =>
    successCont D F { s with pending := Pending.idle } pr pc cr cc
  | Pending.reject => ({ s with pending := Pending.idle }, [])
  | Pending.idle => (s, [])

/-- The external component acknowledging the outstanding `drawLine` by
calling its `onError` argument (a no-op for a successful match, whose
`onError` is `() => \x7b\x7d`). -/
def resolveDrawErrorOp (D F : Nat → AttemptRand) (s : EngineState) :
    EngineState × List Event :=
  match s.pending with
  | Pending.reject => errorCont D F { s with pending := Pending.idle }
  | Pending.success _ _ _ _ _ _ => ({ s with pending := Pending.idle }, [])
  | Pending.idle => (s, [])

/-- `handleCellClick(row, col, index)`. -/
def handleCellClickOp (D F : Nat → AttemptRand) (s : EngineState)
    (row col index : Nat) : EngineState × List Event :=
  if s.remain ≤ 0 then (s, [])
  else if s.isAnimating then (s, [])
  else
    let p := checkMatchOp D F s ⟨row, col, index⟩
    (p.1, Event.hint [] :: p.2)

/-- `init()`: reset the round state, restart the countdown, generate and
reshuffle the map, and recount the letters. -/
def initOp (G : Nat → Nat → AttemptRand) (D F : Nat → AttemptRand)
    (s : EngineState) : EngineState × List Event :=
  let g2 := disorderG D F s.rows s.cols s.targetLetter
    (createMapG G s.rows s.cols s.targetLetter)
  let s2 := { s with
    count := (s.rows - 2) * (s.cols - 2),
    remain := (getActualLetterCount g2 s.rows s.cols : Int),
    pictures := g2,
    preClickInfo := none,
    leftTime := s.configInitialTime,
    isAnimating := false,
    selectedCell := none,
    timerActive := true }
  (s2, [Event.selectedCellChange none, Event.mapUpdate, Event.scoreUpdate s2.score])

/-- `startGame()` is exactly `init()`. -/
def startGameOp (G : Nat → Nat → AttemptRand) (D F : Nat → AttemptRand)
    (s : EngineState) : EngineState × List Event :=
  initOp G D F s

/-- `restartGame()`: zero the score, steps and reshuffle credits, clear the
selection, re-init, and push the fresh score and steps out. -/
def restartGameOp (G : Nat → Nat → AttemptRand) (D F : Nat → AttemptRand)
    (s : EngineState) : EngineState × List Event :=
  let p := initOp G D F
    { s with score := 0, steps := 0, leftDisorderTime := 5, selectedCell := none }
  (p.1, Event.selectedCellChange none :: p.2 ++
    [Event.scoreUpdate p.1.score, Event.stepUpdate p.1.steps])

/-- `handleDisorder()`: a manual reshuffle while credits remain. -/
def handleDisorderOp (D F : Nat → AttemptRand) (s : EngineState) :
    EngineState × List Event :=
  if 0 < s.leftDisorderTime then
    ({ s with
        leftDisorderTime := s.leftDisorderTime - 1,
        pictures := disorderG D F s.rows s.cols s.targetLetter s.pictures },
     [Event.mapUpdate])
  else (s, [])

/-- `destroy()`: stop the countdown. -/
def destroyOp (s : EngineState) : EngineState × List Event :=
  ({ s with timerActive := false }, [])

/-- `setTargetLetter(letter)`. -/
def setTargetLetterOp (s : EngineState) (letter : Char) : EngineState × List Event :=
  ({ s with targetLetter := letter.toUpper }, [])

/-- Claim C9: the solvability verifier works on a private copy -- the live
grid `this.pictures` (every cell field) is the same value after the call,
whatever the verdict -- and a grid with no occupied play cells is declared
solvable. -/
theorem solver_frame_and_empty_base (rows cols : Nat) (s : SolvState) :
    (isSolvableT rows cols s).2.pictures = s.pictures ∧
    (collectCells s.pictures rows cols = [] → (isSolvableT rows cols s).1 = true) :=
  ⟨isSolvableT_pictures rows cols s, isSolvableT_empty rows cols s⟩

/-- The verifier's frame property and empty-grid verdict at the deployed
5-by-6 board with an untouched empty grid. -/
theorem solver_frame_and_empty_base_witness :
    (isSolvableT 5 6 ⟨initializeEmptyMap 5 6, []⟩).2.pictures =
      initializeEmptyMap 5 6 ∧
    (isSolvableT 5 6 ⟨initializeEmptyMap 5 6, []⟩).1 = true :=
  ⟨(solver_frame_and_empty_base 5 6 ⟨initializeEmptyMap 5 6, []⟩).1,
   (solver_frame_and_empty_base 5 6 ⟨initializeEmptyMap 5 6, []⟩).2 (by decide)⟩

/-- C8, counterexample: `startGame()` is `init()` alone, which rebuilds the
board and the clock but leaves the score, the step counter and the reshuffle
credits exactly as they were. -/
theorem start_restart_reset_cex :
    ((startGameOp (fun _ _ => demoRand) (fun _ => demoRand) (fun _ => demoRand)
        { mkEngine 3 4 120 false with
          score := 100, steps := 3, leftDisorderTime := 2 }).1.score = 100) ∧
    ((startGameOp (fun _ _ => demoRand) (fun _ => demoRand) (fun _ => demoRand)
        { mkEngine 3 4 120 false with
          score := 100, steps := 3, leftDisorderTime := 2 }).1.steps = 3) ∧
    ((startGameOp (fun _ _ => demoRand) (fun _ => demoRand) (fun _ => demoRand)
        { mkEngine 3 4 120 false with
          score := 100, steps := 3, leftDisorderTime := 2 }).1.leftDisorderTime = 2) :=
  ⟨rfl, rfl, rfl⟩

/-- Claim C8 (amended): `restartGame()` builds a fresh grid through the
generation-plus-reshuffle pipeline, resets the score, the step counter,
the reshuffle credits and the clock, and starts the countdown;
`startGame()` only rebuilds the grid and restarts the clock, preserving
score, steps and credits. -/
theorem start_restart_reset (G : Nat → Nat → AttemptRand) (D F : Nat → AttemptRand)
    (s : EngineState) :
    ((restartGameOp G D F s).1.score = 0 ∧
     (restartGameOp G D F s).1.steps = 0 ∧
     (restartGameOp G D F s).1.leftDisorderTime = 5 ∧
     (restartGameOp G D F s).1.leftTime = s.configInitialTime ∧
     (restartGameOp G D F s).1.timerActive = true ∧
     (restartGameOp G D F s).1.pictures =
       disorderG D F s.rows s.cols s.targetLetter
         (createMapG G s.rows s.cols s.targetLetter) ∧
     (restartGameOp G D F s).1.remain =
       (getActualLetterCount (restartGameOp G D F s).1.pictures s.rows s.cols : Int)) ∧
    ((startGameOp G D F s).1.leftTime = s.configInitialTime ∧
     (startGameOp G D F s).1.timerActive = true ∧
     (startGameOp G D F s).1.pictures =
       disorderG D F s.rows s.cols s.targetLetter
         (createMapG G s.rows s.cols s.targetLetter) ∧
     (startGameOp G D F s).1.score = s.score ∧
     (startGameOp G D F s).1.steps = s.steps ∧
     (startGameOp G D F s).1.leftDisorderTime = s.leftDisorderTime) :=
  ⟨⟨rfl, rfl, rfl, rfl, rfl, rfl, rfl⟩, rfl, rfl, rfl, rfl, rfl, rfl⟩

/-- The board the demo random outcome generates on the 3-by-4
configuration: the target pair on the two play cells. -/
def demoPairGrid : Grid :=
  [[emptyCell, emptyCell, emptyCell, emptyCell],
   [emptyCell, ⟨false, 0, 'a', some 7⟩, ⟨false, 0, 'A', some 7⟩, emptyCell],
   [emptyCell, emptyCell, emptyCell, emptyCell]]

theorem demoPairGrid_solvable : isSolvable 3 4 demoPairGrid = true := by
  refine isSolvable_of_adjPairs 3 4 demoPairGrid [⟨1, 1, 'a'⟩, ⟨1, 2, 'A'⟩]
    (AdjPairList.cons _ _ _ rfl rfl (by decide) AdjPairList.nil) ?_
  have h : collectCells demoPairGrid 3 4 = [⟨1, 1, 'a'⟩, ⟨1, 2, 'A'⟩] := by decide
  rw [h]

theorem demo_generateRandomMap :
    generateRandomMap (fun _ => demoRand) 3 4 'A' = demoPairGrid := by
  have hloop : generateRandomMapLoop (fun _ => demoRand) 3 4 'A' 0 =
      (demoPairGrid, 1) := by
    rw [generateRandomMapLoop]
    have hg : (if (0 : Nat) < 15 then
        generateMapWithEdgePriority ((fun _ : Nat => demoRand) 0) 3 4 'A'
          (initializeEmptyMap 3 4)
        else generateMapTraditional ((fun _ : Nat => demoRand) 0) 3 4 'A'
          (initializeEmptyMap 3 4)) = demoPairGrid := by
      rw [if_pos (by omega)]
      decide
    rw [hg, if_neg]
    intro hcon
    exact hcon.1 demoPairGrid_solvable
  unfold generateRandomMap
  rw [hloop]
  rfl

theorem demo_createMapG : createMapG (fun _ _ => demoRand) 3 4 'A' = demoPairGrid := by
  unfold createMapG
  rw [createMapLoop]
  rw [demo_generateRandomMap, if_neg]
  intro hcon
  exact hcon.1 demoPairGrid_solvable

theorem demo_disorderG :
    disorderG (fun _ => demoRand) (fun _ => demoRand) 3 4 'A' demoPairGrid =
      demoPairGrid := by
  have hstrat : smartDisorderEdgeFirst demoRand 3 4 demoPairGrid = demoPairGrid := by
    decide
  have hloop : disorderLoop (fun _ => demoRand) 3 4 demoPairGrid 0 =
      (demoPairGrid, 1) := by
    rw [disorderLoop]
    have hg : (if (0 : Nat) < 50 then
        smartDisorderEdgeFirst ((fun _ : Nat => demoRand) 0) 3 4 demoPairGrid
        else if (0 : Nat) < 100 then smartDisorderSpread 3 4 demoPairGrid
        else randomDisorder ((fun _ : Nat => demoRand) 0) 3 4 demoPairGrid) =
        demoPairGrid := by
      rw [if_pos (by omega)]
      exact hstrat
    rw [hg, if_neg]
    intro hcon
    exact hcon.1 demoPairGrid_solvable
  unfold disorderG
  rw [hloop]
  dsimp only
  rw [if_neg (by omega)]

/-- The engine state after `init()` on the 3-by-4 board with one second on
the clock, the demo random outcome, and no `onDrawLine` callback. -/
def demoAfterInit : EngineState :=
  { mkEngine 3 4 1 false with
    count := 2, remain := 2, pictures := demoPairGrid, leftTime := 1,
    timerActive := true }

theorem demo_initOp :
    initOp (fun _ _ => demoRand) (fun _ => demoRand) (fun _ => demoRand)
      (mkEngine 3 4 1 false) =
    (demoAfterInit,
      [Event.selectedCellChange none, Event.mapUpdate, Event.scoreUpdate 0]) := by
  unfold initOp
  dsimp only [mkEngine]
  rw [demo_createMapG, demo_disorderG]
  decide

/-- A game-over report among the emitted events. -/
def isGameOverEv : Event → Bool
  | Event.gameOverEv _ _ => true
  | _ => false

/-- C2, counterexample: a single session emits two game-over reports.  With
one second on the clock, the tick reports `TimeExceeded` -- but the letters
are still clickable afterwards, and eliminating the last pair reports
`Normal` a second time. -/
theorem termination_exclusivity_cex :
    (let p1 := initOp (fun _ _ => demoRand) (fun _ => demoRand) (fun _ => demoRand)
      (mkEngine 3 4 1 false)
     let p2 := tickOp p1.1
     let p3 := handleCellClickOp (fun _ => demoRand) (fun _ => demoRand) p2.1 1 1 7
     let p4 := handleCellClickOp (fun _ => demoRand) (fun _ => demoRand) p3.1 1 2 7
     List.countP isGameOverEv (p1.2 ++ p2.2 ++ p3.2 ++ p4.2)) = 2 := by
  rw [demo_initOp]
  decide

/-- Claim C2 (amended): a game-over report does stop the countdown -- after
`gameOver` the interval is unscheduled, a tick with the countdown stopped
changes nothing and emits nothing, and once no letters remain a click
changes nothing and emits nothing.  (Exclusivity in general is refuted by
the counterexample: clicks stay live after `TimeExceeded` and
`StepsExceeded`, and can report a second game-over.) -/
theorem termination_exclusivity (D F : Nat → AttemptRand) (s : EngineState)
    (t : GameOverType) (row col index : Nat)
    (hT : s.timerActive = false) (hR : s.remain ≤ 0) :
    (gameOverOp s t).1.timerActive = false ∧
    tickOp s = (s, []) ∧
    handleCellClickOp D F s row col index = (s, []) := by
  refine ⟨rfl, ?_, ?_⟩
  · unfold tickOp
    rw [hT]
    rfl
  · unfold handleCellClickOp
    rw [if_pos hR]

/-- The amended termination behaviour at a concrete ended session state. -/
theorem termination_exclusivity_witness :
    ((mkEngine 3 4 120 false).timerActive = false ∧
     (mkEngine 3 4 120 false).remain ≤ 0) ∧
    ((gameOverOp (mkEngine 3 4 120 false) GameOverType.Normal).1.timerActive = false ∧
     tickOp (mkEngine 3 4 120 false) = (mkEngine 3 4 120 false, []) ∧
     handleCellClickOp (fun _ => demoRand) (fun _ => demoRand)
       (mkEngine 3 4 120 false) 1 1 0 = (mkEngine 3 4 120 false, [])) :=
  ⟨⟨rfl, by decide⟩,
   termination_exclusivity (fun _ => demoRand) (fun _ => demoRand)
     (mkEngine 3 4 120 false) GameOverType.Normal 1 1 0 rfl (by decide)⟩

theorem isEmpty_clearCell_self (g : Grid) (r c : Nat) :
    (getCell (clearCell g r c) r c).isEmpty = true := by
  by_cases hr : r < g.length
  · by_cases hc : c < (g.getD r []).length
    · rw [clearCell, getCell_setCell_self g r c _ hr hc]
    · unfold clearCell getCell setCell
      rw [List.getD_eq_getElem?_getD (g.set r _), List.getElem?_set_self hr]
      show ((((g.getD r []).set c _).getD c emptyCell)).isEmpty = true
      rw [List.getD_eq_getElem?_getD, List.getElem?_eq_none
        (by rw [List.length_set]; omega)]
      rfl
  · unfold clearCell getCell setCell
    rw [List.getD_eq_getElem?_getD (g.set r _), List.getElem?_eq_none
      (by rw [List.length_set]; omega)]
    rfl

theorem isEmpty_clearCell_pair_first (g : Grid) (pr pc cr cc : Nat) :
    (getCell (clearCell (clearCell g pr pc) cr cc) pr pc).isEmpty = true := by
  by_cases h : pr = cr ∧ pc = cc
  · obtain ⟨rfl, rfl⟩ := h
    exact isEmpty_clearCell_self _ pr pc
  · have hne : pr ≠ cr ∨ pc ≠ cc := by tauto
    conv_lhs => rw [clearCell]
    rw [getCell_setCell_ne _ _ _ _ _ _ hne]
    exact isEmpty_clearCell_self g pr pc

theorem updateStepsOp_steps (D F : Nat → AttemptRand) (s : EngineState) :
    (updateStepsOp D F s).1.steps = s.steps + 1 := by
  unfold updateStepsOp gameOverOp
  dsimp only
  repeat' split
  all_goals rfl

theorem updateStepsOp_no_deadlock (D F : Nat → AttemptRand) (s : EngineState)
    (hnd : checkCurrentDeadlock s.pictures s.rows s.cols s.remain = false) :
    (updateStepsOp D F s).1.pictures = s.pictures ∧
    (updateStepsOp D F s).1.score = s.score ∧
    (updateStepsOp D F s).1.remain = s.remain ∧
    (updateStepsOp D F s).1.steps = s.steps + 1 := by
  unfold updateStepsOp gameOverOp
  dsimp only
  rw [hnd]
  repeat' split
  all_goals first
    | exact ⟨rfl, rfl, rfl, rfl⟩
    | (exfalso; simp_all)

theorem updateStatusOp_fields (s : EngineState) (pr pc cr cc : Nat) :
    (updateStatusOp s pr pc cr cc).1.pictures =
      clearCell (clearCell s.pictures pr pc) cr cc ∧
    (updateStatusOp s pr pc cr cc).1.score = s.score ∧
    (updateStatusOp s pr pc cr cc).1.remain = s.remain ∧
    (updateStatusOp s pr pc cr cc).1.steps = s.steps ∧
    (updateStatusOp s pr pc cr cc).1.rows = s.rows ∧
    (updateStatusOp s pr pc cr cc).1.cols = s.cols := by
  unfold updateStatusOp gameOverOp
  dsimp only
  split
  all_goals exact ⟨rfl, rfl, rfl, rfl, rfl, rfl⟩

theorem successCont_steps (D F : Nat → AttemptRand) (s : EngineState)
    (pr pc cr cc : Nat) :
    (successCont D F s pr pc cr cc).1.steps = s.steps + 1 := by
  unfold successCont
  dsimp only
  rw [updateStepsOp_steps, (updateStatusOp_fields s pr pc cr cc).2.2.2.1]

theorem errorCont_steps (D F : Nat → AttemptRand) (s : EngineState) :
    (errorCont D F s).1.steps = s.steps + 1 := by
  unfold errorCont
  dsimp only
  rw [updateStepsOp_steps]

theorem successCont_fields (D F : Nat → AttemptRand) (s : EngineState)
    (pr pc cr cc : Nat)
    (hnd : checkCurrentDeadlock (clearCell (clearCell s.pictures pr pc) cr cc)
      s.rows s.cols s.remain = false) :
    (successCont D F s pr pc cr cc).1.pictures =
      clearCell (clearCell s.pictures pr pc) cr cc ∧
    (successCont D F s pr pc cr cc).1.score = s.score ∧
    (successCont D F s pr pc cr cc).1.remain = s.remain := by
  obtain ⟨h1, h2, h3, h4, h5, h6⟩ := updateStatusOp_fields s pr pc cr cc
  obtain ⟨k1, k2, k3, k4⟩ := updateStepsOp_no_deadlock D F
    (updateStatusOp s pr pc cr cc).1 (by rw [h1, h3, h5, h6]; exact hnd)
  unfold successCont
  dsimp only
  refine ⟨?_, ?_, ?_⟩
  · rw [k1, h1]
  · rw [k2, h2]
  · rw [k3, h3]

theorem resolveDrawSuccessOp_success (D F : Nat → AttemptRand) (s : EngineState)
    (pr pc cr cc pi ci : Nat) (hp : s.pending = Pending.success pr pc cr cc pi ci) :
    resolveDrawSuccessOp D F s =
      successCont D F { s with pending := Pending.idle } pr pc cr cc := by
  unfold resolveDrawSuccessOp
  rw [hp]

/-- Claim C5: a second click on an occupied cell whose letter is the
case-opposite of the selected cell's letter, with a connecting path found:
the score rises by exactly 100, `remain` falls by exactly 2, the path is
emitted through the draw-line callback, and on the external acknowledgment
the two cells become empty and the step counter advances by one.  (The
deadlock hypothesis keeps the post-acknowledgment auto-reshuffle, which
rebuilds the board but never re-occupies a cleared pair, out of the way.) -/
theorem match_success_flow (D F : Nat → AttemptRand) (s : EngineState)
    (pre cur : ClickInfo) (ps : List Pt)
    (hR : ¬ s.remain ≤ 0) (hA : s.isAnimating = false)
    (hocc : (getCell s.pictures cur.row cur.col).isEmpty = false)
    (hsel : (match s.selectedCell with
             | some sel => sel.row == cur.row && sel.col == cur.col
             | none => false) = false)
    (hpre : s.preClickInfo = some pre)
    (hmatch : isMatchChar (getCell s.pictures pre.row pre.col).pic
      (getCell s.pictures cur.row cur.col).pic = true)
    (hpath : canCleanup s.pictures s.rows s.cols pre.col pre.row cur.col cur.row =
      some ps)
    (hcb : s.drawLineCb = true)
    (hnd : checkCurrentDeadlock
      (clearCell (clearCell s.pictures pre.row pre.col) cur.row cur.col)
      s.rows s.cols (s.remain - 2) = false) :
    (handleCellClickOp D F s cur.row cur.col cur.index).1.score = s.score + 100 ∧
    (handleCellClickOp D F s cur.row cur.col cur.index).1.remain = s.remain - 2 ∧
    Event.drawLineEv ps ∈ (handleCellClickOp D F s cur.row cur.col cur.index).2 ∧
    (getCell (resolveDrawSuccessOp D F
        (handleCellClickOp D F s cur.row cur.col cur.index).1).1.pictures
      pre.row pre.col).isEmpty = true ∧
    (getCell (resolveDrawSuccessOp D F
        (handleCellClickOp D F s cur.row cur.col cur.index).1).1.pictures
      cur.row cur.col).isEmpty = true ∧
    (resolveDrawSuccessOp D F
      (handleCellClickOp D F s cur.row cur.col cur.index).1).1.steps =
      s.steps + 1 := by
  have hclick : handleCellClickOp D F s cur.row cur.col cur.index =
      ({ s with
          score := s.score + 100, remain := s.remain - 2, isAnimating := true,
          selectedCell := none, preClickInfo := none,
          pending := Pending.success pre.row pre.col cur.row cur.col
            pre.index cur.index },
       [Event.hint [],
        Event.animationStart [(pre.row, pre.col), (cur.row, cur.col)],
        Event.selectedCellChange none, Event.drawLineEv ps,
        Event.selectedCellChange none]) := by
    unfold handleCellClickOp
    rw [if_neg hR]
    rw [if_neg (by rw [hA]; exact Bool.false_ne_true)]
    unfold checkMatchOp
    dsimp only
    rw [hocc]
    rw [if_neg Bool.false_ne_true]
    rw [hsel]
    rw [if_neg Bool.false_ne_true]
    rw [hpre]
    dsimp only
    rw [hmatch, if_pos rfl]
    rw [hpath]
    dsimp only
    rw [hcb, if_pos rfl]
    rfl
  rw [hclick]
  dsimp only
  rw [resolveDrawSuccessOp_success D F _ pre.row pre.col cur.row cur.col
    pre.index cur.index rfl]
  refine ⟨rfl, rfl, by simp, ?_, ?_, ?_⟩
  · rw [(successCont_fields D F _ pre.row pre.col cur.row cur.col hnd).1]
    exact isEmpty_clearCell_pair_first s.pictures pre.row pre.col cur.row cur.col
  · rw [(successCont_fields D F _ pre.row pre.col cur.row cur.col hnd).1]
    exact isEmpty_clearCell_self _ cur.row cur.col
  · rw [successCont_steps]

/-- A mid-session state on the demo board: the lowercase target cell is
selected and its partner is about to be clicked, with the external draw
component attached. -/
def demoClickState : EngineState :=
  { mkEngine 3 4 120 true with
    count := 2, remain := 2, pictures := demoPairGrid, leftTime := 120,
    timerActive := true, preClickInfo := some ⟨1, 1, 7⟩,
    selectedCell := some ⟨1, 1, 7⟩ }

/-- The success flow at the concrete demo board: clicking the partner cell
pays 100 points, removes the pair from `remain`, draws the straight path,
and the acknowledgment empties both cells and advances the steps. -/
theorem match_success_flow_witness :
    ((¬ demoClickState.remain ≤ 0) ∧ demoClickState.isAnimating = false ∧
     (getCell demoClickState.pictures 1 2).isEmpty = false ∧
     (match demoClickState.selectedCell with
      | some sel => sel.row == 1 && sel.col == 2
      | none => false) = false ∧
     demoClickState.preClickInfo = some ⟨1, 1, 7⟩ ∧
     isMatchChar (getCell demoClickState.pictures 1 1).pic
       (getCell demoClickState.pictures 1 2).pic = true ∧
     canCleanup demoClickState.pictures demoClickState.rows demoClickState.cols
       1 1 2 1 = some [(1, 1), (2, 1)] ∧
     demoClickState.drawLineCb = true ∧
     checkCurrentDeadlock
       (clearCell (clearCell demoClickState.pictures 1 1) 1 2)
       demoClickState.rows demoClickState.cols
       (demoClickState.remain - 2) = false) ∧
    ((handleCellClickOp (fun _ => demoRand) (fun _ => demoRand)
        demoClickState 1 2 7).1.score = demoClickState.score + 100 ∧
     (handleCellClickOp (fun _ => demoRand) (fun _ => demoRand)
        demoClickState 1 2 7).1.remain = demoClickState.remain - 2 ∧
     Event.drawLineEv [(1, 1), (2, 1)] ∈
       (handleCellClickOp (fun _ => demoRand) (fun _ => demoRand)
         demoClickState 1 2 7).2 ∧
     (getCell (resolveDrawSuccessOp (fun _ => demoRand) (fun _ => demoRand)
        (handleCellClickOp (fun _ => demoRand) (fun _ => demoRand)
          demoClickState 1 2 7).1).1.pictures 1 1).isEmpty = true ∧
     (getCell (resolveDrawSuccessOp (fun _ => demoRand) (fun _ => demoRand)
        (handleCellClickOp (fun _ => demoRand) (fun _ => demoRand)
          demoClickState 1 2 7).1).1.pictures 1 2).isEmpty = true ∧
     (resolveDrawSuccessOp (fun _ => demoRand) (fun _ => demoRand)
        (handleCellClickOp (fun _ => demoRand) (fun _ => demoRand)
          demoClickState 1 2 7).1).1.steps = demoClickState.steps + 1) :=
  ⟨by decide,
   match_success_flow (fun _ => demoRand) (fun _ => demoRand) demoClickState
     ⟨1, 1, 7⟩ ⟨1, 2, 7⟩ [(1, 1), (2, 1)]
     (by decide) (by decide) (by decide) (by decide) (by decide) (by decide)
     (by decide) (by decide) (by decide)⟩

theorem resolveDrawErrorOp_reject (D F : Nat → AttemptRand) (s : EngineState)
    (hp : s.pending = Pending.reject) :
    resolveDrawErrorOp D F s = errorCont D F { s with pending := Pending.idle } := by
  unfold resolveDrawErrorOp
  rw [hp]

set_option maxHeartbeats 1000000 in
theorem handleCellClickOp_steps_le (D F : Nat → AttemptRand) (s : EngineState)
    (row col index : Nat) :
    s.steps ≤ (handleCellClickOp D F s row col index).1.steps := by
  unfold handleCellClickOp checkMatchOp
  dsimp only
  repeat' split
  all_goals first
    | (dsimp only; rw [successCont_steps]; exact Nat.le_succ _)
    | exact Nat.le_refl _

theorem tickOp_steps (s : EngineState) : (tickOp s).1.steps = s.steps := by
  unfold tickOp updateCountDown gameOverOp
  dsimp only
  repeat' split
  all_goals rfl

theorem resolveDrawSuccessOp_steps_le (D F : Nat → AttemptRand) (s : EngineState) :
    s.steps ≤ (resolveDrawSuccessOp D F s).1.steps := by
  unfold resolveDrawSuccessOp
  split
  · rw [successCont_steps]
    exact Nat.le_succ _
  · exact Nat.le_refl _
  · exact Nat.le_refl _

theorem resolveDrawErrorOp_steps_le (D F : Nat → AttemptRand) (s : EngineState) :
    s.steps ≤ (resolveDrawErrorOp D F s).1.steps := by
  unfold resolveDrawErrorOp
  split
  · rw [errorCont_steps]
    exact Nat.le_succ _
  · exact Nat.le_refl _
  · exact Nat.le_refl _

/-- Claim C6: the step counter never decreases under clicks, countdown
ticks or draw acknowledgments; an acknowledged match attempt (successful
connection, or matching letters whose connection failed) advances it by
exactly one; and a second click whose letter does not match the first
advances it by exactly zero, the second click becoming the new first
pick. -/
theorem step_monotonicity (D F : Nat → AttemptRand) (s : EngineState)
    (pre cur : ClickInfo) (row col index : Nat)
    (hR : ¬ s.remain ≤ 0) (hA : s.isAnimating = false)
    (hocc : (getCell s.pictures cur.row cur.col).isEmpty = false)
    (hsel : (match s.selectedCell with
             | some sel => sel.row == cur.row && sel.col == cur.col
             | none => false) = false)
    (hpre : s.preClickInfo = some pre)
    (hmm : isMatchChar (getCell s.pictures pre.row pre.col).pic
      (getCell s.pictures cur.row cur.col).pic = false) :
    s.steps ≤ (handleCellClickOp D F s row col index).1.steps ∧
    s.steps ≤ (resolveDrawSuccessOp D F s).1.steps ∧
    s.steps ≤ (resolveDrawErrorOp D F s).1.steps ∧
    (tickOp s).1.steps = s.steps ∧
    (∀ pr pc cr cc pi ci, s.pending = Pending.success pr pc cr cc pi ci →
      (resolveDrawSuccessOp D F s).1.steps = s.steps + 1) ∧
    (s.pending = Pending.reject →
      (resolveDrawErrorOp D F s).1.steps = s.steps + 1) ∧
    handleCellClickOp D F s cur.row cur.col cur.index =
      ({ s with preClickInfo := some cur, selectedCell := some cur },
       [Event.hint [], Event.selectedCellChange (some cur)]) := by
  refine ⟨handleCellClickOp_steps_le D F s row col index,
    resolveDrawSuccessOp_steps_le D F s, resolveDrawErrorOp_steps_le D F s,
    tickOp_steps s, ?_, ?_, ?_⟩
  · intro pr pc cr cc pi ci hp
    rw [resolveDrawSuccessOp_success D F s pr pc cr cc pi ci hp, successCont_steps]
  · intro hp
    rw [resolveDrawErrorOp_reject D F s hp, errorCont_steps]
  · unfold handleCellClickOp
    rw [if_neg hR]
    rw [if_neg (by rw [hA]; exact Bool.false_ne_true)]
    unfold checkMatchOp
    dsimp only
    rw [hocc]
    rw [if_neg Bool.false_ne_true]
    rw [hsel]
    rw [if_neg Bool.false_ne_true]
    rw [hpre]
    dsimp only
    rw [hmm]
    rw [if_neg Bool.false_ne_true]

/-- A mid-session state on the blocked demo board with a pending rejected
draw acknowledgment and the cell `(1,1)` selected. -/
def demoMismatchState : EngineState :=
  { mkEngine 4 4 120 true with
    count := 4, remain := 4, pictures := demoGridBlocked, leftTime := 120,
    timerActive := true, preClickInfo := some ⟨1, 1, 0⟩,
    selectedCell := some ⟨1, 1, 0⟩, pending := Pending.reject }

/-- Step monotonicity at a concrete state: a click cannot lower the steps,
acknowledging the rejected attempt advances them by exactly one, and
clicking the non-matching letter `b` re-picks it without advancing. -/
theorem step_monotonicity_witness :
    ((¬ demoMismatchState.remain ≤ 0) ∧ demoMismatchState.isAnimating = false ∧
     (getCell demoMismatchState.pictures 1 2).isEmpty = false ∧
     (match demoMismatchState.selectedCell with
      | some sel => sel.row == 1 && sel.col == 2
      | none => false) = false ∧
     demoMismatchState.preClickInfo = some ⟨1, 1, 0⟩ ∧
     isMatchChar (getCell demoMismatchState.pictures 1 1).pic
       (getCell demoMismatchState.pictures 1 2).pic = false ∧
     demoMismatchState.pending = Pending.reject) ∧
    demoMismatchState.steps ≤ (handleCellClickOp (fun _ => demoRand)
      (fun _ => demoRand) demoMismatchState 1 2 0).1.steps ∧
    (resolveDrawErrorOp (fun _ => demoRand) (fun _ => demoRand)
      demoMismatchState).1.steps = demoMismatchState.steps + 1 ∧
    handleCellClickOp (fun _ => demoRand) (fun _ => demoRand)
      demoMismatchState 1 2 0 =
      ({ demoMismatchState with
          preClickInfo := some ⟨1, 2, 0⟩, selectedCell := some ⟨1, 2, 0⟩ },
       [Event.hint [], Event.selectedCellChange (some ⟨1, 2, 0⟩)]) :=
  ⟨by decide,
   (step_monotonicity (fun _ => demoRand) (fun _ => demoRand) demoMismatchState
     ⟨1, 1, 0⟩ ⟨1, 2, 0⟩ 1 2 0 (by decide) (by decide) (by decide) (by decide)
     (by decide) (by decide)).1,
   (step_monotonicity (fun _ => demoRand) (fun _ => demoRand) demoMismatchState
     ⟨1, 1, 0⟩ ⟨1, 2, 0⟩ 1 2 0 (by decide) (by decide) (by decide) (by decide)
     (by decide) (by decide)).2.2.2.2.2.1 (by decide),
   (step_monotonicity (fun _ => demoRand) (fun _ => demoRand) demoMismatchState
     ⟨1, 1, 0⟩ ⟨1, 2, 0⟩ 1 2 0 (by decide) (by decide) (by decide) (by decide)
     (by decide) (by decide)).2.2.2.2.2.2⟩

/-- Claim C10 (amended): with `onDrawLine` unset, a matching pair that
cannot be connected leaves the engine animating forever: the failed-draw
branch passes the rejection continuation to `drawLine`, which without the
callback runs only the no-op success argument.  `isAnimating` stays true,
the step counter and the first pick are untouched, no rejection is
recorded, and every later click returns unchanged with no events.  The
selection, however, IS cleared (`drawLine` clears it before consulting the
callback) -- the original claim's never-cleared-selection part is refuted
by the counterexample. -/
theorem null_drawline_stuck (D F : Nat → AttemptRand) (s : EngineState)
    (pre cur : ClickInfo) (row2 col2 index2 : Nat)
    (hR : ¬ s.remain ≤ 0) (hA : s.isAnimating = false)
    (hocc : (getCell s.pictures cur.row cur.col).isEmpty = false)
    (hsel : (match s.selectedCell with
             | some sel => sel.row == cur.row && sel.col == cur.col
             | none => false) = false)
    (hpre : s.preClickInfo = some pre)
    (hmatch : isMatchChar (getCell s.pictures pre.row pre.col).pic
      (getCell s.pictures cur.row cur.col).pic = true)
    (hpath : canCleanup s.pictures s.rows s.cols pre.col pre.row cur.col cur.row =
      none)
    (hcb : s.drawLineCb = false) :
    handleCellClickOp D F s cur.row cur.col cur.index =
      ({ s with isAnimating := true, selectedCell := none },
       [Event.hint [],
        Event.shakeEffect
          [(pre.row, pre.col, (getCell s.pictures pre.row pre.col).pic),
           (cur.row, cur.col, (getCell s.pictures cur.row cur.col).pic)],
        Event.selectedCellChange none]) ∧
    (handleCellClickOp D F s cur.row cur.col cur.index).1.steps = s.steps ∧
    (handleCellClickOp D F s cur.row cur.col cur.index).1.preClickInfo = some pre ∧
    (handleCellClickOp D F s cur.row cur.col cur.index).1.pending = s.pending ∧
    handleCellClickOp D F { s with isAnimating := true, selectedCell := none }
      row2 col2 index2 =
      ({ s with isAnimating := true, selectedCell := none }, []) := by
  have hclick : handleCellClickOp D F s cur.row cur.col cur.index =
      ({ s with isAnimating := true, selectedCell := none },
       [Event.hint [],
        Event.shakeEffect
          [(pre.row, pre.col, (getCell s.pictures pre.row pre.col).pic),
           (cur.row, cur.col, (getCell s.pictures cur.row cur.col).pic)],
        Event.selectedCellChange none]) := by
    unfold handleCellClickOp
    rw [if_neg hR]
    rw [if_neg (by rw [hA]; exact Bool.false_ne_true)]
    unfold checkMatchOp
    dsimp only
    rw [hocc]
    rw [if_neg Bool.false_ne_true]
    rw [hsel]
    rw [if_neg Bool.false_ne_true]
    rw [hpre]
    dsimp only
    rw [hmatch, if_pos rfl]
    rw [hpath]
    dsimp only
    rw [hcb]
    rw [if_neg Bool.false_ne_true]
    rfl
  refine ⟨hclick, ?_, ?_, ?_, ?_⟩
  · rw [hclick]
  · rw [hclick]
    dsimp only
    exact hpre
  · rw [hclick]
  · unfold handleCellClickOp
    dsimp only
    rw [if_neg hR]
    rw [if_pos rfl]

/-- The blocked demo board mid-session, `onDrawLine` unset, cell `(1,1)`
selected. -/
def demoStuckState : EngineState :=
  { mkEngine 4 4 120 false with
    count := 4, remain := 4, pictures := demoGridBlocked, leftTime := 120,
    timerActive := true, preClickInfo := some ⟨1, 1, 0⟩,
    selectedCell := some ⟨1, 1, 0⟩ }

/-- C10, counterexample: the stuck attempt does clear the selection --
`drawLine` nulls `selectedCell` before it ever consults `onDrawLine`, so
"the selection is never cleared by that attempt" fails. -/
theorem null_drawline_stuck_cex :
    demoStuckState.selectedCell = some ⟨1, 1, 0⟩ ∧
    (handleCellClickOp (fun _ => demoRand) (fun _ => demoRand)
      demoStuckState 2 2 0).1.selectedCell = none := by
  decide

/-- The stuck-forever behaviour at the blocked demo board: the click on the
unconnectable partner leaves the engine animating with the first pick and
pending slot untouched and the steps unchanged, and a further click is
ignored. -/
theorem null_drawline_stuck_witness :
    ((¬ demoStuckState.remain ≤ 0) ∧ demoStuckState.isAnimating = false ∧
     (getCell demoStuckState.pictures 2 2).isEmpty = false ∧
     (match demoStuckState.selectedCell with
      | some sel => sel.row == 2 && sel.col == 2
      | none => false) = false ∧
     demoStuckState.preClickInfo = some ⟨1, 1, 0⟩ ∧
     isMatchChar (getCell demoStuckState.pictures 1 1).pic
       (getCell demoStuckState.pictures 2 2).pic = true ∧
     canCleanup demoStuckState.pictures demoStuckState.rows demoStuckState.cols
       1 1 2 2 = none ∧
     demoStuckState.drawLineCb = false) ∧
    (handleCellClickOp (fun _ => demoRand) (fun _ => demoRand)
       demoStuckState 2 2 0 =
      ({ demoStuckState with isAnimating := true, selectedCell := none },
       [Event.hint [],
        Event.shakeEffect
          [(1, 1, (getCell demoStuckState.pictures 1 1).pic),
           (2, 2, (getCell demoStuckState.pictures 2 2).pic)],
        Event.selectedCellChange none]) ∧
     (handleCellClickOp (fun _ => demoRand) (fun _ => demoRand)
       demoStuckState 2 2 0).1.steps = demoStuckState.steps ∧
     (handleCellClickOp (fun _ => demoRand) (fun _ => demoRand)
       demoStuckState 2 2 0).1.preClickInfo = some ⟨1, 1, 0⟩ ∧
     (handleCellClickOp (fun _ => demoRand) (fun _ => demoRand)
       demoStuckState 2 2 0).1.pending = demoStuckState.pending ∧
     handleCellClickOp (fun _ => demoRand) (fun _ => demoRand)
       { demoStuckState with isAnimating := true, selectedCell := none } 1 2 0 =
       ({ demoStuckState with isAnimating := true, selectedCell := none }, [])) :=
  ⟨by decide,
   null_drawline_stuck (fun _ => demoRand) (fun _ => demoRand) demoStuckState
     ⟨1, 1, 0⟩ ⟨2, 2, 0⟩ 1 2 0 (by decide) (by decide) (by decide) (by decide)
     (by decide) (by decide) (by decide) (by decide)⟩

/-- Every cell on the outer frame of the `rows × cols` grid is empty. -/
def BorderEmpty (g : Grid) (rows cols : Nat) : Prop :=
  ∀ r c, r < rows → c < cols →
    (r = 0 ∨ r = rows - 1 ∨ c = 0 ∨ c = cols - 1) →
    (getCell g r c).isEmpty = true

theorem borderEmpty_initializeEmptyMap (rows cols : Nat) :
    BorderEmpty (initializeEmptyMap rows cols) rows cols := by
  intro r c _ _ _
  rw [getCell_initializeEmptyMap]
  rfl

theorem borderEmpty_clearCell (g : Grid) (rows cols r c : Nat)
    (hb : BorderEmpty g rows cols) : BorderEmpty (clearCell g r c) rows cols := by
  intro r' c' h1 h2 h3
  exact isEmpty_clearCell_true g r c r' c' (hb r' c' h1 h2 h3)

theorem borderEmpty_assignAll (rows cols : Nat) :
    ∀ (l : List ((Nat × Nat) × CharacterInfo)) (g : Grid),
    BorderEmpty g rows cols → BorderEmpty (assignAll g l) rows cols := by
  intro l
  induction l with
  | nil => intro g hb; exact hb
  | cons q rest ih =>
    intro g hb
    refine ih (assignChar g q.1 q.2) ?_
    intro r' c' h1 h2 h3
    rw [isEmpty_assignChar]
    exact hb r' c' h1 h2 h3

theorem valid_ne_border (rows cols : Nat) (p : Nat × Nat) (r c : Nat)
    (hp : p ∈ allValidPositions rows cols)
    (hbord : r = 0 ∨ r = rows - 1 ∨ c = 0 ∨ c = cols - 1)
    (hr : r < rows) (hc : c < cols) : r ≠ p.1 ∨ c ≠ p.2 := by
  have hm := (mem_allValidPositions rows cols p.1 p.2).mp (by
    rw [show ((p.1, p.2) : Nat × Nat) = p from rfl]
    exact hp)
  rcases hbord with h | h | h | h
  · left; omega
  · left; omega
  · right; omega
  · right; omega

theorem borderEmpty_placeAllFrom (rows cols : Nat) (tags : Nat → Nat) :
    ∀ (ps : List ((Nat × Nat) × Char)) (k : Nat) (g : Grid),
    (∀ q ∈ ps, q.1 ∈ allValidPositions rows cols) →
    BorderEmpty g rows cols →
    BorderEmpty (placeAllFrom tags k g ps) rows cols := by
  intro ps
  induction ps with
  | nil => intro k g _ hb; exact hb
  | cons q rest ih =>
    intro k g hpos hb
    refine ih (k + 1) _ (fun q' hq' => hpos q' (List.mem_cons_of_mem _ hq')) ?_
    intro r' c' h1 h2 h3
    rw [placeLetter, getCell_setCell_ne _ _ _ _ _ _
      (valid_ne_border rows cols q.1 r' c' (hpos q (by simp)) h3 h1 h2)]
    exact hb r' c' h1 h2 h3

theorem insertGroup_total (m : List (Char × List Char)) (key : Char) (c : Char) :
    ((insertGroup m key c).map fun q => q.2.length).sum =
    ((m.map fun q => q.2.length).sum) + 1 := by
  induction m with
  | nil => rfl
  | cons q rest ih =>
    rw [insertGroup]
    split
    · simp only [List.map_cons, List.sum_cons, List.length_append,
        List.length_cons, List.length_nil]
      omega
    · simp only [List.map_cons, List.sum_cons, ih]
      omega

theorem foldl_insertGroup_total (letters : List Char) :
    ∀ (m : List (Char × List Char)),
    (((letters.foldl (fun m c => insertGroup m c.toLower c) m).map
      fun q => q.2.length).sum) =
    ((m.map fun q => q.2.length).sum) + letters.length := by
  induction letters with
  | nil => intro m; simp
  | cons c rest ih =>
    intro m
    rw [List.foldl_cons, ih, insertGroup_total]
    simp only [List.length_cons]
    omega

theorem two_mul_filter_two_le (ls : List (List Char)) :
    2 * (ls.filter fun grp => grp.length == 2).length ≤ (ls.map List.length).sum := by
  induction ls with
  | nil => simp
  | cons l rest ih =>
    rw [List.filter_cons, List.map_cons, List.sum_cons]
    split
    · rename_i h
      rw [List.length_cons]
      have h2 : l.length = 2 := by simpa using h
      omega
    · omega

theorem groupIntoLetterPairs_two_mul_le (letters : List Char) :
    2 * (groupIntoLetterPairs letters).length ≤ letters.length := by
  unfold groupIntoLetterPairs
  dsimp only
  have h1 := two_mul_filter_two_le
    ((letters.foldl (fun m c => insertGroup m c.toLower c) []).map Prod.snd)
  have h2 : ((((letters.foldl (fun m c => insertGroup m c.toLower c) []).map
      Prod.snd).map List.length).sum) = letters.length := by
    rw [List.map_map]
    have h3 := foldl_insertGroup_total letters []
    simpa [Function.comp] using h3
  rw [h2] at h1
  exact h1

theorem borderEmpty_edge (r : AttemptRand) (rows cols : Nat) (t : Char)
    (hn : (rows - 2) * (cols - 2) ≠ 1) :
    BorderEmpty (generateMapWithEdgePriority r rows cols t
      (initializeEmptyMap rows cols)) rows cols := by
  have hres : generateMapWithEdgePriority r rows cols t (initializeEmptyMap rows cols) =
      placeAll r.tag (initializeEmptyMap rows cols)
        (edgePlace (sortPositionsByEdge rows cols (allValidPositions rows cols))
          (groupIntoLetterPairs (generateLetterPairs r rows cols t))) := rfl
  rw [hres]
  by_cases h0 : (rows - 2) * (cols - 2) = 0
  · have hnil : sortPositionsByEdge rows cols (allValidPositions rows cols) = [] := by
      have hp := sortPositionsByEdge_perm rows cols (allValidPositions rows cols)
      exact List.perm_nil.mp (hp.trans
        (by rw [allValidPositions_eq_nil rows cols h0]))
    rw [hnil]
    have hplnil : edgePlace []
        (groupIntoLetterPairs (generateLetterPairs r rows cols t)) = [] := by
      cases groupIntoLetterPairs (generateLetterPairs r rows cols t) with
      | nil => rfl
      | cons a l => rfl
    rw [hplnil]
    exact borderEmpty_initializeEmptyMap rows cols
  · have h2 : 2 ≤ (rows - 2) * (cols - 2) := by omega
    have hlen2 : 2 * (groupIntoLetterPairs (generateLetterPairs r rows cols t)).length ≤
        (sortPositionsByEdge rows cols (allValidPositions rows cols)).length := by
      rw [(sortPositionsByEdge_perm rows cols _).length_eq, allValidPositions_length]
      have ha := groupIntoLetterPairs_two_mul_le (generateLetterPairs r rows cols t)
      have hbnd := generateLetterPairs_length_le r rows cols t h2
      omega
    have hfst := edgePlace_map_fst _ _ hlen2
    refine borderEmpty_placeAllFrom rows cols r.tag _ 0 _ ?_
      (borderEmpty_initializeEmptyMap rows cols)
    intro q hq
    have hq1 : q.1 ∈ (edgePlace
        (sortPositionsByEdge rows cols (allValidPositions rows cols))
        (groupIntoLetterPairs (generateLetterPairs r rows cols t))).map Prod.fst :=
      List.mem_map_of_mem Prod.fst hq
    rw [hfst] at hq1
    exact (sortPositionsByEdge_perm rows cols _).mem_iff.mp
      ((List.take_sublist _ _).mem hq1)

theorem borderEmpty_traditional (r : AttemptRand) (rows cols : Nat) (t : Char) :
    BorderEmpty (generateMapTraditional r rows cols t (initializeEmptyMap rows cols))
      rows cols := by
  refine borderEmpty_placeAllFrom rows cols r.tag _ 0 _ ?_
    (borderEmpty_initializeEmptyMap rows cols)
  rintro ⟨p, ch⟩ hq
  exact (List.of_mem_zip hq).1

theorem borderEmpty_template (r : AttemptRand) (rows cols : Nat) (t : Char) :
    BorderEmpty (generateSolvableTemplate r rows cols t) rows cols := by
  refine borderEmpty_placeAllFrom rows cols r.tag _ 0 _ ?_
    (borderEmpty_initializeEmptyMap rows cols)
  exact templatePlacements_pos_valid rows cols _

theorem borderEmpty_generateRandomMapLoop (R : Nat → AttemptRand) (rows cols : Nat)
    (t : Char) (hn : (rows - 2) * (cols - 2) ≠ 1) (attempts : Nat) :
    BorderEmpty (generateRandomMapLoop R rows cols t attempts).1 rows cols := by
  rw [generateRandomMapLoop]
  repeat' split
  all_goals first
    | exact borderEmpty_generateRandomMapLoop R rows cols t hn (attempts + 1)
    | exact borderEmpty_edge (R attempts) rows cols t hn
    | exact borderEmpty_traditional (R attempts) rows cols t
termination_by 30 - attempts
decreasing_by all_goals omega

theorem borderEmpty_generateRandomMap (R : Nat → AttemptRand) (rows cols : Nat)
    (t : Char) (hn : (rows - 2) * (cols - 2) ≠ 1) :
    BorderEmpty (generateRandomMap R rows cols t) rows cols := by
  unfold generateRandomMap
  dsimp only
  split
  · exact borderEmpty_template (R 30) rows cols t
  · exact borderEmpty_generateRandomMapLoop R rows cols t hn 0

theorem borderEmpty_createMapLoop (G : Nat → Nat → AttemptRand) (rows cols : Nat)
    (t : Char) (hn : (rows - 2) * (cols - 2) ≠ 1) (attempts : Nat) :
    BorderEmpty (createMapLoop G rows cols t attempts).1 rows cols := by
  rw [createMapLoop]
  split
  · exact borderEmpty_createMapLoop G rows cols t hn (attempts + 1)
  · exact borderEmpty_generateRandomMap (G attempts) rows cols t hn
termination_by 100 - attempts
decreasing_by omega

theorem borderEmpty_createMapG (G : Nat → Nat → AttemptRand) (rows cols : Nat)
    (t : Char) (hn : (rows - 2) * (cols - 2) ≠ 1) :
    BorderEmpty (createMapG G rows cols t) rows cols :=
  borderEmpty_createMapLoop G rows cols t hn 0

theorem borderEmpty_strategies (r : AttemptRand) (rows cols : Nat) (g : Grid)
    (hb : BorderEmpty g rows cols) :
    BorderEmpty (smartDisorderEdgeFirst r rows cols g) rows cols ∧
    BorderEmpty (smartDisorderSpread rows cols g) rows cols ∧
    BorderEmpty (randomDisorder r rows cols g) rows cols ∧
    BorderEmpty (generateLinearLayout rows cols g) rows cols :=
  ⟨borderEmpty_assignAll rows cols _ g hb, borderEmpty_assignAll rows cols _ g hb,
   borderEmpty_assignAll rows cols _ g hb, borderEmpty_assignAll rows cols _ g hb⟩

theorem borderEmpty_disorderLoop (D : Nat → AttemptRand) (rows cols : Nat)
    (g : Grid) (hb : BorderEmpty g rows cols) (attempts : Nat) :
    BorderEmpty (disorderLoop D rows cols g attempts).1 rows cols := by
  rw [disorderLoop]
  set g2 := (if attempts < 50 then
      smartDisorderEdgeFirst (D attempts) rows cols g
      else if attempts < 100 then smartDisorderSpread rows cols g
      else randomDisorder (D attempts) rows cols g) with hg2
  have hg : BorderEmpty g2 rows cols := by
    rw [hg2]
    split
    · exact (borderEmpty_strategies (D attempts) rows cols g hb).1
    · split
      · exact (borderEmpty_strategies (D attempts) rows cols g hb).2.1
      · exact (borderEmpty_strategies (D attempts) rows cols g hb).2.2.1
  split
  · exact borderEmpty_disorderLoop D rows cols g2 hg (attempts + 1)
  · exact hg
termination_by 200 - attempts
decreasing_by omega

theorem borderEmpty_disorderG (D F : Nat → AttemptRand) (rows cols : Nat) (t : Char)
    (g : Grid) (hn : (rows - 2) * (cols - 2) ≠ 1) (hb : BorderEmpty g rows cols) :
    BorderEmpty (disorderG D F rows cols t g) rows cols := by
  unfold disorderG
  dsimp only
  split
  · split
    · exact borderEmpty_assignAll rows cols _ _
        (borderEmpty_generateRandomMap F rows cols t hn)
    · exact borderEmpty_generateRandomMap F rows cols t hn
  · exact borderEmpty_disorderLoop D rows cols g hb 0

theorem borderEmpty_updateStepsOp (D F : Nat → AttemptRand) (s : EngineState)
    (hn : (s.rows - 2) * (s.cols - 2) ≠ 1)
    (hb : BorderEmpty s.pictures s.rows s.cols) :
    BorderEmpty (updateStepsOp D F s).1.pictures s.rows s.cols ∧
    (updateStepsOp D F s).1.rows = s.rows ∧
    (updateStepsOp D F s).1.cols = s.cols := by
  unfold updateStepsOp gameOverOp
  dsimp only
  have hbg := borderEmpty_disorderG D F s.rows s.cols s.targetLetter s.pictures hn hb
  generalize hg2 : disorderG D F s.rows s.cols s.targetLetter s.pictures = g2
  rw [hg2] at hbg
  repeat' split
  all_goals refine ⟨?_, rfl, rfl⟩
  all_goals first
    | exact hb
    | exact hbg

theorem borderEmpty_updateStatusOp (s : EngineState) (pr pc cr cc : Nat)
    (hb : BorderEmpty s.pictures s.rows s.cols) :
    BorderEmpty (updateStatusOp s pr pc cr cc).1.pictures s.rows s.cols ∧
    (updateStatusOp s pr pc cr cc).1.rows = s.rows ∧
    (updateStatusOp s pr pc cr cc).1.cols = s.cols := by
  obtain ⟨h1, -, -, -, h5, h6⟩ := updateStatusOp_fields s pr pc cr cc
  refine ⟨?_, h5, h6⟩
  rw [h1]
  exact borderEmpty_clearCell _ _ _ _ _ (borderEmpty_clearCell _ _ _ _ _ hb)

theorem borderEmpty_successCont (D F : Nat → AttemptRand) (s : EngineState)
    (pr pc cr cc : Nat) (hn : (s.rows - 2) * (s.cols - 2) ≠ 1)
    (hb : BorderEmpty s.pictures s.rows s.cols) :
    BorderEmpty (successCont D F s pr pc cr cc).1.pictures s.rows s.cols ∧
    (successCont D F s pr pc cr cc).1.rows = s.rows ∧
    (successCont D F s pr pc cr cc).1.cols = s.cols := by
  obtain ⟨hb1, hr1, hc1⟩ := borderEmpty_updateStatusOp s pr pc cr cc hb
  obtain ⟨hb2, hr2, hc2⟩ := borderEmpty_updateStepsOp D F
    (updateStatusOp s pr pc cr cc).1 (by rw [hr1, hc1]; exact hn)
    (by rw [hr1, hc1]; exact hb1)
  rw [hr1, hc1] at hb2
  rw [hr1] at hr2
  rw [hc1] at hc2
  unfold successCont
  dsimp only
  exact ⟨hb2, hr2, hc2⟩

theorem borderEmpty_errorCont (D F : Nat → AttemptRand) (s : EngineState)
    (hn : (s.rows - 2) * (s.cols - 2) ≠ 1)
    (hb : BorderEmpty s.pictures s.rows s.cols) :
    BorderEmpty (errorCont D F s).1.pictures s.rows s.cols ∧
    (errorCont D F s).1.rows = s.rows ∧
    (errorCont D F s).1.cols = s.cols := by
  unfold errorCont
  dsimp only
  exact borderEmpty_updateStepsOp D F
    { s with preClickInfo := none, selectedCell := none, isAnimating := false }
    (by exact hn) (by exact hb)

theorem borderEmpty_checkMatchOp (D F : Nat → AttemptRand) (s : EngineState)
    (cur : ClickInfo) (hn : (s.rows - 2) * (s.cols - 2) ≠ 1)
    (hb : BorderEmpty s.pictures s.rows s.cols) :
    BorderEmpty (checkMatchOp D F s cur).1.pictures s.rows s.cols ∧
    (checkMatchOp D F s cur).1.rows = s.rows ∧
    (checkMatchOp D F s cur).1.cols = s.cols := by
  unfold checkMatchOp
  dsimp only
  split
  · exact ⟨hb, rfl, rfl⟩
  split
  · exact ⟨hb, rfl, rfl⟩
  split
  · exact ⟨hb, rfl, rfl⟩
  rename_i pre heq
  split
  · split
    · split
      · exact ⟨hb, rfl, rfl⟩
      · dsimp only
        exact borderEmpty_successCont D F
          { s with
            score := s.score + 100, remain := s.remain - 2, isAnimating := true,
            selectedCell := none }
          pre.row pre.col cur.row cur.col (by exact hn) (by exact hb)
    · split
      · exact ⟨hb, rfl, rfl⟩
      · exact ⟨hb, rfl, rfl⟩
  · exact ⟨hb, rfl, rfl⟩

theorem borderEmpty_handleCellClickOp (D F : Nat → AttemptRand) (s : EngineState)
    (row col index : Nat) (hn : (s.rows - 2) * (s.cols - 2) ≠ 1)
    (hb : BorderEmpty s.pictures s.rows s.cols) :
    BorderEmpty (handleCellClickOp D F s row col index).1.pictures s.rows s.cols ∧
    (handleCellClickOp D F s row col index).1.rows = s.rows ∧
    (handleCellClickOp D F s row col index).1.cols = s.cols := by
  unfold handleCellClickOp
  dsimp only
  split
  · exact ⟨hb, rfl, rfl⟩
  split
  · exact ⟨hb, rfl, rfl⟩
  exact borderEmpty_checkMatchOp D F s ⟨row, col, index⟩ hn hb

theorem borderEmpty_resolveDrawSuccessOp (D F : Nat → AttemptRand)
    (s : EngineState) (hn : (s.rows - 2) * (s.cols - 2) ≠ 1)
    (hb : BorderEmpty s.pictures s.rows s.cols) :
    BorderEmpty (resolveDrawSuccessOp D F s).1.pictures s.rows s.cols ∧
    (resolveDrawSuccessOp D F s).1.rows = s.rows ∧
    (resolveDrawSuccessOp D F s).1.cols = s.cols := by
  unfold resolveDrawSuccessOp
  split
  · rename_i pr pc cr cc pi ci heq
    exact borderEmpty_successCont D F { s with pending := Pending.idle }
      pr pc cr cc (by exact hn) (by exact hb)
  · exact ⟨hb, rfl, rfl⟩
  · exact ⟨hb, rfl, rfl⟩

theorem borderEmpty_resolveDrawErrorOp (D F : Nat → AttemptRand)
    (s : EngineState) (hn : (s.rows - 2) * (s.cols - 2) ≠ 1)
    (hb : BorderEmpty s.pictures s.rows s.cols) :
    BorderEmpty (resolveDrawErrorOp D F s).1.pictures s.rows s.cols ∧
    (resolveDrawErrorOp D F s).1.rows = s.rows ∧
    (resolveDrawErrorOp D F s).1.cols = s.cols := by
  unfold resolveDrawErrorOp
  split
  · exact borderEmpty_errorCont D F { s with pending := Pending.idle }
      (by exact hn) (by exact hb)
  · exact ⟨hb, rfl, rfl⟩
  · exact ⟨hb, rfl, rfl⟩

theorem borderEmpty_tickOp (s : EngineState)
    (hb : BorderEmpty s.pictures s.rows s.cols) :
    BorderEmpty (tickOp s).1.pictures s.rows s.cols ∧
    (tickOp s).1.rows = s.rows ∧ (tickOp s).1.cols = s.cols := by
  unfold tickOp updateCountDown gameOverOp
  dsimp only
  repeat' split
  all_goals exact ⟨hb, rfl, rfl⟩

theorem borderEmpty_handleDisorderOp (D F : Nat → AttemptRand) (s : EngineState)
    (hn : (s.rows - 2) * (s.cols - 2) ≠ 1)
    (hb : BorderEmpty s.pictures s.rows s.cols) :
    BorderEmpty (handleDisorderOp D F s).1.pictures s.rows s.cols ∧
    (handleDisorderOp D F s).1.rows = s.rows ∧
    (handleDisorderOp D F s).1.cols = s.cols := by
  unfold handleDisorderOp
  split
  · exact ⟨borderEmpty_disorderG D F s.rows s.cols s.targetLetter s.pictures hn hb,
      rfl, rfl⟩
  · exact ⟨hb, rfl, rfl⟩

theorem borderEmpty_initOp (G : Nat → Nat → AttemptRand) (D F : Nat → AttemptRand)
    (s : EngineState) (hn : (s.rows - 2) * (s.cols - 2) ≠ 1) :
    BorderEmpty (initOp G D F s).1.pictures s.rows s.cols ∧
    (initOp G D F s).1.rows = s.rows ∧
    (initOp G D F s).1.cols = s.cols := by
  unfold initOp
  dsimp only
  exact ⟨borderEmpty_disorderG D F s.rows s.cols s.targetLetter _ hn
    (borderEmpty_createMapG G s.rows s.cols s.targetLetter hn), rfl, rfl⟩

theorem borderEmpty_restartGameOp (G : Nat → Nat → AttemptRand)
    (D F : Nat → AttemptRand) (s : EngineState)
    (hn : (s.rows - 2) * (s.cols - 2) ≠ 1) :
    BorderEmpty (restartGameOp G D F s).1.pictures s.rows s.cols ∧
    (restartGameOp G D F s).1.rows = s.rows ∧
    (restartGameOp G D F s).1.cols = s.cols := by
  unfold restartGameOp
  dsimp only
  exact borderEmpty_initOp G D F
    { s with score := 0, steps := 0, leftDisorderTime := 5, selectedCell := none }
    (by exact hn)

/-- One externally triggerable operation of the engine, for arbitrary
random outcomes. -/
inductive Step : EngineState → EngineState → Prop
  | stepInit (G : Nat → Nat → AttemptRand) (D F : Nat → AttemptRand)
      (s : EngineState) : Step s (initOp G D F s).1
  | stepStart (G : Nat → Nat → AttemptRand) (D F : Nat → AttemptRand)
      (s : EngineState) : Step s (startGameOp G D F s).1
  | stepRestart (G : Nat → Nat → AttemptRand) (D F : Nat → AttemptRand)
      (s : EngineState) : Step s (restartGameOp G D F s).1
  | stepTick (s : EngineState) : Step s (tickOp s).1
  | stepClick (D F : Nat → AttemptRand) (s : EngineState) (row col index : Nat) :
      Step s (handleCellClickOp D F s row col index).1
  | stepAckSuccess (D F : Nat → AttemptRand) (s : EngineState) :
      Step s (resolveDrawSuccessOp D F s).1
  | stepAckError (D F : Nat → AttemptRand) (s : EngineState) :
      Step s (resolveDrawErrorOp D F s).1
  | stepReshuffle (D F : Nat → AttemptRand) (s : EngineState) :
      Step s (handleDisorderOp D F s).1
  | stepSetTarget (s : EngineState) (c : Char) : Step s (setTargetLetterOp s c).1
  | stepDestroy (s : EngineState) : Step s (destroyOp s).1

/-- The states a session can be in after any number of operations. -/
inductive Reaches : EngineState → EngineState → Prop
  | refl (s : EngineState) : Reaches s s
  | tail {s t u : EngineState} : Reaches s t → Step t u → Reaches s u

theorem step_preserves_border {s t : EngineState} (hstep : Step s t)
    (hn : (s.rows - 2) * (s.cols - 2) ≠ 1)
    (hb : BorderEmpty s.pictures s.rows s.cols) :
    BorderEmpty t.pictures s.rows s.cols ∧ t.rows = s.rows ∧ t.cols = s.cols := by
  cases hstep with
  | stepInit G D F s => exact borderEmpty_initOp G D F s hn
  | stepStart G D F s => exact borderEmpty_initOp G D F s hn
  | stepRestart G D F s => exact borderEmpty_restartGameOp G D F s hn
  | stepTick s => exact borderEmpty_tickOp s hb
  | stepClick D F s row col index =>
    exact borderEmpty_handleCellClickOp D F s row col index hn hb
  | stepAckSuccess D F s => exact borderEmpty_resolveDrawSuccessOp D F s hn hb
  | stepAckError D F s => exact borderEmpty_resolveDrawErrorOp D F s hn hb
  | stepReshuffle D F s => exact borderEmpty_handleDisorderOp D F s hn hb
  | stepSetTarget s c => exact ⟨hb, rfl, rfl⟩
  | stepDestroy s => exact ⟨hb, rfl, rfl⟩

theorem reaches_border {s0 s : EngineState} (h : Reaches s0 s)
    (hn : (s0.rows - 2) * (s0.cols - 2) ≠ 1)
    (hb : BorderEmpty s0.pictures s0.rows s0.cols) :
    BorderEmpty s.pictures s0.rows s0.cols ∧ s.rows = s0.rows ∧ s.cols = s0.cols := by
  induction h with
  | refl => exact ⟨hb, rfl, rfl⟩
  | tail hreach hstep ih =>
    obtain ⟨hb1, hr1, hc1⟩ := ih
    rw [← hr1, ← hc1] at hb1
    obtain ⟨hb2, hr2, hc2⟩ := step_preserves_border hstep
      (by rw [hr1, hc1]; exact hn) hb1
    rw [hr1] at hb2 hr2
    rw [hc1] at hb2 hc2
    exact ⟨hb2, hr2, hc2⟩

/-- Claim C7: in every state a session can reach from a fresh engine --
through initialization, start, restart, countdown ticks, clicks, draw
acknowledgments, manual reshuffles, target changes and destruction, for
every random outcome -- every cell on row 0, row `rows - 1`, column 0 or
column `cols - 1` of the live grid is empty.  The single-cell play area,
where the source's edge-priority placement crashes, is excluded. -/
theorem border_immutability (rows cols : Nat) (initialTime : Int) (cb : Bool)
    (s : EngineState) (hn : (rows - 2) * (cols - 2) ≠ 1)
    (hreach : Reaches (mkEngine rows cols initialTime cb) s) :
    BorderEmpty s.pictures s.rows s.cols := by
  have h0 : BorderEmpty (mkEngine rows cols initialTime cb).pictures rows cols := by
    intro r c _ _ _
    rfl
  obtain ⟨hb, hr, hc⟩ := reaches_border hreach (by exact hn) (by exact h0)
  rw [hr, hc]
  exact hb

/-- Border emptiness of the demo session right after `init()` on the
3-by-4 board. -/
theorem border_immutability_witness :
    ((3 - 2) * (4 - 2) ≠ 1) ∧
    BorderEmpty
      (initOp (fun _ _ => demoRand) (fun _ => demoRand) (fun _ => demoRand)
        (mkEngine 3 4 120 false)).1.pictures
      (initOp (fun _ _ => demoRand) (fun _ => demoRand) (fun _ => demoRand)
        (mkEngine 3 4 120 false)).1.rows
      (initOp (fun _ _ => demoRand) (fun _ => demoRand) (fun _ => demoRand)
        (mkEngine 3 4 120 false)).1.cols :=
  ⟨by decide,
   border_immutability 3 4 120 false _ (by decide)
     (Reaches.tail (Reaches.refl _)
       (Step.stepInit (fun _ _ => demoRand) (fun _ => demoRand) (fun _ => demoRand)
         (mkEngine 3 4 120 false)))⟩
